import Mathlib

/-!
# coldbrew-cli: cluster-create, cluster-delete and the configuration check

A shallow embedding of `commands/clustercreate/command.go` and
`commands/clusterdelete/command.go`.  The remote control plane, the console and
the helpers that live outside these files are an oracle `Env` that fixes the
answer of every call; a run of a command is the list of calls it issues, in
order, together with the `return` statement it leaves through.

`config/validate.go` is embedded as a function of the configuration and of the
declarations of package core it reads.
-/

/-- The six resource kinds of a cluster.  In the commands they are the ECS
service role, the instance profile, the instance security group, the launch
configuration, the auto scaling group and the ECS cluster. -/
inductive ResourceKind
  | ServiceRole
  | InstanceProfile
  | InstanceSecurityGroup
  | LaunchTemplate
  | ScalingGroup
  | ComputeCluster
  deriving DecidableEq, Repr

/-- A Go `error`: one returned by the provider, with the AWS error code it
carries, in the two classes the provider interface distinguishes, or one the
command makes itself (`errors.New`, `fmt.Errorf`). -/
inductive Err
  | TransientError (code : String)
  | PermanentError (code : String)
  | other (msg : String)
  deriving DecidableEq, Repr

/-- The AWS error code of an error (`awsErr.Code()`); an error that is not an
AWS error has none. -/
def Err.code : Err → Option String
  | .TransientError c => some c
  | .PermanentError c => some c
  | .other _ => none

/-- Whether the error is one the provider classifies as permanent. -/
def Err.permanent : Err → Bool
  | .PermanentError _ => true
  | _ => false

/-- What a `Retrieve...` call finds: only the `Status` field is looked at
(`conv.S` of a nil status is the empty string). -/
structure Resource where
  Status : String
  deriving DecidableEq, Repr

/-- The tags of a resource, `map[string]string`. -/
abbrev Tags := List (String × String)

/-- The `return` statements of the two `Run` functions. -/
inductive Site
  | network
  | retrieve (k : ResourceKind)
  | tags (k : ResourceKind)
  | nothingToDo
  | declined
  | action (k : ResourceKind)
  deriving DecidableEq, Repr

/-- The lines `console.Printf` writes when an action starts. -/
inductive Message
  | creating (k : ResourceKind)
  | terminating
  | deleting (k : ResourceKind)
  deriving DecidableEq, Repr

/-- The calls a run issues.  `Create k i` and `Delete k i` are the provider
calls that create and delete the resource of kind `k` (for the instance profile
and the service role, the helper of the command that does so), `i` counting the
calls for `k` from 0; `Errorln s` is the `console.Errorln` of the error branch
labelled `s`. -/
inductive Event
  | getAWSNetwork
  | Retrieve (k : ResourceKind)
  | RetrieveTags (k : ResourceKind)
  | AskConfirm
  | Printf (m : Message)
  | RetrieveKeyPair
  | AskQuestion
  | Create (k : ResourceKind) (i : Nat)
  | AddInboundToSecurityGroup
  | waitAutoScalingGroupDeletion
  | scaleDownAutoScalingGroup
  | Delete (k : ResourceKind) (i : Nat)
  | Errorln (s : Site)
  deriving DecidableEq, Repr

/-- The answers of the collaborators.  `Create k i` and `Delete k i` answer the
call number `i` (from 0) of a run for kind `k`; `none` is a nil error. -/
structure Env where
  getAWSNetwork : Option Err
  Retrieve : ResourceKind → Except Err (Option Resource)
  RetrieveTags : ResourceKind → Except Err Tags
  AskConfirm : Bool
  RetrieveKeyPair : Except Err Bool
  AskQuestion : String
  getClusterImageID : String
  Create : ResourceKind → Nat → Option Err
  AddInboundToSecurityGroup : Option Err
  waitAutoScalingGroupDeletion : Option Err
  scaleDownAutoScalingGroup : Option Err
  Delete : ResourceKind → Nat → Option Err

/-- Where a run leaves `Run` before its last line, and the error it returns
there (`none` is nil). -/
structure Exit where
  site : Site
  ret : Option Err
  deriving DecidableEq, Repr

/-- A piece of a run: the calls issued, and either a value to go on with or
the `return` taken. -/
structure Prog (α : Type) where
  trace : List Event
  res : Except Exit α

namespace Prog

/-- Go on with `a`, no call issued. -/
def ok {α : Type} (a : α) : Prog α := ⟨[], .ok a⟩

/-- Sequencing: the second piece runs only when the first did not return. -/
def andThen {α β : Type} (p : Prog α) (f : α → Prog β) : Prog β :=
  match p.res with
  | .ok a => ⟨p.trace ++ (f a).trace, (f a).res⟩
  | .error x => ⟨p.trace, .error x⟩

instance : Monad Prog where
  pure := Prog.ok
  bind := Prog.andThen

/-- Issue one call. -/
def emit (e : Event) : Prog Unit := ⟨[e], .ok ()⟩

/-- Leave `Run` through the `return` labelled `s`, with error `r`. -/
def exit {α : Type} (s : Site) (r : Option Err) : Prog α := ⟨[], .error ⟨s, r⟩⟩

/-- The statement `if c { ... }`. -/
def ifThen (c : Bool) (p : Prog Unit) : Prog Unit := if c then p else pure ()

/-- The error value `Run` returns: nil when it reaches its last line. -/
def ret {α : Type} (p : Prog α) : Option Err :=
  match p.res with
  | .ok _ => none
  | .error x => x.ret

end Prog

open Prog

/-- Go's `unicode.IsSpace`. -/
def isSpace (c : Char) : Bool :=
  c.val ∈ [0x09, 0x0A, 0x0B, 0x0C, 0x0D, 0x20, 0x85, 0xA0, 0x1680, 0x2028, 0x2029, 0x202F,
    0x205F, 0x3000] || (0x2000 ≤ c.val && c.val ≤ 0x200A)

/-- The test `strings.TrimSpace(s) == ""`. -/
def blank (s : String) : Bool := s.data.all isSpace

namespace utils

/-- Modelled from the spec: `utils.IsBlank` is not under src; the claims use it
as "blank status", a string that `strings.TrimSpace` empties. -/
def IsBlank (s : String) : Bool := blank s

/-- Modelled from the spec: `utils.RetryOnAWSErrorCode` is not under src.  The
call is repeated while it fails with one of the listed codes, at most
`attempts` times in all; another error, or the last one, is returned.  Call
number `i` issues the event `ev i` and is answered by `fn i`. -/
def RetryOnAWSErrorCode (fn : Nat → Option Err) (ev : Nat → Event)
    (retryErrorCodes : List String) :
    (attempts : Nat) → (i : Nat) → Prog (Option Err)
  | 0, _ => pure none
  | n + 1, i => do
    emit (ev i)
    match fn i with
    | none => pure none
    | some e =>
      if (∃ c ∈ retryErrorCodes, e.code = some c) ∧ n ≠ 0 then
        RetryOnAWSErrorCode fn ev retryErrorCodes n (i + 1)
      else pure (some e)

end utils

namespace core

/-- Modelled from the spec: the constant is declared outside src; the spec calls
it the provenance marker `created-by-this-tool`. -/
def AWSTagNameCreatedTimestamp : String := "created-by-this-tool"

/-- Modelled from the spec: `core.ExitWithError` is not under src; a failure it
reports ends the process with a non-zero code, so it hands back a non-nil
error. -/
def ExitWithError (err : Err) : Option Err := some err

end core

/-- The check `_, ok := tags[core.AWSTagNameCreatedTimestamp]`. -/
def hasMarker (tags : Tags) : Bool := (tags.lookup core.AWSTagNameCreatedTimestamp).isSome

/-- The six booleans both commands set while they look at the resources
(`createX` in cluster-create, `deleteX` in cluster-delete). -/
structure Selection where
  ECSCluster : Bool
  ECSServiceRole : Bool
  LaunchConfiguration : Bool
  AutoScalingGroup : Bool
  InstanceProfile : Bool
  InstanceSecurityGroup : Bool
  deriving DecidableEq, Repr

/-- The boolean of kind `k`. -/
def Selection.has (s : Selection) : ResourceKind → Bool
  | .ComputeCluster => s.ECSCluster
  | .ServiceRole => s.ECSServiceRole
  | .LaunchTemplate => s.LaunchConfiguration
  | .ScalingGroup => s.AutoScalingGroup
  | .InstanceProfile => s.InstanceProfile
  | .InstanceSecurityGroup => s.InstanceSecurityGroup

/-- The test of both commands before the confirmation: no boolean is set. -/
def Selection.isEmpty (s : Selection) : Bool :=
  !s.ECSServiceRole && !s.ECSCluster && !s.LaunchConfiguration && !s.AutoScalingGroup &&
    !s.InstanceProfile && !s.InstanceSecurityGroup

namespace clusterdelete

/-- The flags `Run` reads, `ForceDelete` and `ContinueOnError`, as
`commands/delete/flags.go` declares them. -/
structure Flags where
  ForceDelete : Bool
  ContinueOnError : Bool
  deriving DecidableEq, Repr

/-- A `Retrieve...` call followed by
`if err != nil { return core.ExitWithErrorString(...) }`. -/
def retrieve (env : Env) (k : ResourceKind) : Prog (Option Resource) := do
  emit (.Retrieve k)
  match env.Retrieve k with
  | .error e => exit (.retrieve k) (core.ExitWithError e)
  | .ok r => pure r

/-- A `RetrieveTags...` call followed by the same error check. -/
def retrieveTags (env : Env) (k : ResourceKind) : Prog Tags := do
  emit (.RetrieveTags k)
  match env.RetrieveTags k with
  | .error e => exit (.tags k) (core.ExitWithError e)
  | .ok t => pure t

/-- Lines 50-59: the ECS cluster is deleted when found and not INACTIVE. -/
def findECSCluster (env : Env) : Prog Bool := do
  let ecsCluster ← retrieve env .ComputeCluster
  match ecsCluster with
  | some c => pure (c.Status != "INACTIVE")
  | none => pure false

/-- Lines 61-70, 72-81, 100-109: service role, launch configuration and
instance profile are deleted when found. -/
def findPresent (env : Env) (k : ResourceKind) : Prog Bool := do
  let r ← retrieve env k
  pure r.isSome

/-- Lines 83-98: the auto scaling group is deleted when found with a blank
status and the created-timestamp tag. -/
def findAutoScalingGroup (env : Env) : Prog Bool := do
  let autoScalingGroup ← retrieve env .ScalingGroup
  match autoScalingGroup with
  | some g =>
    if utils.IsBlank g.Status then do
      let tags ← retrieveTags env .ScalingGroup
      pure (hasMarker tags)
    else pure false
  | none => pure false

/-- Lines 111-126: the security group is deleted when found with the
created-timestamp tag. -/
def findInstanceSecurityGroup (env : Env) : Prog Bool := do
  let securityGroup ← retrieve env .InstanceSecurityGroup
  match securityGroup with
  | some _ => do
    let tags ← retrieveTags env .InstanceSecurityGroup
    pure (hasMarker tags)
  | none => pure false

/-- Lines 50-126 of `Run`: which resources to delete. -/
def identify (env : Env) : Prog Selection := do
  let deleteECSCluster ← findECSCluster env
  let deleteECSServiceRole ← findPresent env .ServiceRole
  let deleteLaunchConfiguration ← findPresent env .LaunchTemplate
  let deleteAutoScalingGroup ← findAutoScalingGroup env
  let deleteInstanceProfile ← findPresent env .InstanceProfile
  let deleteInstanceSecurityGroups ← findInstanceSecurityGroup env
  pure ⟨deleteECSCluster, deleteECSServiceRole, deleteLaunchConfiguration, deleteAutoScalingGroup,
    deleteInstanceProfile, deleteInstanceSecurityGroups⟩

/-- Lines 128-132: `return nil` when no boolean is set. -/
def nothingToDo (sel : Selection) : Prog Unit :=
  if sel.isEmpty then exit .nothingToDo none else pure ()

/-- Lines 134-137: `if !ForceDelete && !console.AskConfirm(...) { return nil }`;
the prompt is evaluated only when the flag is off. -/
def confirmation (env : Env) (flags : Flags) : Prog Unit :=
  if !flags.ForceDelete then do
    emit .AskConfirm
    if !env.AskConfirm then exit .declined none else pure ()
  else pure ()

/-- The error branch of every delete step:
`if ContinueOnError { console.Errorln(...) } else { return core.ExitWithError(err) }`. -/
def onError (flags : Flags) (k : ResourceKind) (err : Option Err) : Prog Unit :=
  match err with
  | none => pure ()
  | some e =>
    if flags.ContinueOnError then emit (.Errorln (.action k))
    else exit (.action k) (core.ExitWithError e)

/-- Lines 139-159: scale the group down, then delete it. -/
def deleteAutoScalingGroup (env : Env) (flags : Flags) : Prog Unit := do
  emit (.Printf .terminating)
  emit .scaleDownAutoScalingGroup
  match env.scaleDownAutoScalingGroup with
  | some e => onError flags .ScalingGroup (some e)
  | none => do
    emit (.Printf (.deleting .ScalingGroup))
    emit (.Delete .ScalingGroup 0)
    onError flags .ScalingGroup (env.Delete .ScalingGroup 0)

/-- Lines 161-173, 175-186, 205-222, 224-235: one delete call. -/
def deleteOnce (env : Env) (flags : Flags) (k : ResourceKind) : Prog Unit := do
  emit (.Printf (.deleting k))
  emit (.Delete k 0)
  onError flags k (env.Delete k 0)

/-- Lines 188-203: the security group is deleted under
`utils.RetryOnAWSErrorCode(..., time.Second, 1*time.Minute)`, sixty rounds. -/
def deleteInstanceSecurityGroups (env : Env) (flags : Flags) : Prog Unit := do
  emit (.Printf (.deleting .InstanceSecurityGroup))
  let err ← utils.RetryOnAWSErrorCode (env.Delete .InstanceSecurityGroup)
    (.Delete .InstanceSecurityGroup) ["DependencyViolation", "ResourceInUse"] 60 0
  onError flags .InstanceSecurityGroup err

/-- Lines 139-237 of `Run`: the delete steps in the order of the source, and
the last `return nil`. -/
def execute (env : Env) (flags : Flags) (sel : Selection) : Prog Unit := do
  ifThen sel.AutoScalingGroup (deleteAutoScalingGroup env flags)
  ifThen sel.LaunchConfiguration (deleteOnce env flags .LaunchTemplate)
  ifThen sel.InstanceProfile (deleteOnce env flags .InstanceProfile)
  ifThen sel.InstanceSecurityGroup (deleteInstanceSecurityGroups env flags)
  ifThen sel.ECSCluster (deleteOnce env flags .ComputeCluster)
  ifThen sel.ECSServiceRole (deleteOnce env flags .ServiceRole)
  pure ()

/-- The function `Run` of cluster-delete. -/
def Run (env : Env) (flags : Flags) : Prog Unit := do
  let sel ← identify env
  nothingToDo sel
  confirmation env flags
  execute env flags sel

end clusterdelete

namespace clustercreate

/-- The flags of `commands/clustercreate/flags.go`, and `ForceCreate`, which
`Run` reads and that file does not declare. -/
structure Flags where
  InstanceType : String
  InitialCapacity : Nat
  KeyPairName : String
  VPC : String
  InstanceProfile : String
  SkipExisting : Bool
  ForceCreate : Bool
  deriving DecidableEq, Repr

/-- The function `exitWithError` (lines 257-260): it prints the error and
returns nil.  `s` labels the call. -/
def exitWithError (s : Site) (_err : Err) : Prog (Option Err) := do
  emit (.Errorln s)
  pure none

/-- The statement `return c.exitWithError(err)`. -/
def fail {α : Type} (s : Site) (err : Err) : Prog α := do
  let r ← exitWithError s err
  exit s r

/-- The statement `if err != nil { return c.exitWithError(...) }`. -/
def check (s : Site) (err : Option Err) : Prog Unit :=
  match err with
  | some e => fail s e
  | none => pure ()

/-- A `Retrieve...` call followed by
`if err != nil { return c.exitWithError(...) }`. -/
def retrieve (env : Env) (k : ResourceKind) : Prog (Option Resource) := do
  emit (.Retrieve k)
  match env.Retrieve k with
  | .error e => fail (.retrieve k) e
  | .ok r => pure r

/-- Lines 47-51: the network of the account. -/
def getAWSNetwork (env : Env) : Prog Unit := do
  emit .getAWSNetwork
  check .network env.getAWSNetwork

/-- Lines 63-72: the ECS cluster is created when not found or INACTIVE. -/
def findECSCluster (env : Env) : Prog Bool := do
  let ecsCluster ← retrieve env .ComputeCluster
  match ecsCluster with
  | none => pure true
  | some c => pure (c.Status == "INACTIVE")

/-- Lines 74-83, 85-94, 122-134: service role, launch configuration and
security group are created when not found. -/
def findAbsent (env : Env) (k : ResourceKind) : Prog Bool := do
  let r ← retrieve env k
  pure r.isNone

/-- Lines 96-105: the auto scaling group is created when not found or found
with a status that is not blank.  The group found is kept for the wait. -/
def findAutoScalingGroup (env : Env) : Prog (Bool × Option Resource) := do
  let autoScalingGroup ← retrieve env .ScalingGroup
  match autoScalingGroup with
  | none => pure (true, autoScalingGroup)
  | some g => pure (!utils.IsBlank g.Status, autoScalingGroup)

/-- Lines 107-120: with the flag `--instance-profile` the profile is neither
looked up nor created; without it, it is created when not found. -/
def findInstanceProfile (env : Env) (flags : Flags) : Prog Bool :=
  if !utils.IsBlank flags.InstanceProfile then pure false
  else findAbsent env .InstanceProfile

/-- What lines 63-134 leave behind: the six booleans, and the auto scaling
group that was found. -/
structure Identified where
  sel : Selection
  autoScalingGroup : Option Resource
  deriving DecidableEq, Repr

/-- Lines 63-134 of `Run`: which resources to create. -/
def identify (env : Env) (flags : Flags) : Prog Identified := do
  let createECSCluster ← findECSCluster env
  let createECSServiceRole ← findAbsent env .ServiceRole
  let createLaunchConfiguration ← findAbsent env .LaunchTemplate
  let createAutoScalingGroup ← findAutoScalingGroup env
  let createInstanceProfile ← findInstanceProfile env flags
  let createInstanceSecurityGroup ← findAbsent env .InstanceSecurityGroup
  pure ⟨⟨createECSCluster, createECSServiceRole, createLaunchConfiguration,
    createAutoScalingGroup.1, createInstanceProfile, createInstanceSecurityGroup⟩,
    createAutoScalingGroup.2⟩

/-- Lines 136-140: `return nil` when no boolean is set. -/
def nothingToDo (sel : Selection) : Prog Unit :=
  if sel.isEmpty then exit .nothingToDo none else pure ()

/-- Lines 142-145: `if !ForceCreate && !console.AskConfirm(...) { return nil }`;
the prompt is evaluated only when the flag is off. -/
def confirmation (env : Env) (flags : Flags) : Prog Unit :=
  if !flags.ForceCreate then do
    emit .AskConfirm
    if !env.AskConfirm then exit .declined none else pure ()
  else pure ()

/-- Lines 147-154, 236-243, 245-252: announce, then one create call. -/
def createOnce (env : Env) (k : ResourceKind) : Prog Unit := do
  emit (.Printf (.creating k))
  emit (.Create k 0)
  check (.action k) (env.Create k 0)

/-- Lines 156-168: the security group and its SSH inbound rule. -/
def createInstanceSecurityGroup (env : Env) : Prog Unit := do
  emit (.Printf (.creating .InstanceSecurityGroup))
  emit (.Create .InstanceSecurityGroup 0)
  check (.action .InstanceSecurityGroup) (env.Create .InstanceSecurityGroup 0)
  emit .AddInboundToSecurityGroup
  check (.action .InstanceSecurityGroup) env.AddInboundToSecurityGroup

/-- Lines 200-211: the loop `for i := 0; i < 10; i++`, with `n` rounds left,
at call number `i`; it yields `lastErr`. -/
def retryLoop (env : Env) : (n : Nat) → (i : Nat) → (lastErr : Option Err) → Prog (Option Err)
  | 0, _, lastErr => pure lastErr
  | n + 1, i, _ => do
    emit (.Create .LaunchTemplate i)
    match env.Create .LaunchTemplate i with
    | some err => retryLoop env n (i + 1) (some err)
    | none => pure none

/-- Lines 174-182: the key pair must be retrieved and found. -/
def keyPair (env : Env) : Prog Unit := do
  emit .RetrieveKeyPair
  match env.RetrieveKeyPair with
  | .error e => fail (.action .LaunchTemplate) e
  | .ok false => fail (.action .LaunchTemplate) (.other "Key pair was not found")
  | .ok true => pure ()

/-- Lines 190-194: the image of the region must be known. -/
def imageID (env : Env) : Prog Unit :=
  if env.getClusterImageID == "" then
    fail (.action .LaunchTemplate) (.other "No defatul instance image found")
  else pure ()

/-- Lines 170-215: the launch configuration. -/
def createLaunchConfiguration (env : Env) (flags : Flags) : Prog Unit := do
  emit (.Printf (.creating .LaunchTemplate))
  keyPair env
  ifThen (blank flags.InstanceType) (emit .AskQuestion)
  imageID env
  let lastErr ← retryLoop env 10 0 none
  check (.action .LaunchTemplate) lastErr

/-- Lines 221-226: the wait, when the group found is pending delete. -/
def waitDeletion (env : Env) (autoScalingGroup : Option Resource) : Prog Unit :=
  match autoScalingGroup with
  | some g =>
    if !utils.IsBlank g.Status then do
      emit .waitAutoScalingGroupDeletion
      check (.action .ScalingGroup) env.waitAutoScalingGroupDeletion
    else pure ()
  | none => pure ()

/-- Lines 217-234: the auto scaling group. -/
def createAutoScalingGroup (env : Env) (autoScalingGroup : Option Resource) : Prog Unit := do
  emit (.Printf (.creating .ScalingGroup))
  waitDeletion env autoScalingGroup
  emit (.Create .ScalingGroup 0)
  check (.action .ScalingGroup) (env.Create .ScalingGroup 0)

/-- Lines 147-254 of `Run`: the create steps in the order of the source, and
the last `return nil`. -/
def execute (env : Env) (flags : Flags) (st : Identified) : Prog Unit := do
  ifThen st.sel.InstanceProfile (createOnce env .InstanceProfile)
  ifThen st.sel.InstanceSecurityGroup (createInstanceSecurityGroup env)
  ifThen st.sel.LaunchConfiguration (createLaunchConfiguration env flags)
  ifThen st.sel.AutoScalingGroup (createAutoScalingGroup env st.autoScalingGroup)
  ifThen st.sel.ECSCluster (createOnce env .ComputeCluster)
  ifThen st.sel.ECSServiceRole (createOnce env .ServiceRole)
  pure ()

/-- The function `Run` of cluster-create. -/
def Run (env : Env) (flags : Flags) : Prog Unit := do
  getAWSNetwork env
  let st ← identify env flags
  nothingToDo st.sel
  confirmation env flags
  execute env flags st

end clustercreate

/-! ## Vocabulary of the claims -/

/-- The provider calls that change the control plane. -/
def Event.isWrite : Event → Bool
  | .Create _ _ => true
  | .Delete _ _ => true
  | .AddInboundToSecurityGroup => true
  | .scaleDownAutoScalingGroup => true
  | _ => false

/-- The calls to the provider and the prompts: every event but console
output. -/
def Event.isCall : Event → Bool
  | .Printf _ => false
  | .Errorln _ => false
  | _ => true

/-- The action an event of the create or delete steps belongs to. -/
def Event.owner : Event → Option ResourceKind
  | .Printf (.creating k) => some k
  | .Printf (.deleting k) => some k
  | .Printf .terminating => some .ScalingGroup
  | .Create k _ => some k
  | .Delete k _ => some k
  | .AddInboundToSecurityGroup => some .InstanceSecurityGroup
  | .RetrieveKeyPair => some .LaunchTemplate
  | .AskQuestion => some .LaunchTemplate
  | .waitAutoScalingGroupDeletion => some .ScalingGroup
  | .scaleDownAutoScalingGroup => some .ScalingGroup
  | .Errorln (.action k) => some k
  | _ => none

/-- Every occurrence of `a` in `l` is strictly before every occurrence of
`b`. -/
def Before (a b : Event) (l : List Event) : Prop :=
  ∀ i j : Nat, l[i]? = some a → l[j]? = some b → i < j

/-- One step of the create or delete phase: `if selected { body }`, for the
resource of kind `kind`. -/
structure Step where
  kind : ResourceKind
  selected : Bool
  body : Prog Unit

/-- The steps one after the other, then `return nil`. -/
def runSteps : List Step → Prog Unit
  | [] => pure ()
  | s :: ss => ifThen s.selected s.body >>= fun _ => runSteps ss

/-- The kinds a run acts on, in the order of its steps. -/
def plan (order : List ResourceKind) (sel : Selection) : List ResourceKind :=
  order.filter sel.has

/-- The order of the create steps in cluster-create. -/
def clustercreate.order : List ResourceKind :=
  [.InstanceProfile, .InstanceSecurityGroup, .LaunchTemplate, .ScalingGroup, .ComputeCluster,
    .ServiceRole]

/-- The order of the delete steps in cluster-delete. -/
def clusterdelete.order : List ResourceKind :=
  [.ScalingGroup, .LaunchTemplate, .InstanceProfile, .InstanceSecurityGroup, .ComputeCluster,
    .ServiceRole]

/-- The create steps of cluster-create as a list. -/
def clustercreate.steps (env : Env) (flags : Flags) (st : Identified) : List Step :=
  [⟨.InstanceProfile, st.sel.InstanceProfile, createOnce env .InstanceProfile⟩,
   ⟨.InstanceSecurityGroup, st.sel.InstanceSecurityGroup, createInstanceSecurityGroup env⟩,
   ⟨.LaunchTemplate, st.sel.LaunchConfiguration, createLaunchConfiguration env flags⟩,
   ⟨.ScalingGroup, st.sel.AutoScalingGroup, createAutoScalingGroup env st.autoScalingGroup⟩,
   ⟨.ComputeCluster, st.sel.ECSCluster, createOnce env .ComputeCluster⟩,
   ⟨.ServiceRole, st.sel.ECSServiceRole, createOnce env .ServiceRole⟩]

/-- The delete steps of cluster-delete as a list. -/
def clusterdelete.steps (env : Env) (flags : Flags) (sel : Selection) : List Step :=
  [⟨.ScalingGroup, sel.AutoScalingGroup, deleteAutoScalingGroup env flags⟩,
   ⟨.LaunchTemplate, sel.LaunchConfiguration, deleteOnce env flags .LaunchTemplate⟩,
   ⟨.InstanceProfile, sel.InstanceProfile, deleteOnce env flags .InstanceProfile⟩,
   ⟨.InstanceSecurityGroup, sel.InstanceSecurityGroup, deleteInstanceSecurityGroups env flags⟩,
   ⟨.ComputeCluster, sel.ECSCluster, deleteOnce env flags .ComputeCluster⟩,
   ⟨.ServiceRole, sel.ECSServiceRole, deleteOnce env flags .ServiceRole⟩]

/-! ## Vocabulary of the proofs -/

/-- The skeleton of a delete step: the calls it may issue, in order. -/
def clusterdelete.skeleton : ResourceKind → List Event
  | .ScalingGroup =>
    [.Printf .terminating, .scaleDownAutoScalingGroup, .Printf (.deleting .ScalingGroup),
      .Delete .ScalingGroup 0, .Errorln (.action .ScalingGroup)]
  | .InstanceSecurityGroup =>
    .Printf (.deleting .InstanceSecurityGroup) ::
      ((List.range' 0 60).map (Event.Delete .InstanceSecurityGroup) ++
        [.Errorln (.action .InstanceSecurityGroup)])
  | k => [.Printf (.deleting k), .Delete k 0, .Errorln (.action k)]

/-- What the proofs use of a delete step. -/
structure clusterdelete.StepFacts (env : Env) (flags : clusterdelete.Flags) (s : Step) : Prop where
  own : ∀ e ∈ s.body.trace, e.owner = some s.kind
  site : ∀ x, s.body.res = .error x →
    flags.ContinueOnError = false ∧ x.site = .action s.kind ∧ ∃ e, x.ret = some e
  first : s.body.res = .ok () → flags.ContinueOnError = false → .Delete s.kind 0 ∈ s.body.trace
  cont : flags.ContinueOnError = true → s.body.res = .ok ()
  issued : s.kind ≠ .ScalingGroup → .Delete s.kind 0 ∈ s.body.trace
  sub : List.Sublist s.body.trace (clusterdelete.skeleton s.kind)
  reported : .Errorln (.action s.kind) ∈ s.body.trace →
    ∀ i, .Delete s.kind i ∈ s.body.trace → env.Delete s.kind i ≠ none
  quiet : flags.ContinueOnError = false → s.body.res = .ok () →
    (.scaleDownAutoScalingGroup ∈ s.body.trace → env.scaleDownAutoScalingGroup = none) ∧
    ∀ i, .Delete s.kind i ∈ s.body.trace → env.Delete s.kind i ≠ none →
      .Delete s.kind (i + 1) ∈ s.body.trace
  once : s.kind ≠ .InstanceSecurityGroup → ∀ i, .Delete s.kind (i + 1) ∉ s.body.trace
  marked : ∀ i, .Delete s.kind i ∈ s.body.trace → env.Delete s.kind i ≠ none →
    .Delete s.kind (i + 1) ∉ s.body.trace →
    .Errorln (.action s.kind) ∈ s.body.trace ∨ ∃ r, s.body.res = .error ⟨.action s.kind, r⟩
  stop : ∀ i e, .Delete s.kind i ∈ s.body.trace → env.Delete s.kind i = some e →
    (¬ ∃ c ∈ ["DependencyViolation", "ResourceInUse"], e.code = some c) →
    .Delete s.kind (i + 1) ∉ s.body.trace
  loud : ∀ x, s.body.res = .error x →
    (.scaleDownAutoScalingGroup ∈ s.body.trace ∧ env.scaleDownAutoScalingGroup ≠ none) ∨
    ∃ i, .Delete s.kind i ∈ s.body.trace ∧ env.Delete s.kind i ≠ none ∧
      .Delete s.kind (i + 1) ∉ s.body.trace


/-- When the piece returns, its last call is one that `Q` relates to the
`return` taken. -/
def Prog.StopsAt {α : Type} (Q : Exit → Event → Prop) (p : Prog α) : Prop :=
  ∀ x, p.res = .error x → ∃ e, (p.trace.filter Event.isCall).getLast? = some e ∧ Q x e

/-- A call that `bad` marks makes the piece return at the site `bad` names. -/
def Prog.Strict {α : Type} (bad : Event → Site → Prop) (p : Prog α) : Prop :=
  ∀ e s, e ∈ p.trace → bad e s → ∃ r, p.res = .error ⟨s, r⟩

/-- The reads of cluster-delete, in order. -/
def clusterdelete.reads : List Event :=
  [.Retrieve .ComputeCluster, .Retrieve .ServiceRole, .Retrieve .LaunchTemplate,
    .Retrieve .ScalingGroup, .RetrieveTags .ScalingGroup, .Retrieve .InstanceProfile,
    .Retrieve .InstanceSecurityGroup, .RetrieveTags .InstanceSecurityGroup]

/-- A read the provider answers with an error, and the `return` that follows. -/
def failedRead (env : Env) (e : Event) (s : Site) : Prop :=
  (∃ k err, e = .Retrieve k ∧ s = .retrieve k ∧ env.Retrieve k = .error err) ∨
  (∃ k err, e = .RetrieveTags k ∧ s = .tags k ∧ env.RetrieveTags k = .error err) ∨
  (∃ err, e = .getAWSNetwork ∧ s = .network ∧ env.getAWSNetwork = some err)

/-- The `return` of a failed read of cluster-delete: it hands back the error
of the read, which is the last call. -/
def clusterdelete.readExit (env : Env) (x : Exit) (e : Event) : Prop :=
  (∃ k err, e = .Retrieve k ∧ x = ⟨.retrieve k, some err⟩ ∧ env.Retrieve k = .error err) ∨
  (∃ k err, e = .RetrieveTags k ∧ x = ⟨.tags k, some err⟩ ∧ env.RetrieveTags k = .error err)


/-- The skeleton of a create step: the calls it may issue, in order. -/
def clustercreate.skeleton : ResourceKind → List Event
  | .InstanceSecurityGroup =>
    [.Printf (.creating .InstanceSecurityGroup), .Create .InstanceSecurityGroup 0,
      .AddInboundToSecurityGroup, .Errorln (.action .InstanceSecurityGroup)]
  | .LaunchTemplate =>
    [.Printf (.creating .LaunchTemplate), .RetrieveKeyPair, .AskQuestion] ++
      ((List.range' 0 10).map (Event.Create .LaunchTemplate) ++
        [.Errorln (.action .LaunchTemplate)])
  | .ScalingGroup =>
    [.Printf (.creating .ScalingGroup), .waitAutoScalingGroupDeletion, .Create .ScalingGroup 0,
      .Errorln (.action .ScalingGroup)]
  | k => [.Printf (.creating k), .Create k 0, .Errorln (.action k)]

/-- What the proofs use of a create step. -/
structure clustercreate.StepFacts (env : Env) (s : Step) : Prop where
  own : ∀ e ∈ s.body.trace, e.owner = some s.kind
  site : ∀ x, s.body.res = .error x →
    x = ⟨.action s.kind, none⟩ ∧ .Errorln (.action s.kind) ∈ s.body.trace
  first : s.body.res = .ok () → .Create s.kind 0 ∈ s.body.trace
  sub : List.Sublist s.body.trace (clustercreate.skeleton s.kind)
  once : s.kind ≠ .LaunchTemplate → ∀ i, .Create s.kind (i + 1) ∉ s.body.trace
  abrupt : s.kind ≠ .LaunchTemplate → .Create s.kind 0 ∈ s.body.trace →
    env.Create s.kind 0 ≠ none → s.body.res = .error ⟨.action s.kind, none⟩
  again : ∀ i, .Create s.kind i ∈ s.body.trace → env.Create s.kind i ≠ none → i + 1 < 10 →
    s.kind = .LaunchTemplate → .Create s.kind (i + 1) ∈ s.body.trace

/-- The reads of cluster-create and the error lines of their checks, in order. -/
def clustercreate.reads : List Event :=
  [.Retrieve .ComputeCluster, .Errorln (.retrieve .ComputeCluster),
    .Retrieve .ServiceRole, .Errorln (.retrieve .ServiceRole),
    .Retrieve .LaunchTemplate, .Errorln (.retrieve .LaunchTemplate),
    .Retrieve .ScalingGroup, .Errorln (.retrieve .ScalingGroup),
    .Retrieve .InstanceProfile, .Errorln (.retrieve .InstanceProfile),
    .Retrieve .InstanceSecurityGroup, .Errorln (.retrieve .InstanceSecurityGroup)]

/-- The `return` of a failed read of cluster-create: it hands back nil, and the
read is the last call. -/
def clustercreate.readExit (env : Env) (x : Exit) (e : Event) : Prop :=
  (∃ k err, e = .Retrieve k ∧ x = ⟨.retrieve k, none⟩ ∧ env.Retrieve k = .error err) ∨
  (∃ err, e = .getAWSNetwork ∧ x = ⟨.network, none⟩ ∧ env.getAWSNetwork = some err)

/-- Lines 47-134 of cluster-create: the network, then the six reads. -/
def clustercreate.inspect (env : Env) (flags : clustercreate.Flags) :
    Prog clustercreate.Identified := do
  clustercreate.getAWSNetwork env
  clustercreate.identify env flags

/-! ## Vocabulary of the claims: states, plans, outcomes -/

/-- The lifecycle of a resource in the inspected state. -/
inductive Lifecycle
  | Absent
  | Active
  | Pending
  | Terminating
  deriving DecidableEq, Repr

/-- The lifecycle the commands read off what a `Retrieve...` call of kind `k`
returned: not found is Absent; an ECS cluster found INACTIVE counts as Absent
and is Active otherwise; an auto scaling group found with a blank status is
Active and with any other status Terminating; the other kinds carry no status
and are Pending, present and usable, once found. -/
def lifecycle (k : ResourceKind) : Option Resource → Lifecycle
  | none => .Absent
  | some r =>
    match k with
    | .ComputeCluster => if r.Status == "INACTIVE" then .Absent else .Active
    | .ScalingGroup => if utils.IsBlank r.Status then .Active else .Terminating
    | _ => .Pending

/-- Present and usable: Active or Pending. -/
def Lifecycle.usable : Lifecycle → Bool
  | .Active => true
  | .Pending => true
  | _ => false

/-- The place of an event in a run whose steps come in the order `order`:
0 before the steps, then the place of the step it belongs to. -/
def rank (order : List ResourceKind) (e : Event) : Nat :=
  match e.owner with
  | none => 0
  | some k => order.indexOf k + 1

/-- The calls a run of cluster-create may issue, in order. -/
def clustercreate.runSkeleton : List Event :=
  ([.getAWSNetwork, .Errorln .network] ++ clustercreate.reads) ++
    ([.AskConfirm] ++ (clustercreate.order.map clustercreate.skeleton).flatten)

/-- The calls a run of cluster-delete may issue, in order. -/
def clusterdelete.runSkeleton : List Event :=
  clusterdelete.reads ++ ([.AskConfirm] ++ (clusterdelete.order.map clusterdelete.skeleton).flatten)

/-- An account in which nothing exists yet and every call succeeds. -/
def emptyAccount : Env where
  getAWSNetwork := none
  Retrieve := fun _ => .ok none
  RetrieveTags := fun _ => .ok []
  AskConfirm := true
  RetrieveKeyPair := .ok true
  AskQuestion := "t2.micro"
  getClusterImageID := "ami-0"
  Create := fun _ _ => none
  AddInboundToSecurityGroup := none
  waitAutoScalingGroupDeletion := none
  scaleDownAutoScalingGroup := none
  Delete := fun _ _ => none

/-- An account in which the six resources exist, ready, with the tag of the
tool on them, and every call succeeds. -/
def fullAccount : Env where
  getAWSNetwork := none
  Retrieve := fun k =>
    match k with
    | .ComputeCluster => .ok (some ⟨"ACTIVE"⟩)
    | _ => .ok (some ⟨""⟩)
  RetrieveTags := fun _ => .ok [(core.AWSTagNameCreatedTimestamp, "1478000000")]
  AskConfirm := true
  RetrieveKeyPair := .ok true
  AskQuestion := "t2.micro"
  getClusterImageID := "ami-0"
  Create := fun _ _ => none
  AddInboundToSecurityGroup := none
  waitAutoScalingGroupDeletion := none
  scaleDownAutoScalingGroup := none
  Delete := fun _ _ => none

/-- The flags of a plain `cluster-create --key k`. -/
def clustercreate.plainFlags : clustercreate.Flags :=
  ⟨"t2.micro", 1, "k", "", "", false, false⟩

/-- The flags of `cluster-create --key k --instance-profile mine`. -/
def clustercreate.profileFlags : clustercreate.Flags :=
  ⟨"t2.micro", 1, "k", "", "mine", false, false⟩

/-- An account in which only the ECS service role exists, and it carries no
tag. -/
def untaggedRole : Env :=
  { emptyAccount with
    Retrieve := fun k =>
      match k with
      | .ServiceRole => .ok (some ⟨""⟩)
      | _ => .ok none }

/-- The full account, with no tag on any resource. -/
def untaggedAccount : Env :=
  { fullAccount with RetrieveTags := fun _ => .ok [] }

/-- The empty account, with a user who answers no to the prompt. -/
def decliningEmpty : Env :=
  { emptyAccount with AskConfirm := false }

/-- The full account, with a user who answers no to the prompt. -/
def decliningFull : Env :=
  { fullAccount with AskConfirm := false }

/-- The empty account, where every call that creates the launch configuration
is answered with a permanent error. -/
def launchCreateFails : Env :=
  { emptyAccount with
    Create := fun k _ =>
      match k with
      | .LaunchTemplate => some (.PermanentError "InvalidParameterValue")
      | _ => none }

/-- The full account, where the call that deletes the launch configuration is
answered with a permanent error. -/
def launchDeleteFails : Env :=
  { fullAccount with
    Delete := fun k _ =>
      match k with
      | .LaunchTemplate => some (.PermanentError "ValidationError")
      | _ => none }

/-- The empty account, where every read is answered with an error. -/
def readsFail : Env :=
  { emptyAccount with Retrieve := fun _ => .error (.PermanentError "AccessDenied") }

/-- The action of kind `K` of cluster-create fails in a run with calls `t`: a
create call of `K` was answered with an error and no further try followed, or
the inbound rule of the security group, the wait for the deletion of the auto
scaling group or the key pair of the launch configuration was (the key pair
also when it is not found), or the image of the launch configuration is not
known. -/
def clustercreate.failed (env : Env) (t : List Event) (K : ResourceKind) : Prop :=
  (∃ i, .Create K i ∈ t ∧ env.Create K i ≠ none ∧ .Create K (i + 1) ∉ t) ∨
  (K = .InstanceSecurityGroup ∧ .AddInboundToSecurityGroup ∈ t ∧
    env.AddInboundToSecurityGroup ≠ none) ∨
  (K = .ScalingGroup ∧ .waitAutoScalingGroupDeletion ∈ t ∧
    env.waitAutoScalingGroupDeletion ≠ none) ∨
  (K = .LaunchTemplate ∧ .RetrieveKeyPair ∈ t ∧
    (env.RetrieveKeyPair ≠ .ok true ∨ env.getClusterImageID = ""))

/-- The action of kind `K` of cluster-delete fails in a run with calls `t`:
the scale-down of the auto scaling group was answered with an error, or a
delete call of `K` was and no further try followed. -/
def clusterdelete.failed (env : Env) (t : List Event) (K : ResourceKind) : Prop :=
  (K = .ScalingGroup ∧ .scaleDownAutoScalingGroup ∈ t ∧ env.scaleDownAutoScalingGroup ≠ none) ∨
  ∃ i, .Delete K i ∈ t ∧ env.Delete K i ≠ none ∧ .Delete K (i + 1) ∉ t

/-! ## Vocabulary of the claims: calls by kind, dependencies -/

/-- A call that creates the resource of kind `k`. -/
def Event.isCreateOf (k : ResourceKind) : Event → Bool
  | .Create k' _ => k' == k
  | _ => false

/-- The kind an event is the first create call of. -/
def Event.created : Event → Option ResourceKind
  | .Create k 0 => some k
  | _ => none

/-- The kind an event is the first delete call of. -/
def Event.deleted : Event → Option ResourceKind
  | .Delete k 0 => some k
  | _ => none

/-- The kinds a run issues create calls for, in the order of their first
calls. -/
def createdKinds (t : List Event) : List ResourceKind := t.filterMap Event.created

/-- The kinds a run issues delete calls for, in the order of their first
calls. -/
def deletedKinds (t : List Event) : List ResourceKind := t.filterMap Event.deleted

/-- The resources a create call refers to: `CreateLaunchConfiguration` is given
the security group and the instance profile (line 202), and
`CreateAutoScalingGroup` the launch configuration (line 230). -/
def dependsOn : ResourceKind → ResourceKind → Bool
  | .LaunchTemplate, .InstanceProfile => true
  | .LaunchTemplate, .InstanceSecurityGroup => true
  | .ScalingGroup, .LaunchTemplate => true
  | _, _ => false

/-- The selection in which every boolean is set. -/
def Selection.all : Selection := ⟨true, true, true, true, true, true⟩

/-- The full account, with the auto scaling group being deleted. -/
def terminatingGroup : Env :=
  { fullAccount with
    Retrieve := fun k =>
      match k with
      | .ComputeCluster => .ok (some ⟨"ACTIVE"⟩)
      | .ScalingGroup => .ok (some ⟨"Delete in progress"⟩)
      | _ => .ok (some ⟨""⟩) }

/-- The account of `terminatingGroup`, where the wait for the deletion of the
group times out. -/
def waitTimesOut : Env :=
  { terminatingGroup with waitAutoScalingGroupDeletion := some (.other "timeout") }

/-! ## `config/validate.go` -/

namespace strconv

/-- Go's `strconv.ParseUint(s, 10, 64)`: the value of a string of one or more
decimal digits that fits 64 bits; `none` is a non-nil error (a syntax error or a
range error). -/
def ParseUint (s : String) : Option Nat :=
  if s.data.isEmpty || !s.data.all Char.isDigit then none
  else
    let n := s.data.foldl (fun n c => 10 * n + (c.toNat - 48)) 0
    if n < 2 ^ 64 then some n else none

end strconv

namespace config

/-- A `*regexp.Regexp`, by the two methods `Validate` calls. -/
structure Regexp where
  MatchString : String → Bool
  FindAllStringSubmatch : String → List (List String)

/-- A `float64`: a finite value, an infinity or a NaN. -/
inductive Float64
  | finite (q : ℚ)
  | inf (negative : Bool)
  | nan

/-- The comparison `x == 0`. -/
def Float64.isZero : Float64 → Bool
  | .finite q => decide (q = 0)
  | _ => false

/-- The comparison `x > max`, for a constant `max`. -/
def Float64.gt (x : Float64) (max : ℚ) : Bool :=
  match x with
  | .finite q => decide (max < q)
  | .inf negative => !negative
  | .nan => false

/-- The declarations of package core that `Validate` reads; they are outside
src and stay parameters. -/
structure Core where
  AppNameRE : Regexp
  ClusterNameRE : Regexp
  MaxAppUnits : Nat
  MaxAppCPU : ℚ
  SizeExpressionRE : Regexp
  MaxAppMemory : Nat
  TimeExpressionRE : Regexp
  HealthCheckPathRE : Regexp
  HealthCheckStatusRE : Regexp
  ECRRepoNameRE : Regexp
  ELBNameRE : Regexp
  ELBTargetNameRE : Regexp

/-- The fields of `c.LoadBalancer.HealthCheck` that `Validate` reads. -/
structure ConfigLoadBalancerHealthCheck where
  Interval : String
  Path : String
  Status : String
  Timeout : String
  HealthyLimit : Nat
  UnhealthyLimit : Nat

/-- The field of `c.LoadBalancer` that `Validate` reads. -/
structure ConfigLoadBalancer where
  HealthCheck : ConfigLoadBalancerHealthCheck

/-- The fields of `c.AWS` that `Validate` reads. -/
structure ConfigAWS where
  ECRRepositoryName : String
  ELBLoadBalancerName : String
  ELBTargetGroupName : String

/-- The field of `c.Docker` that `Validate` reads. -/
structure ConfigDocker where
  Bin : String

/-- The fields of `Config` that `Validate` reads, each as the value `conv.S`,
`conv.U16` or `conv.F64` hands to the check; `Units` and the two limits are
`uint16` values. -/
structure Config where
  Name : String
  ClusterName : String
  Units : Nat
  CPU : Float64
  Memory : String
  LoadBalancer : ConfigLoadBalancer
  AWS : ConfigAWS
  Docker : ConfigDocker

/-- The `return` statements of `Validate` that hand back an error, by the
field they reject; `Memory1`, `Memory2` and `Memory3` are the three
"Invalid app memory" errors. -/
inductive ValidationError
  | Name
  | ClusterName
  | Units
  | CPUZero
  | CPUExceeds
  | Memory1
  | Memory2
  | Memory3
  | MemoryZero
  | MemoryExceeds
  | HealthCheckInterval
  | HealthCheckPath
  | HealthCheckStatus
  | HealthCheckTimeout
  | HealthyLimit
  | UnhealthyLimit
  | ECRRepositoryName
  | ELBLoadBalancerName
  | ELBTargetGroupName
  | DockerBin
  deriving DecidableEq, Repr

/-- Lines 33-50 of `Validate`: the memory expression must match, have one
match with a first group, and that group must parse to a number from 1 to
`core.MaxAppMemory`. -/
def validateMemory (core : Core) (c : Config) : Option ValidationError :=
  if !core.SizeExpressionRE.MatchString c.Memory then some .Memory1
  else
    let m := core.SizeExpressionRE.FindAllStringSubmatch c.Memory
    if m.length != 1 || (m.getD 0 []).length < 2 then some .Memory2
    else
      match strconv.ParseUint ((m.getD 0 []).getD 1 "") with
      | none => some .Memory3
      | some parsed =>
        if parsed == 0 then some .MemoryZero
        else if parsed > core.MaxAppMemory then some .MemoryExceeds
        else none

/-- The function `Validate`; `none` is `return nil`. -/
def Config.Validate (c : Config) (core : Core) : Option ValidationError :=
  if !core.AppNameRE.MatchString c.Name then some .Name
  else if !core.ClusterNameRE.MatchString c.ClusterName then some .ClusterName
  else if c.Units > core.MaxAppUnits then some .Units
  else if c.CPU.isZero then some .CPUZero
  else if c.CPU.gt core.MaxAppCPU then some .CPUExceeds
  else
    match validateMemory core c with
    | some err => some err
    | none =>
      if !core.TimeExpressionRE.MatchString c.LoadBalancer.HealthCheck.Interval then
        some .HealthCheckInterval
      else if !core.HealthCheckPathRE.MatchString c.LoadBalancer.HealthCheck.Path then
        some .HealthCheckPath
      else if !core.HealthCheckStatusRE.MatchString c.LoadBalancer.HealthCheck.Status then
        some .HealthCheckStatus
      else if !core.TimeExpressionRE.MatchString c.LoadBalancer.HealthCheck.Timeout then
        some .HealthCheckTimeout
      else if c.LoadBalancer.HealthCheck.HealthyLimit == 0 then some .HealthyLimit
      else if c.LoadBalancer.HealthCheck.UnhealthyLimit == 0 then some .UnhealthyLimit
      else if !core.ECRRepoNameRE.MatchString c.AWS.ECRRepositoryName then
        some .ECRRepositoryName
      else if !core.ELBNameRE.MatchString c.AWS.ELBLoadBalancerName then
        some .ELBLoadBalancerName
      else if !core.ELBTargetNameRE.MatchString c.AWS.ELBTargetGroupName then
        some .ELBTargetGroupName
      else if utils.IsBlank c.Docker.Bin then some .DockerBin
      else none

/-- The part `m[0][1]` of the memory expression: the first group of its
match. -/
def numericPart (core : Core) (c : Config) : String :=
  ((core.SizeExpressionRE.FindAllStringSubmatch c.Memory).getD 0 []).getD 1 ""

/-- The checks of a configuration, by what they look at. -/
inductive Check
  | appName
  | clusterName
  | units
  | cpu
  | memory
  | healthCheck
  | awsNames
  | dockerPath
  deriving DecidableEq, Repr

/-- The fixed order of the checks. -/
def Check.order : List Check :=
  [.appName, .clusterName, .units, .cpu, .memory, .healthCheck, .awsNames, .dockerPath]

/-- The error of a check run on its own: `none` when the configuration passes
it. -/
def Check.run (core : Core) (c : Config) : Check → Option ValidationError
  | .appName => if core.AppNameRE.MatchString c.Name then none else some .Name
  | .clusterName =>
    if core.ClusterNameRE.MatchString c.ClusterName then none else some .ClusterName
  | .units => if c.Units ≤ core.MaxAppUnits then none else some .Units
  | .cpu =>
    if c.CPU.isZero then some .CPUZero
    else if c.CPU.gt core.MaxAppCPU then some .CPUExceeds
    else none
  | .memory => validateMemory core c
  | .healthCheck =>
    if !core.TimeExpressionRE.MatchString c.LoadBalancer.HealthCheck.Interval then
      some .HealthCheckInterval
    else if !core.HealthCheckPathRE.MatchString c.LoadBalancer.HealthCheck.Path then
      some .HealthCheckPath
    else if !core.HealthCheckStatusRE.MatchString c.LoadBalancer.HealthCheck.Status then
      some .HealthCheckStatus
    else if !core.TimeExpressionRE.MatchString c.LoadBalancer.HealthCheck.Timeout then
      some .HealthCheckTimeout
    else if c.LoadBalancer.HealthCheck.HealthyLimit = 0 then some .HealthyLimit
    else if c.LoadBalancer.HealthCheck.UnhealthyLimit = 0 then some .UnhealthyLimit
    else none
  | .awsNames =>
    if !core.ECRRepoNameRE.MatchString c.AWS.ECRRepositoryName then some .ECRRepositoryName
    else if !core.ELBNameRE.MatchString c.AWS.ELBLoadBalancerName then
      some .ELBLoadBalancerName
    else if !core.ELBTargetNameRE.MatchString c.AWS.ELBTargetGroupName then
      some .ELBTargetGroupName
    else none
  | .dockerPath => if utils.IsBlank c.Docker.Bin then some .DockerBin else none

/-- A regular expression for one or more decimal digits, the whole string its
one group. -/
def digitsRE : Regexp where
  MatchString := fun s => !s.data.isEmpty && s.data.all Char.isDigit
  FindAllStringSubmatch := fun s =>
    if !s.data.isEmpty && s.data.all Char.isDigit then [[s, s]] else []

/-- A regular expression that matches every string that is not empty. -/
def anyRE : Regexp where
  MatchString := fun s => !s.data.isEmpty
  FindAllStringSubmatch := fun s => if !s.data.isEmpty then [[s]] else []

/-- Declarations to run `Validate` with: 1000 units, 1024 CPU, 16384 memory. -/
def sampleCore : Core :=
  ⟨anyRE, anyRE, 1000, 1024, digitsRE, 16384, anyRE, anyRE, anyRE, anyRE, anyRE, anyRE⟩

/-- A configuration that `Validate` accepts under `sampleCore`. -/
def sampleConfig : Config :=
  ⟨"app", "cluster", 2, .finite 1, "512", ⟨⟨"15s", "/", "200", "5s", 3, 3⟩⟩,
    ⟨"repo", "elb", "target"⟩, ⟨"docker"⟩⟩

end config

/-! ## Pieces of a run -/

namespace Prog

@[simp] theorem trace_pure {α : Type} (a : α) : (pure a : Prog α).trace = [] := rfl

@[simp] theorem res_pure {α : Type} (a : α) : (pure a : Prog α).res = .ok a := rfl

@[simp] theorem trace_emit (e : Event) : (emit e).trace = [e] := rfl

@[simp] theorem res_emit (e : Event) : (emit e).res = .ok () := rfl

@[simp] theorem trace_exit {α : Type} (s : Site) (r : Option Err) :
    (exit s r : Prog α).trace = [] := rfl

@[simp] theorem res_exit {α : Type} (s : Site) (r : Option Err) :
    (exit s r : Prog α).res = .error ⟨s, r⟩ := rfl

theorem bind_def {α β : Type} (p : Prog α) (f : α → Prog β) : p >>= f = p.andThen f := rfl

theorem bind_of_ok {α β : Type} {p : Prog α} {a : α} (f : α → Prog β) (h : p.res = .ok a) :
    p >>= f = ⟨p.trace ++ (f a).trace, (f a).res⟩ := by
  simp [bind_def, andThen, h]

theorem bind_of_error {α β : Type} {p : Prog α} {x : Exit} (f : α → Prog β)
    (h : p.res = .error x) : p >>= f = ⟨p.trace, .error x⟩ := by
  simp [bind_def, andThen, h]

@[simp] theorem emit_bind {β : Type} (e : Event) (f : Unit → Prog β) :
    emit e >>= f = ⟨e :: (f ()).trace, (f ()).res⟩ := rfl

@[simp] theorem pure_bind {α β : Type} (a : α) (f : α → Prog β) :
    (pure a : Prog α) >>= f = ⟨(f a).trace, (f a).res⟩ := rfl

@[simp] theorem exit_bind {α β : Type} (s : Site) (r : Option Err) (f : α → Prog β) :
    (exit s r : Prog α) >>= f = ⟨[], .error ⟨s, r⟩⟩ := rfl

@[simp] theorem mk_bind_ok {α β : Type} (t : List Event) (a : α) (f : α → Prog β) :
    (Prog.mk t (.ok a)) >>= f = ⟨t ++ (f a).trace, (f a).res⟩ := rfl

@[simp] theorem mk_bind_error {α β : Type} (t : List Event) (x : Exit) (f : α → Prog β) :
    (Prog.mk t (.error x : Except Exit α)) >>= f = ⟨t, .error x⟩ := rfl

@[simp] theorem eta {α : Type} (p : Prog α) : (⟨p.trace, p.res⟩ : Prog α) = p := rfl

/-- A piece that went on: what the sequence did. -/
theorem bind_ok_inv {α β : Type} {p : Prog α} {f : α → Prog β} {b : β}
    (h : (p >>= f).res = .ok b) :
    ∃ a, p.res = .ok a ∧ (f a).res = .ok b ∧ (p >>= f).trace = p.trace ++ (f a).trace := by
  cases hp : p.res with
  | error x => rw [bind_of_error f hp] at h; cases h
  | ok a => rw [bind_of_ok f hp] at h ⊢; exact ⟨a, rfl, h, rfl⟩

/-- A sequence that returned did so in its first piece or in its second. -/
theorem bind_error_inv {α β : Type} {p : Prog α} {f : α → Prog β} {x : Exit}
    (h : (p >>= f).res = .error x) :
    (p.res = .error x ∧ (p >>= f).trace = p.trace) ∨
      ∃ a, p.res = .ok a ∧ (f a).res = .error x ∧ (p >>= f).trace = p.trace ++ (f a).trace := by
  cases hp : p.res with
  | error y =>
    rw [bind_of_error f hp] at h ⊢
    have hxy : y = x := by simpa using h
    subst hxy
    exact Or.inl ⟨rfl, rfl⟩
  | ok a =>
    rw [bind_of_ok f hp] at h ⊢
    right
    exact ⟨a, rfl, h, rfl⟩

/-- The calls of a sequence are calls of its pieces. -/
theorem mem_bind {α β : Type} {p : Prog α} {f : α → Prog β} {e : Event}
    (h : e ∈ (p >>= f).trace) : e ∈ p.trace ∨ ∃ a, p.res = .ok a ∧ e ∈ (f a).trace := by
  cases hp : p.res with
  | error x => rw [bind_of_error f hp] at h; exact Or.inl h
  | ok a =>
    rw [bind_of_ok f hp] at h
    rcases List.mem_append.1 h with h | h
    · exact Or.inl h
    · exact Or.inr ⟨a, rfl, h⟩

/-- The calls of the first piece are calls of the sequence. -/
theorem mem_bind_left {α β : Type} {p : Prog α} (f : α → Prog β) {e : Event}
    (h : e ∈ p.trace) : e ∈ (p >>= f).trace := by
  cases hp : p.res with
  | error x => rw [bind_of_error f hp]; exact h
  | ok a => rw [bind_of_ok f hp]; exact List.mem_append_left _ h

/-- The calls of a sequence follow the skeleton of its pieces. -/
theorem sub_bind {α β : Type} {p : Prog α} {f : α → Prog β} {A B : List Event}
    (hp : List.Sublist p.trace A) (hf : ∀ a, List.Sublist (f a).trace B) :
    List.Sublist (p >>= f).trace (A ++ B) := by
  cases h : p.res with
  | error x =>
    rw [bind_of_error f h]
    exact hp.trans (List.sublist_append_left A B)
  | ok a =>
    rw [bind_of_ok f h]
    exact List.Sublist.append hp (hf a)

theorem sub_ifThen {c : Bool} {p : Prog Unit} {A : List Event} (hp : List.Sublist p.trace A) :
    List.Sublist (ifThen c p).trace A := by
  cases c
  · exact List.nil_sublist A
  · exact hp

@[simp] theorem ifThen_true (p : Prog Unit) : ifThen true p = p := rfl

@[simp] theorem ifThen_false (p : Prog Unit) : ifThen false p = pure () := rfl

end Prog

/-! ## Steps -/

theorem runSteps_cons (s : Step) (ss : List Step) :
    runSteps (s :: ss) = ifThen s.selected s.body >>= fun _ => runSteps ss := rfl

theorem runSteps_skip {s : Step} (ss : List Step) (h : s.selected = false) :
    runSteps (s :: ss) = runSteps ss := by
  rw [runSteps_cons, h]
  rfl

theorem runSteps_error {s : Step} (ss : List Step) {x : Exit} (h : s.selected = true)
    (hx : s.body.res = .error x) : runSteps (s :: ss) = ⟨s.body.trace, .error x⟩ := by
  rw [runSteps_cons, h, Prog.ifThen_true, Prog.bind_of_error _ hx]

theorem runSteps_ok {s : Step} (ss : List Step) (h : s.selected = true)
    (hx : s.body.res = .ok ()) :
    runSteps (s :: ss) = ⟨s.body.trace ++ (runSteps ss).trace, (runSteps ss).res⟩ := by
  rw [runSteps_cons, h, Prog.ifThen_true, Prog.bind_of_ok _ hx]

/-- Every call of the steps is a call of a selected step. -/
theorem runSteps_mem {ss : List Step} {e : Event} (h : e ∈ (runSteps ss).trace) :
    ∃ s ∈ ss, s.selected = true ∧ e ∈ s.body.trace := by
  induction ss with
  | nil => simp [runSteps] at h
  | cons s ss ih =>
    cases hs : s.selected with
    | false =>
      rw [runSteps_skip ss hs] at h
      obtain ⟨t, ht, h1, h2⟩ := ih h
      exact ⟨t, List.mem_cons_of_mem _ ht, h1, h2⟩
    | true =>
      cases hb : s.body.res with
      | error x =>
        rw [runSteps_error ss hs hb] at h
        exact ⟨s, List.mem_cons_self _ _, hs, h⟩
      | ok u =>
        rw [runSteps_ok ss hs hb] at h
        rcases List.mem_append.1 h with h | h
        · exact ⟨s, List.mem_cons_self _ _, hs, h⟩
        · obtain ⟨t, ht, h1, h2⟩ := ih h
          exact ⟨t, List.mem_cons_of_mem _ ht, h1, h2⟩

/-- Every call of the steps is a call of a selected step that was run: its
calls are all calls of the steps, and where it returns the steps return. -/
theorem runSteps_reached {ss : List Step} {e : Event} (h : e ∈ (runSteps ss).trace) :
    ∃ s ∈ ss, s.selected = true ∧ e ∈ s.body.trace ∧
      (∀ e' ∈ s.body.trace, e' ∈ (runSteps ss).trace) ∧
      ∀ x, s.body.res = .error x → (runSteps ss).res = .error x := by
  induction ss with
  | nil => simp [runSteps] at h
  | cons s ss ih =>
    cases hs : s.selected with
    | false =>
      rw [runSteps_skip ss hs] at h ⊢
      obtain ⟨t, ht, h1, h2, h3, h4⟩ := ih h
      exact ⟨t, List.mem_cons_of_mem _ ht, h1, h2, h3, h4⟩
    | true =>
      cases hb : s.body.res with
      | error x =>
        rw [runSteps_error ss hs hb] at h ⊢
        refine ⟨s, List.mem_cons_self _ _, hs, h, fun e' he' => he', ?_⟩
        intro y hy
        rw [hb] at hy
        rw [hy]
      | ok u =>
        rw [runSteps_ok ss hs hb] at h ⊢
        rcases List.mem_append.1 h with h | h
        · refine ⟨s, List.mem_cons_self _ _, hs, h, fun e' he' => List.mem_append_left _ he', ?_⟩
          intro y hy
          rw [hb] at hy
          cases hy
        · obtain ⟨t, ht, h1, h2, h3, h4⟩ := ih h
          exact ⟨t, List.mem_cons_of_mem _ ht, h1, h2,
            fun e' he' => List.mem_append_right _ (h3 e' he'), h4⟩

/-- The steps return where one of the selected steps returns. -/
theorem runSteps_exit {ss : List Step} {x : Exit} (h : (runSteps ss).res = .error x) :
    ∃ s ∈ ss, s.selected = true ∧ s.body.res = .error x := by
  induction ss with
  | nil => simp [runSteps] at h
  | cons s ss ih =>
    cases hs : s.selected with
    | false =>
      rw [runSteps_skip ss hs] at h
      obtain ⟨t, ht, h1, h2⟩ := ih h
      exact ⟨t, List.mem_cons_of_mem _ ht, h1, h2⟩
    | true =>
      cases hb : s.body.res with
      | error y =>
        rw [runSteps_error ss hs hb] at h
        have hxy : y = x := by simpa using h
        subst hxy
        exact ⟨s, List.mem_cons_self _ _, hs, hb⟩
      | ok u =>
        rw [runSteps_ok ss hs hb] at h
        obtain ⟨t, ht, h1, h2⟩ := ih h
        exact ⟨t, List.mem_cons_of_mem _ ht, h1, h2⟩

/-- When no selected step returns, the steps reach the last line and every
selected step has run in full. -/
theorem runSteps_all {ss : List Step} (h : ∀ s ∈ ss, s.selected = true → s.body.res = .ok ()) :
    (runSteps ss).res = .ok () ∧
      ∀ s ∈ ss, s.selected = true → ∀ e ∈ s.body.trace, e ∈ (runSteps ss).trace := by
  induction ss with
  | nil => exact ⟨rfl, by simp⟩
  | cons s ss ih =>
    have ih1 := ih (fun t ht => h t (List.mem_cons_of_mem _ ht))
    cases hs : s.selected with
    | false =>
      rw [runSteps_skip ss hs]
      refine ⟨ih1.1, ?_⟩
      intro t ht hsel e he
      rcases List.mem_cons.1 ht with rfl | ht
      · rw [hs] at hsel; cases hsel
      · exact ih1.2 t ht hsel e he
    | true =>
      rw [runSteps_ok ss hs (h s (List.mem_cons_self _ _) hs)]
      refine ⟨ih1.1, ?_⟩
      intro t ht hsel e he
      rcases List.mem_cons.1 ht with rfl | ht
      · exact List.mem_append_left _ he
      · exact List.mem_append_right _ (ih1.2 t ht hsel e he)

/-- The calls of the steps follow the skeletons of the steps, in order. -/
theorem runSteps_sub {ss : List Step} (skel : ResourceKind → List Event)
    (h : ∀ s ∈ ss, List.Sublist s.body.trace (skel s.kind)) :
    List.Sublist (runSteps ss).trace (ss.map fun s => skel s.kind).flatten := by
  induction ss with
  | nil => exact List.nil_sublist _
  | cons s ss ih =>
    rw [runSteps_cons, List.map_cons, List.flatten_cons]
    exact Prog.sub_bind (Prog.sub_ifThen (h s (List.mem_cons_self _ _)))
      (fun _ => ih (fun t ht => h t (List.mem_cons_of_mem _ ht)))

/-- Fail-fast over the steps: when the steps return from the step of kind `K`,
the selected steps before it have issued their main call, and no call of a
selected step after it is issued. -/
theorem runSteps_failfast {ss : List Step} (main : ResourceKind → Event)
    (hown : ∀ s ∈ ss, ∀ e ∈ s.body.trace, e.owner = some s.kind)
    (hsite : ∀ s ∈ ss, ∀ x, s.body.res = .error x → x.site = .action s.kind)
    (hmain : ∀ s ∈ ss, s.body.res = .ok () → main s.kind ∈ s.body.trace)
    (hnd : (ss.map fun s => s.kind).Nodup)
    {x : Exit} (hx : (runSteps ss).res = .error x) {K : ResourceKind} (hK : x.site = .action K)
    {pre post : List ResourceKind}
    (hplan : (ss.filter fun s => s.selected).map (fun s => s.kind) = pre ++ K :: post) :
    (∀ J ∈ pre, main J ∈ (runSteps ss).trace) ∧
      ∀ J ∈ post, ∀ e ∈ (runSteps ss).trace, e.owner ≠ some J := by
  induction ss generalizing pre with
  | nil => simp [runSteps] at hx
  | cons s ss ih =>
    have hnd2 : (ss.map fun s => s.kind).Nodup := (List.nodup_cons.1 hnd).2
    have hnot : s.kind ∉ ss.map fun s => s.kind := (List.nodup_cons.1 hnd).1
    have hown2 : ∀ t ∈ ss, ∀ e ∈ t.body.trace, e.owner = some t.kind :=
      fun t ht => hown t (List.mem_cons_of_mem _ ht)
    have hsite2 : ∀ t ∈ ss, ∀ x, t.body.res = .error x → x.site = .action t.kind :=
      fun t ht => hsite t (List.mem_cons_of_mem _ ht)
    have hmain2 : ∀ t ∈ ss, t.body.res = .ok () → main t.kind ∈ t.body.trace :=
      fun t ht => hmain t (List.mem_cons_of_mem _ ht)
    -- kinds of the selected steps of the tail are kinds of the tail
    have hsub : ∀ J, J ∈ (ss.filter fun s => s.selected).map (fun s => s.kind) →
        J ∈ ss.map fun s => s.kind := by
      intro J hJ
      obtain ⟨t, ht, rfl⟩ := List.mem_map.1 hJ
      exact List.mem_map.2 ⟨t, (List.mem_filter.1 ht).1, rfl⟩
    cases hs : s.selected with
    | false =>
      rw [runSteps_skip ss hs] at hx ⊢
      rw [List.filter_cons_of_neg (by simp [hs])] at hplan
      exact ih hown2 hsite2 hmain2 hnd2 hx hplan
    | true =>
      rw [List.filter_cons_of_pos (by simp [hs]), List.map_cons] at hplan
      cases hb : s.body.res with
      | error y =>
        rw [runSteps_error ss hs hb] at hx ⊢
        have hxy : y = x := by simpa using hx
        subst hxy
        have hk : s.kind = K := by
          have := hsite s (List.mem_cons_self _ _) y hb
          rw [hK] at this
          exact (Site.action.inj this).symm
        subst hk
        cases pre with
        | nil =>
          refine ⟨by simp, ?_⟩
          intro J hJ e he hJe
          have h1 := hown s (List.mem_cons_self _ _) e he
          rw [h1] at hJe
          have h2 : J = s.kind := (Option.some.inj hJe).symm
          subst h2
          rw [List.nil_append] at hplan
          have h3 := List.tail_eq_of_cons_eq hplan
          exact hnot (hsub _ (h3 ▸ hJ))
        | cons a pre =>
          rw [List.cons_append] at hplan
          have h3 := List.tail_eq_of_cons_eq hplan
          exact absurd (hsub s.kind (h3 ▸ List.mem_append_right _ (List.mem_cons_self _ _))) hnot
      | ok u =>
        rw [runSteps_ok ss hs hb] at hx ⊢
        obtain ⟨t, ht, -, htx⟩ := runSteps_exit hx
        have hKt : K = t.kind := by
          have := hsite2 t ht x htx
          rw [hK] at this
          exact Site.action.inj this
        have hne : s.kind ≠ K := by
          intro h
          exact hnot (List.mem_map.2 ⟨t, ht, by rw [h, hKt]⟩)
        cases pre with
        | nil =>
          rw [List.nil_append] at hplan
          exact absurd (List.head_eq_of_cons_eq hplan) hne
        | cons a pre =>
          rw [List.cons_append] at hplan
          have ha : s.kind = a := List.head_eq_of_cons_eq hplan
          have h3 := List.tail_eq_of_cons_eq hplan
          obtain ⟨ih1, ih2⟩ := ih hown2 hsite2 hmain2 hnd2 hx h3
          constructor
          · intro J hJ
            rcases List.mem_cons.1 hJ with rfl | hJ
            · exact List.mem_append_left _ (ha ▸ hmain s (List.mem_cons_self _ _) hb)
            · exact List.mem_append_right _ (ih1 J hJ)
          · intro J hJ e he hJe
            rcases List.mem_append.1 he with he | he
            · have h1 := hown s (List.mem_cons_self _ _) e he
              rw [h1] at hJe
              have h2 : J = s.kind := (Option.some.inj hJe).symm
              subst h2
              exact hnot (hsub _ (h3 ▸ List.mem_append_right _ (List.mem_cons_of_mem _ hJ)))
            · exact ih2 J hJ e he hJe
namespace Prog

theorem stopsAt_bind {α β : Type} {Q : Exit → Event → Prop} {p : Prog α} {f : α → Prog β}
    (hp : p.StopsAt Q) (hf : ∀ a, (f a).StopsAt Q) : (p >>= f).StopsAt Q := by
  intro x hx
  rcases bind_error_inv hx with ⟨h1, h2⟩ | ⟨a, h1, h2, h3⟩
  · rw [h2]
    exact hp x h1
  · obtain ⟨e, he, hq⟩ := hf a x h2
    refine ⟨e, ?_, hq⟩
    rw [h3, List.filter_append, List.getLast?_append, he]
    rfl

theorem stopsAt_of_ok {α : Type} {Q : Exit → Event → Prop} {p : Prog α} {a : α}
    (h : p.res = .ok a) : p.StopsAt Q := by
  intro x hx
  rw [h] at hx
  cases hx

theorem strict_bind {α β : Type} {bad : Event → Site → Prop} {p : Prog α} {f : α → Prog β}
    (hp : p.Strict bad) (hf : ∀ a, (f a).Strict bad) : (p >>= f).Strict bad := by
  intro e s he hb
  rcases mem_bind he with h | ⟨a, h1, h2⟩
  · obtain ⟨r, hr⟩ := hp e s h hb
    exact ⟨r, by rw [bind_of_error f hr]⟩
  · obtain ⟨r, hr⟩ := hf a e s h2 hb
    exact ⟨r, by rw [bind_of_ok f h1]; exact hr⟩

theorem strict_of_forall {α : Type} {bad : Event → Site → Prop} {p : Prog α}
    (h : ∀ e ∈ p.trace, ∀ s, ¬ bad e s) : p.Strict bad :=
  fun e s he hb => absurd hb (h e he s)

end Prog


theorem Prog.bind_assoc {α β γ : Type} (p : Prog α) (f : α → Prog β) (g : β → Prog γ) :
    (p >>= f) >>= g = p >>= fun a => f a >>= g := by
  cases hp : p.res with
  | error x =>
    rw [Prog.bind_of_error f hp, Prog.bind_of_error _ hp]
    rfl
  | ok a =>
    rw [Prog.bind_of_ok f hp, Prog.bind_of_ok _ hp]
    cases hf : (f a).res with
    | error y =>
      rw [Prog.bind_of_error g hf]
      simp [Prog.bind_def, Prog.andThen, hf]
    | ok b =>
      rw [Prog.bind_of_ok g hf]
      simp [Prog.bind_def, Prog.andThen, hf]


/-- In a list sorted by rank, an event of smaller rank comes strictly before
one of larger rank. -/
theorem before_of_sorted {rk : Event → Nat} {l : List Event}
    (h : l.Pairwise fun x y => rk x ≤ rk y) {a b : Event} (hab : rk a < rk b) :
    Before a b l := by
  intro i j hi hj
  obtain ⟨hi', hia⟩ := List.getElem?_eq_some.1 hi
  obtain ⟨hj', hjb⟩ := List.getElem?_eq_some.1 hj
  by_contra hlt
  have hne : i ≠ j := by
    intro hij
    subst hij
    rw [hia] at hjb
    subst hjb
    exact Nat.lt_irrefl _ hab
  have hji : j < i := by omega
  have := List.pairwise_iff_getElem.1 h j i hj' hi' hji
  rw [hia, hjb] at this
  omega


theorem Selection.isEmpty_of_forall {sel : Selection} (h : ∀ k, sel.has k = false) :
    sel.isEmpty = true := by
  have h1 := h .ComputeCluster
  have h2 := h .ServiceRole
  have h3 := h .LaunchTemplate
  have h4 := h .ScalingGroup
  have h5 := h .InstanceProfile
  have h6 := h .InstanceSecurityGroup
  simp only [Selection.has] at h1 h2 h3 h4 h5 h6
  simp [Selection.isEmpty, h1, h2, h3, h4, h5, h6]



theorem failedRead_owner {env : Env} {e : Event} {s : Site} (h : failedRead env e s) :
    e.owner = none ∧ e ≠ .AskConfirm := by
  rcases h with ⟨k, err, rfl, -, -⟩ | ⟨k, err, rfl, -, -⟩ | ⟨err, rfl, -, -⟩ <;>
    exact ⟨rfl, by simp⟩

/-- When the steps reach the last line, every selected step did. -/
theorem runSteps_ok_inv {ss : List Step} {u : Unit} (h : (runSteps ss).res = .ok u) :
    ∀ s ∈ ss, s.selected = true → s.body.res = .ok () := by
  induction ss with
  | nil => simp
  | cons s ss ih =>
    intro t ht hsel
    cases hs : s.selected with
    | false =>
      rw [runSteps_skip ss hs] at h
      rcases List.mem_cons.1 ht with rfl | ht
      · rw [hs] at hsel
        cases hsel
      · exact ih h t ht hsel
    | true =>
      cases hb : s.body.res with
      | error x =>
        rw [runSteps_error ss hs hb] at h
        cases h
      | ok v =>
        rw [runSteps_ok ss hs hb] at h
        rcases List.mem_cons.1 ht with rfl | ht
        · exact hb
        · exact ih h t ht hsel

/-! ## cluster-delete -/
namespace utils

/-- The retried call never leaves `Run`; it issues calls `i`, ..., `i + m - 1`
for some `m` up to the bound, all but the last answered with an error of a
listed code, and returns the answer of the last. -/
theorem RetryOnAWSErrorCode_spec (fn : Nat → Option Err) (ev : Nat → Event)
    (codes : List String) (n i : Nat) :
    ∃ m, m ≤ n ∧ (0 < n → 0 < m) ∧
      (RetryOnAWSErrorCode fn ev codes n i).trace = (List.range' i m).map ev ∧
      (RetryOnAWSErrorCode fn ev codes n i).res = .ok (if m = 0 then none else fn (i + m - 1)) ∧
      ∀ j, j + 1 < m → ∃ e, fn (i + j) = some e ∧ ∃ c ∈ codes, e.code = some c := by
  induction n generalizing i with
  | zero => exact ⟨0, le_refl _, by simp, rfl, rfl, by simp⟩
  | succ n ih =>
    unfold RetryOnAWSErrorCode
    cases hf : fn i with
    | none =>
      refine ⟨1, by omega, by simp, by simp, by simp [hf], by simp⟩
    | some e =>
      by_cases hc : (∃ c ∈ codes, e.code = some c) ∧ n ≠ 0
      · obtain ⟨m, hm, hpos, ht, hr, hall⟩ := ih (i + 1)
        have hm0 : 0 < m := hpos (Nat.pos_of_ne_zero hc.2)
        refine ⟨m + 1, by omega, by simp, ?_, ?_, ?_⟩
        · simp [hc, ht, List.range'_succ]
        · have h1 : i + 1 + m - 1 = i + (m + 1) - 1 := by omega
          have h2 : m ≠ 0 := by omega
          simp [hc, hr, h1, h2]
        · intro j hj
          cases j with
          | zero => exact ⟨e, hf, hc.1⟩
          | succ j =>
            have := hall j (by omega)
            have h3 : i + 1 + j = i + (j + 1) := by omega
            rwa [h3] at this
      · refine ⟨1, by omega, by simp, ?_, ?_, by simp⟩
        · simp [hc]
        · simp [hc, hf]

end utils
namespace clusterdelete

theorem retrieve_eq_delete (env : Env) (k : ResourceKind) :
    retrieve env k = ⟨[.Retrieve k], match env.Retrieve k with
      | .error e => .error ⟨.retrieve k, some e⟩
      | .ok r => .ok r⟩ := by
  unfold retrieve
  cases h : env.Retrieve k <;> rfl

theorem retrieveTags_eq (env : Env) (k : ResourceKind) :
    retrieveTags env k = ⟨[.RetrieveTags k], match env.RetrieveTags k with
      | .error e => .error ⟨.tags k, some e⟩
      | .ok r => .ok r⟩ := by
  unfold retrieveTags
  cases h : env.RetrieveTags k <;> rfl

theorem retrieve_stopsAt_delete (env : Env) (k : ResourceKind) :
    (retrieve env k).StopsAt (readExit env) := by
  intro x hx
  rw [retrieve_eq_delete] at hx ⊢
  cases h : env.Retrieve k with
  | ok r => simp [h] at hx
  | error e =>
    simp only [h] at hx
    refine ⟨.Retrieve k, rfl, Or.inl ⟨k, e, rfl, ?_, h⟩⟩
    simpa using hx.symm

theorem retrieveTags_stopsAt (env : Env) (k : ResourceKind) :
    (retrieveTags env k).StopsAt (readExit env) := by
  intro x hx
  rw [retrieveTags_eq] at hx ⊢
  cases h : env.RetrieveTags k with
  | ok r => simp [h] at hx
  | error e =>
    simp only [h] at hx
    refine ⟨.RetrieveTags k, rfl, Or.inr ⟨k, e, rfl, ?_, h⟩⟩
    simpa using hx.symm

theorem retrieve_strict_delete (env : Env) (k : ResourceKind) :
    (retrieve env k).Strict (failedRead env) := by
  intro e s he hb
  rw [retrieve_eq_delete] at he ⊢
  simp only [List.mem_singleton] at he
  subst he
  rcases hb with ⟨k', err, h1, h2, h3⟩ | ⟨k', err, h1, _, _⟩ | ⟨err, h1, _, _⟩
  · cases h1
    subst h2
    exact ⟨some err, by simp [h3]⟩
  · cases h1
  · cases h1

theorem retrieveTags_strict (env : Env) (k : ResourceKind) :
    (retrieveTags env k).Strict (failedRead env) := by
  intro e s he hb
  rw [retrieveTags_eq] at he ⊢
  simp only [List.mem_singleton] at he
  subst he
  rcases hb with ⟨k', err, h1, _, _⟩ | ⟨k', err, h1, h2, h3⟩ | ⟨err, h1, _, _⟩
  · cases h1
  · cases h1
    subst h2
    exact ⟨some err, by simp [h3]⟩
  · cases h1

theorem pure_stopsAt_delete {α : Type} (Q : Exit → Event → Prop) (a : α) :
    (pure a : Prog α).StopsAt Q := Prog.stopsAt_of_ok rfl

theorem pure_strict_delete {α : Type} (bad : Event → Site → Prop) (a : α) :
    (pure a : Prog α).Strict bad := Prog.strict_of_forall (by simp)

theorem identify_stopsAt_delete (env : Env) : (identify env).StopsAt (readExit env) := by
  unfold identify findECSCluster findPresent findAutoScalingGroup findInstanceSecurityGroup
  repeat' first
    | exact retrieve_stopsAt_delete env _
    | exact retrieveTags_stopsAt env _
    | exact pure_stopsAt_delete _ _
    | apply Prog.stopsAt_bind
    | split
    | intro _

theorem identify_strict_delete (env : Env) : (identify env).Strict (failedRead env) := by
  unfold identify findECSCluster findPresent findAutoScalingGroup findInstanceSecurityGroup
  repeat' first
    | exact retrieve_strict_delete env _
    | exact retrieveTags_strict env _
    | exact pure_strict_delete _ _
    | apply Prog.strict_bind
    | split
    | intro _

end clusterdelete

namespace clusterdelete

theorem findECSCluster_ok_delete {env : Env} {b : Bool} (h : (findECSCluster env).res = .ok b) :
    ∃ c, env.Retrieve .ComputeCluster = .ok c ∧
      b = match c with
        | some c => c.Status != "INACTIVE"
        | none => false := by
  unfold findECSCluster at h
  rw [retrieve_eq_delete] at h
  cases hr : env.Retrieve .ComputeCluster with
  | error e => simp [hr, Prog.bind_def, Prog.andThen] at h
  | ok c =>
    refine ⟨c, rfl, ?_⟩
    cases c <;> simp [hr, Prog.bind_def, Prog.andThen] at h <;> simp [h]

theorem findPresent_ok {env : Env} {k : ResourceKind} {b : Bool}
    (h : (findPresent env k).res = .ok b) : ∃ r, env.Retrieve k = .ok r ∧ b = r.isSome := by
  unfold findPresent at h
  rw [retrieve_eq_delete] at h
  cases hr : env.Retrieve k with
  | error e => simp [hr, Prog.bind_def, Prog.andThen] at h
  | ok c =>
    refine ⟨c, rfl, ?_⟩
    simp [hr, Prog.bind_def, Prog.andThen] at h
    exact h.symm

theorem findAutoScalingGroup_ok_delete {env : Env} {b : Bool}
    (h : (findAutoScalingGroup env).res = .ok b) :
    ∃ g, env.Retrieve .ScalingGroup = .ok g ∧
      (b = true ↔ ∃ r t, g = some r ∧ utils.IsBlank r.Status = true ∧
        env.RetrieveTags .ScalingGroup = .ok t ∧ hasMarker t = true) := by
  unfold findAutoScalingGroup at h
  rw [retrieve_eq_delete] at h
  cases hr : env.Retrieve .ScalingGroup with
  | error e => simp [hr, Prog.bind_def, Prog.andThen] at h
  | ok g =>
    refine ⟨g, rfl, ?_⟩
    cases g with
    | none =>
      have hb : b = false := by
        simp [hr, Prog.bind_def, Prog.andThen] at h
        exact h
      simp [hb]
    | some r =>
      cases hbl : utils.IsBlank r.Status with
      | false =>
        have hb : b = false := by
          simp [hr, hbl, Prog.bind_def, Prog.andThen] at h
          exact h
        simp [hb, hbl]
      | true =>
        cases ht : env.RetrieveTags .ScalingGroup with
        | error e => simp [hr, hbl, ht, retrieveTags_eq, Prog.bind_def, Prog.andThen] at h
        | ok t =>
          have hb : b = hasMarker t := by
            simp [hr, hbl, ht, retrieveTags_eq, Prog.bind_def, Prog.andThen] at h
            exact h.symm
          simp [hb, hbl]

theorem findInstanceSecurityGroup_ok {env : Env} {b : Bool}
    (h : (findInstanceSecurityGroup env).res = .ok b) :
    ∃ g, env.Retrieve .InstanceSecurityGroup = .ok g ∧
      (b = true ↔ ∃ r t, g = some r ∧
        env.RetrieveTags .InstanceSecurityGroup = .ok t ∧ hasMarker t = true) := by
  unfold findInstanceSecurityGroup at h
  rw [retrieve_eq_delete] at h
  cases hr : env.Retrieve .InstanceSecurityGroup with
  | error e => simp [hr, Prog.bind_def, Prog.andThen] at h
  | ok g =>
    refine ⟨g, rfl, ?_⟩
    cases g with
    | none =>
      have hb : b = false := by
        simp [hr, Prog.bind_def, Prog.andThen] at h
        exact h
      simp [hb]
    | some r =>
      cases ht : env.RetrieveTags .InstanceSecurityGroup with
      | error e => simp [hr, ht, retrieveTags_eq, Prog.bind_def, Prog.andThen] at h
      | ok t =>
        have hb : b = hasMarker t := by
          simp [hr, ht, retrieveTags_eq, Prog.bind_def, Prog.andThen] at h
          exact h.symm
        simp [hb]

/-- What the six booleans of cluster-delete say, when every read went through. -/
theorem identify_ok_delete {env : Env} {sel : Selection} (h : (identify env).res = .ok sel) :
    (∃ c, env.Retrieve .ComputeCluster = .ok c ∧
      sel.ECSCluster = match c with
        | some c => c.Status != "INACTIVE"
        | none => false) ∧
    (∃ r, env.Retrieve .ServiceRole = .ok r ∧ sel.ECSServiceRole = r.isSome) ∧
    (∃ r, env.Retrieve .LaunchTemplate = .ok r ∧ sel.LaunchConfiguration = r.isSome) ∧
    (∃ g, env.Retrieve .ScalingGroup = .ok g ∧
      (sel.AutoScalingGroup = true ↔ ∃ r t, g = some r ∧ utils.IsBlank r.Status = true ∧
        env.RetrieveTags .ScalingGroup = .ok t ∧ hasMarker t = true)) ∧
    (∃ r, env.Retrieve .InstanceProfile = .ok r ∧ sel.InstanceProfile = r.isSome) ∧
    (∃ g, env.Retrieve .InstanceSecurityGroup = .ok g ∧
      (sel.InstanceSecurityGroup = true ↔ ∃ r t, g = some r ∧
        env.RetrieveTags .InstanceSecurityGroup = .ok t ∧ hasMarker t = true)) := by
  unfold identify at h
  obtain ⟨a, ha, h, -⟩ := Prog.bind_ok_inv h
  obtain ⟨b, hb, h, -⟩ := Prog.bind_ok_inv h
  obtain ⟨c, hc, h, -⟩ := Prog.bind_ok_inv h
  obtain ⟨d, hd, h, -⟩ := Prog.bind_ok_inv h
  obtain ⟨e, he, h, -⟩ := Prog.bind_ok_inv h
  obtain ⟨f, hf, h, -⟩ := Prog.bind_ok_inv h
  have hsel : sel = ⟨a, b, c, d, e, f⟩ := by
    simp at h
    exact h.symm
  subst hsel
  exact ⟨findECSCluster_ok_delete ha, findPresent_ok hb, findPresent_ok hc, findAutoScalingGroup_ok_delete hd,
    findPresent_ok he, findInstanceSecurityGroup_ok hf⟩

theorem identify_sub_delete (env : Env) : List.Sublist (identify env).trace reads := by
  unfold identify
  have h1 : List.Sublist (findECSCluster env).trace [.Retrieve .ComputeCluster] := by
    unfold findECSCluster
    rw [retrieve_eq_delete]
    cases hr : env.Retrieve .ComputeCluster with
    | error e => simp [Prog.bind_def, Prog.andThen]
    | ok c => cases c <;> simp [Prog.bind_def, Prog.andThen]
  have h2 : ∀ k, List.Sublist (findPresent env k).trace [.Retrieve k] := by
    intro k
    unfold findPresent
    rw [retrieve_eq_delete]
    cases env.Retrieve k <;> simp [Prog.bind_def, Prog.andThen]
  have h3 : List.Sublist (findAutoScalingGroup env).trace
      [.Retrieve .ScalingGroup, .RetrieveTags .ScalingGroup] := by
    unfold findAutoScalingGroup
    rw [retrieve_eq_delete]
    cases env.Retrieve .ScalingGroup with
    | error e => simp [Prog.bind_def, Prog.andThen]
    | ok g =>
      cases g with
      | none => simp [Prog.bind_def, Prog.andThen]
      | some r =>
        cases hbl : utils.IsBlank r.Status <;> cases ht : env.RetrieveTags .ScalingGroup <;>
          simp [hbl, ht, retrieveTags_eq, Prog.bind_def, Prog.andThen]
  have h4 : List.Sublist (findInstanceSecurityGroup env).trace
      [.Retrieve .InstanceSecurityGroup, .RetrieveTags .InstanceSecurityGroup] := by
    unfold findInstanceSecurityGroup
    rw [retrieve_eq_delete]
    cases env.Retrieve .InstanceSecurityGroup with
    | error e => simp [Prog.bind_def, Prog.andThen]
    | ok g =>
      cases g with
      | none => simp [Prog.bind_def, Prog.andThen]
      | some r =>
        cases ht : env.RetrieveTags .InstanceSecurityGroup <;>
          simp [ht, retrieveTags_eq, Prog.bind_def, Prog.andThen]
  exact Prog.sub_bind h1 fun _ => Prog.sub_bind (h2 _) fun _ => Prog.sub_bind (h2 _) fun _ =>
    Prog.sub_bind h3 fun _ => Prog.sub_bind (h2 _) fun _ => Prog.sub_bind h4 fun _ =>
      List.nil_sublist []

end clusterdelete

namespace clusterdelete

theorem deleteOnce_facts (env : Env) (flags : Flags) (k : ResourceKind) (c : Bool)
    (h1 : k ≠ .ScalingGroup) (h2 : k ≠ .InstanceSecurityGroup) :
    StepFacts env flags ⟨k, c, deleteOnce env flags k⟩ := by
  have hsk : skeleton k = [.Printf (.deleting k), .Delete k 0, .Errorln (.action k)] := by
    cases k <;> simp_all [skeleton]
  cases hd : env.Delete k 0 <;> cases hc : flags.ContinueOnError <;>
    constructor <;> simp [deleteOnce, onError, hd, hc, hsk, Event.owner, core.ExitWithError]

theorem deleteAutoScalingGroup_facts (env : Env) (flags : Flags) (c : Bool) :
    StepFacts env flags ⟨.ScalingGroup, c, deleteAutoScalingGroup env flags⟩ := by
  cases hs : env.scaleDownAutoScalingGroup <;> cases hd : env.Delete .ScalingGroup 0 <;>
    cases hc : flags.ContinueOnError <;>
    constructor <;>
    simp [deleteAutoScalingGroup, onError, hs, hd, hc, skeleton, Event.owner, core.ExitWithError]

end clusterdelete

namespace clusterdelete

theorem deleteInstanceSecurityGroups_eq (env : Env) (flags : Flags) :
    ∃ m, 0 < m ∧ m ≤ 60 ∧
      (∀ j, j + 1 < m → ∃ e, env.Delete .InstanceSecurityGroup j = some e ∧
        ∃ c ∈ ["DependencyViolation", "ResourceInUse"], e.code = some c) ∧
      deleteInstanceSecurityGroups env flags =
        ⟨.Printf (.deleting .InstanceSecurityGroup) ::
          ((List.range' 0 m).map (Event.Delete .InstanceSecurityGroup) ++
            (onError flags .InstanceSecurityGroup (env.Delete .InstanceSecurityGroup (m - 1))).trace),
          (onError flags .InstanceSecurityGroup (env.Delete .InstanceSecurityGroup (m - 1))).res⟩ := by
  obtain ⟨m, hm, hpos, ht, hr, hall⟩ := utils.RetryOnAWSErrorCode_spec
    (env.Delete .InstanceSecurityGroup) (Event.Delete .InstanceSecurityGroup)
    ["DependencyViolation", "ResourceInUse"] 60 0
  have hm0 : 0 < m := hpos (by omega)
  refine ⟨m, hm0, hm, ?_, ?_⟩
  · intro j hj
    simpa using hall j hj
  · have hne : m ≠ 0 := by omega
    simp only [hne, if_false, Nat.zero_add] at hr
    unfold deleteInstanceSecurityGroups
    rw [Prog.emit_bind, Prog.bind_of_ok _ hr, ht]

theorem deleteInstanceSecurityGroups_facts (env : Env) (flags : Flags) (c : Bool) :
    StepFacts env flags ⟨.InstanceSecurityGroup, c, deleteInstanceSecurityGroups env flags⟩ := by
  obtain ⟨m, hm0, hm, hall, heq⟩ := deleteInstanceSecurityGroups_eq env flags
  have hsub : List.Sublist ((List.range' 0 m).map (Event.Delete .InstanceSecurityGroup))
      ((List.range' 0 60).map (Event.Delete .InstanceSecurityGroup)) :=
    (List.range'_sublist_right.2 hm).map _
  have hmem : ∀ i, Event.Delete .InstanceSecurityGroup i ∈
      (deleteInstanceSecurityGroups env flags).trace ↔ i < m := by
    intro i
    cases hd : env.Delete .InstanceSecurityGroup (m - 1) <;>
      cases hc : flags.ContinueOnError <;>
      simp [heq, onError, hd, hc, List.mem_range'_1]
  have hlast : ∀ i, i < m → ¬ i + 1 < m → i = m - 1 := fun i h1 h2 => by omega
  have hprev : ∀ i, i + 1 < m → env.Delete .InstanceSecurityGroup i ≠ none := by
    intro i hi
    obtain ⟨e, he, -⟩ := hall i hi
    simp [he]
  constructor
  · cases hd : env.Delete .InstanceSecurityGroup (m - 1) <;>
      cases hc : flags.ContinueOnError <;>
      simp [heq, onError, hd, hc, Event.owner]
    rintro a (⟨i, -, rfl⟩ | rfl) <;> rfl
  · cases hd : env.Delete .InstanceSecurityGroup (m - 1) <;>
      cases hc : flags.ContinueOnError <;>
      simp [heq, onError, hd, hc, core.ExitWithError, eq_comm]
  · intro _ _
    exact (hmem 0).2 hm0
  · cases hd : env.Delete .InstanceSecurityGroup (m - 1) <;>
      cases hc : flags.ContinueOnError <;>
      simp [heq, onError, hd, hc]
  · intro _
    exact (hmem 0).2 hm0
  · cases hd : env.Delete .InstanceSecurityGroup (m - 1) <;>
      cases hc : flags.ContinueOnError <;>
      simp [heq, onError, hd, hc, skeleton] <;>
      exact hsub.trans (List.sublist_append_left _ _)
  · intro herr i hi
    rw [hmem] at hi
    by_cases hlt : i + 1 < m
    · exact hprev i hlt
    · rw [hlast i hi hlt]
      intro hd
      cases hc : flags.ContinueOnError <;> simp [heq, onError, hd, hc] at herr
  · intro hc hok
    refine ⟨by simp [heq, List.mem_range'_1, onError]; cases env.Delete .InstanceSecurityGroup (m - 1) <;> simp [hc], ?_⟩
    intro i hi hne
    rw [hmem] at hi ⊢
    by_contra hlt
    rw [hlast i hi hlt] at hne
    cases hd : env.Delete .InstanceSecurityGroup (m - 1) with
    | none => exact hne hd
    | some e => simp [heq, onError, hd, hc] at hok
  · intro h
    exact absurd rfl h
  · intro i hi hne hnext
    rw [hmem] at hi hnext
    have him := hlast i hi hnext
    subst him
    cases hd : env.Delete .InstanceSecurityGroup (m - 1) with
    | none => exact absurd hd hne
    | some e =>
      cases hc : flags.ContinueOnError <;> simp [heq, onError, hd, hc, core.ExitWithError]
  · intro i e hi he hcode
    rw [hmem] at hi ⊢
    intro hlt
    obtain ⟨e', he', hc'⟩ := hall i hlt
    rw [he] at he'
    cases he'
    exact hcode hc'
  · intro x hx
    right
    refine ⟨m - 1, (hmem _).2 (by omega), ?_, ?_⟩
    · intro hd
      cases hc : flags.ContinueOnError <;> simp [heq, onError, hd, hc] at hx
    · rw [hmem]
      omega

end clusterdelete

namespace clusterdelete

theorem execute_eq_delete (env : Env) (flags : Flags) (sel : Selection) :
    execute env flags sel = runSteps (steps env flags sel) := rfl

theorem steps_facts_delete (env : Env) (flags : Flags) (sel : Selection) :
    ∀ s ∈ steps env flags sel, StepFacts env flags s := by
  intro s hs
  simp only [steps, List.mem_cons, List.mem_singleton, List.not_mem_nil, or_false] at hs
  rcases hs with rfl | rfl | rfl | rfl | rfl | rfl
  · exact deleteAutoScalingGroup_facts env flags _
  · exact deleteOnce_facts env flags _ _ (by decide) (by decide)
  · exact deleteOnce_facts env flags _ _ (by decide) (by decide)
  · exact deleteInstanceSecurityGroups_facts env flags _
  · exact deleteOnce_facts env flags _ _ (by decide) (by decide)
  · exact deleteOnce_facts env flags _ _ (by decide) (by decide)

theorem steps_kinds_delete (env : Env) (flags : Flags) (sel : Selection) :
    (steps env flags sel).map (fun s => s.kind) = order := rfl

theorem steps_plan_delete (env : Env) (flags : Flags) (sel : Selection) :
    ((steps env flags sel).filter fun s => s.selected).map (fun s => s.kind) = plan order sel := by
  rcases sel with ⟨a, b, c, d, e, f⟩
  cases a <;> cases b <;> cases c <;> cases d <;> cases e <;> cases f <;> rfl

theorem steps_selected_delete (env : Env) (flags : Flags) (sel : Selection) :
    ∀ s ∈ steps env flags sel, s.selected = sel.has s.kind := by
  intro s hs
  simp only [steps, List.mem_cons, List.mem_singleton, List.not_mem_nil, or_false] at hs
  rcases hs with rfl | rfl | rfl | rfl | rfl | rfl <;> rfl

/-- The four ways through `Run`: a read fails; nothing to delete; the user
declines; the delete steps run. -/
theorem Run_cases_delete (env : Env) (flags : Flags) :
    (∃ x, (identify env).res = .error x ∧ Run env flags = ⟨(identify env).trace, .error x⟩) ∨
    (∃ sel, (identify env).res = .ok sel ∧ sel.isEmpty = true ∧
      Run env flags = ⟨(identify env).trace, .error ⟨.nothingToDo, none⟩⟩) ∨
    (∃ sel, (identify env).res = .ok sel ∧ sel.isEmpty = false ∧ flags.ForceDelete = false ∧
      env.AskConfirm = false ∧
      Run env flags = ⟨(identify env).trace ++ [.AskConfirm], .error ⟨.declined, none⟩⟩) ∨
    (∃ sel, (identify env).res = .ok sel ∧ sel.isEmpty = false ∧
      (flags.ForceDelete = true ∨ env.AskConfirm = true) ∧
      Run env flags = ⟨(identify env).trace ++ ((if flags.ForceDelete then [] else [.AskConfirm]) ++
        (runSteps (steps env flags sel)).trace), (runSteps (steps env flags sel)).res⟩) := by
  unfold Run
  cases hi : (identify env).res with
  | error x =>
    left
    exact ⟨x, rfl, Prog.bind_of_error _ hi⟩
  | ok sel =>
    right
    rw [Prog.bind_of_ok _ hi]
    cases he : sel.isEmpty with
    | true =>
      left
      refine ⟨sel, rfl, he, ?_⟩
      simp [nothingToDo, he]
    | false =>
      right
      cases hf : flags.ForceDelete with
      | true =>
        right
        refine ⟨sel, rfl, he, Or.inl rfl, ?_⟩
        simp [nothingToDo, he, confirmation, hf, execute_eq_delete]
      | false =>
        cases hc : env.AskConfirm with
        | true =>
          right
          refine ⟨sel, rfl, he, Or.inr rfl, ?_⟩
          simp [nothingToDo, he, confirmation, hf, hc, execute_eq_delete]
        | false =>
          left
          refine ⟨sel, rfl, he, rfl, rfl, ?_⟩
          simp [nothingToDo, he, confirmation, hf, hc]

end clusterdelete

namespace clusterdelete

set_option maxRecDepth 100000 in
theorem runSkeleton_sorted_delete :
    runSkeleton.Pairwise fun x y => rank order x ≤ rank order y := by decide

theorem Run_sub_delete (env : Env) (flags : Flags) :
    List.Sublist (Run env flags).trace runSkeleton := by
  unfold Run
  refine Prog.sub_bind (identify_sub_delete env) fun sel => ?_
  have hgate : List.Sublist
      (nothingToDo sel >>= fun _ => confirmation env flags >>= fun _ =>
        execute env flags sel).trace ([] ++ ([.AskConfirm] ++
          (order.map skeleton).flatten)) := by
    refine Prog.sub_bind ?_ fun _ => Prog.sub_bind ?_ fun _ => ?_
    · unfold nothingToDo
      split <;> simp
    · unfold confirmation
      cases flags.ForceDelete <;> cases env.AskConfirm <;> simp
    · rw [execute_eq_delete, ← steps_kinds_delete env flags sel, List.map_map]
      exact runSteps_sub skeleton fun s hs => (steps_facts_delete env flags sel s hs).sub
  simpa using hgate

/-- The calls of a run of cluster-delete come in the order of the source. -/
theorem Run_sorted_delete (env : Env) (flags : Flags) :
    (Run env flags).trace.Pairwise fun x y => rank order x ≤ rank order y :=
  List.Pairwise.sublist (Run_sub_delete env flags) runSkeleton_sorted_delete

end clusterdelete


namespace clusterdelete

theorem reads_owner_delete : ∀ e ∈ reads ++ [Event.AskConfirm], e.owner = none := by decide

theorem identify_owner (env : Env) : ∀ e ∈ (identify env).trace, e.owner = none :=
  fun e he => reads_owner_delete e (List.mem_append_left _ ((identify_sub_delete env).subset he))

/-- A call of a delete step is issued only by a run that selected the kind
of the step and went past the confirmation. -/
theorem Run_owned_delete {env : Env} {flags : Flags} {e : Event} {K : ResourceKind}
    (he : e ∈ (Run env flags).trace) (ho : e.owner = some K) :
    ∃ sel, (identify env).res = .ok sel ∧ sel.has K = true ∧
      (runSteps (steps env flags sel)).res = (Run env flags).res ∧
      (∀ e', e' ∈ (runSteps (steps env flags sel)).trace → e' ∈ (Run env flags).trace) ∧
      ∃ s ∈ steps env flags sel, s.kind = K ∧ s.selected = true ∧ e ∈ s.body.trace ∧
        (∀ e' ∈ s.body.trace, e' ∈ (Run env flags).trace) ∧
        ∀ x, s.body.res = .error x → (Run env flags).res = .error x := by
  have hno : ∀ e' ∈ (identify env).trace ++ [Event.AskConfirm], e'.owner = none := by
    intro e' he'
    rcases List.mem_append.1 he' with h | h
    · exact identify_owner env e' h
    · simp only [List.mem_singleton] at h
      subst h
      rfl
  rcases Run_cases_delete env flags with ⟨x, _, h⟩ | ⟨sel, _, _, h⟩ | ⟨sel, _, _, _, _, h⟩ |
      ⟨sel, hi, _, _, h⟩
  · rw [h] at he
    have := identify_owner env e he
    rw [ho] at this
    cases this
  · rw [h] at he
    have := identify_owner env e he
    rw [ho] at this
    cases this
  · rw [h] at he
    have := hno e he
    rw [ho] at this
    cases this
  · rw [h] at he ⊢
    have he' : e ∈ (runSteps (steps env flags sel)).trace := by
      simp only [List.mem_append] at he
      rcases he with he | he | he
      · have := identify_owner env e he
        rw [ho] at this
        cases this
      · have : e = .AskConfirm := by
          split at he
          · simp at he
          · simpa using he
        subst this
        cases ho
      · exact he
    obtain ⟨s, hs, hsel, hes, hall, hexit⟩ := runSteps_reached he'
    have hk : s.kind = K := by
      have := (steps_facts_delete env flags sel s hs).own e hes
      rw [ho] at this
      exact (Option.some.inj this).symm
    refine ⟨sel, hi, ?_, rfl, ?_, s, hs, hk, hsel, hes, ?_, hexit⟩
    · rw [← hk, ← steps_selected_delete env flags sel s hs]
      exact hsel
    · intro e' h'
      exact List.mem_append_right _ (List.mem_append_right _ h')
    · intro e' h'
      exact List.mem_append_right _ (List.mem_append_right _ (hall e' h'))

end clusterdelete


namespace clusterdelete

theorem reads_quiet_delete : ∀ e ∈ reads, e.isWrite = false ∧ e ≠ .AskConfirm := by decide

theorem identify_quiet (env : Env) :
    ∀ e ∈ (identify env).trace, e.isWrite = false ∧ e ≠ .AskConfirm :=
  fun e he => reads_quiet_delete e ((identify_sub_delete env).subset he)

end clusterdelete


namespace clusterdelete

set_option maxRecDepth 100000 in
theorem runSkeleton_confirm_delete : runSkeleton.count .AskConfirm = 1 := by decide

end clusterdelete


namespace clusterdelete

theorem order_nodup_delete : order.Nodup := by decide

/-- Fail-fast in cluster-delete without `--continue`: when `Run` returns from
the step of kind `K`, the selected kinds before `K` have had their delete call
and no call is issued for the selected kinds after `K`. -/
theorem failfast_delete {env : Env} {flags : Flags} {sel : Selection} {K : ResourceKind}
    {pre post : List ResourceKind} {r : Option Err} (hc : flags.ContinueOnError = false)
    (hst : (identify env).res = .ok sel) (hplan : plan order sel = pre ++ K :: post)
    (hres : (Run env flags).res = .error ⟨.action K, r⟩) :
    (∀ J ∈ pre, Event.Delete J 0 ∈ (Run env flags).trace) ∧
      ∀ J ∈ post, ∀ e ∈ (Run env flags).trace, e.owner ≠ some J := by
  rcases Run_cases_delete env flags with ⟨x, hx, _⟩ | ⟨sel', _, _, h⟩ | ⟨sel', _, _, _, _, h⟩ |
      ⟨sel', hi, _, _, h⟩
  · rw [hst] at hx
    cases hx
  · rw [h] at hres
    cases hres
  · rw [h] at hres
    cases hres
  · rw [hst] at hi
    cases hi
    rw [h] at hres ⊢
    have hf := steps_facts_delete env flags sel
    obtain ⟨h1, h2⟩ := runSteps_failfast (fun k => Event.Delete k 0)
      (fun s hs => (hf s hs).own)
      (fun s hs x hx => ((hf s hs).site x hx).2.1)
      (fun s hs hok => (hf s hs).first hok hc)
      (by rw [steps_kinds_delete]; exact order_nodup_delete)
      hres rfl (by rw [steps_plan_delete]; exact hplan)
    constructor
    · intro J hJ
      exact List.mem_append_right _ (List.mem_append_right _ (h1 J hJ))
    · intro J hJ e he ho
      simp only [List.mem_append] at he
      rcases he with he | he | he
      · have := identify_owner env e he
        rw [ho] at this
        cases this
      · have : e = .AskConfirm := by
          split at he
          · simp at he
          · simpa using he
        subst this
        cases ho
      · exact h2 J hJ e he ho

end clusterdelete


namespace clusterdelete

theorem steps_unique (env : Env) (flags : Flags) (sel : Selection) {s t : Step}
    (hs : s ∈ steps env flags sel) (ht : t ∈ steps env flags sel) (h : s.kind = t.kind) :
    s = t :=
  List.inj_on_of_nodup_map (f := fun s => s.kind)
    (by rw [steps_kinds_delete]; exact order_nodup_delete) hs ht h

end clusterdelete


namespace clusterdelete

/-- A read that fails ends the run of cluster-delete where the reads end. -/
theorem Run_failedRead_delete {env : Env} {flags : Flags} {e : Event} {s : Site}
    (he : e ∈ (Run env flags).trace) (hbad : failedRead env e s) :
    ∃ r, (identify env).res = .error ⟨s, r⟩ ∧
      Run env flags = ⟨(identify env).trace, .error ⟨s, r⟩⟩ ∧
      e ∈ (identify env).trace := by
  obtain ⟨hown, hne⟩ := failedRead_owner hbad
  have hin : e ∈ (identify env).trace := by
    by_contra hnot
    rcases Run_cases_delete env flags with ⟨x, _, h⟩ | ⟨sel, _, _, h⟩ | ⟨sel, _, _, _, _, h⟩ |
        ⟨sel, hi, _, _, h⟩
    · rw [h] at he
      exact hnot he
    · rw [h] at he
      exact hnot he
    · rw [h] at he
      rcases List.mem_append.1 he with he | he
      · exact hnot he
      · exact hne (by simpa using he)
    · rw [h] at he
      simp only [List.mem_append] at he
      rcases he with he | he | he
      · exact hnot he
      · apply hne
        split at he
        · simp at he
        · simpa using he
      · obtain ⟨t, ht, -, het⟩ := runSteps_mem he
        have := (steps_facts_delete env flags sel t ht).own e het
        rw [hown] at this
        cases this
  obtain ⟨r, hr⟩ := identify_strict_delete env e s hin hbad
  refine ⟨r, hr, ?_, hin⟩
  unfold Run
  rw [Prog.bind_of_error _ hr]

end clusterdelete

namespace clusterdelete

theorem identify_count {env : Env} {e : Event} {s : Site}
    (hbad : failedRead env e s) : (identify env).trace.count e ≤ 1 := by
  refine le_trans ((identify_sub_delete env).count_le e) ?_
  rcases hbad with ⟨k, err, rfl, -, -⟩ | ⟨k, err, rfl, -, -⟩ | ⟨err, rfl, -, -⟩
  · cases k <;> decide
  · cases k <;> decide
  · decide

/-- The read that made the run return is its last call. -/
theorem identify_last {env : Env} {e : Event} {s : Site} {r : Option Err}
    (hbad : failedRead env e s) (hr : (identify env).res = .error ⟨s, r⟩) :
    ((identify env).trace.filter Event.isCall).getLast? = some e := by
  obtain ⟨e', he', hq⟩ := identify_stopsAt_delete env _ hr
  rw [he']
  rcases hq with ⟨k, err, rfl, hx, -⟩ | ⟨k, err, rfl, hx, -⟩ <;>
    rcases hbad with ⟨k', err', rfl, rfl, -⟩ | ⟨k', err', rfl, rfl, -⟩ | ⟨err', rfl, rfl, -⟩ <;>
    simp_all

end clusterdelete


namespace clusterdelete

end clusterdelete


namespace clusterdelete

/-- The delete calls of cluster-delete: a kind other than the security group
has one call; a failed call that is not of a retried code is the last of its
kind, and the action is then reported failed or `Run` returns from it. -/
theorem delete_calls (env : Env) (flags : Flags) (k : ResourceKind) (i : Nat) :
    (k ≠ .InstanceSecurityGroup → Event.Delete k (i + 1) ∉ (Run env flags).trace) ∧
    ∀ e, Event.Delete k i ∈ (Run env flags).trace → env.Delete k i = some e →
      (k = .InstanceSecurityGroup →
        ¬ ∃ c ∈ ["DependencyViolation", "ResourceInUse"], e.code = some c) →
      Event.Delete k (i + 1) ∉ (Run env flags).trace ∧
      (Event.Errorln (.action k) ∈ (Run env flags).trace ∨
        ∃ r, (Run env flags).res = .error ⟨.action k, r⟩) := by
  have honce : k ≠ .InstanceSecurityGroup → Event.Delete k (i + 1) ∉ (Run env flags).trace := by
    intro hk hin
    obtain ⟨sel, -, -, -, -, s, hs, hks, -, hes, -⟩ := Run_owned_delete hin rfl
    subst hks
    exact (steps_facts_delete env flags sel s hs).once hk i hes
  refine ⟨honce, ?_⟩
  intro e hin he hcode
  obtain ⟨sel, hi, -, -, -, s, hs, hks, -, hes, hall, hexit⟩ := Run_owned_delete hin rfl
  subst hks
  have hf := steps_facts_delete env flags sel s hs
  have hnext : Event.Delete s.kind (i + 1) ∉ (Run env flags).trace := by
    by_cases hk : s.kind = .InstanceSecurityGroup
    · intro hin'
      obtain ⟨sel', hi', -, -, -, t, ht, hkt, -, het, -⟩ := Run_owned_delete hin' rfl
      rw [hi] at hi'
      cases hi'
      have hts : t = s := steps_unique env flags sel ht hs hkt
      subst hts
      exact hf.stop i e hes he (hcode hk) het
    · exact honce hk
  refine ⟨hnext, ?_⟩
  have hne : env.Delete s.kind i ≠ none := by simp [he]
  rcases hf.marked i hes hne (fun h => hnext (hall _ h)) with h | ⟨r, h⟩
  · exact Or.inl (hall _ h)
  · exact Or.inr ⟨r, hexit _ h⟩

end clusterdelete


/-! ## cluster-create -/

namespace clustercreate

theorem fail_eq {α : Type} (s : Site) (err : Err) :
    (fail s err : Prog α) = ⟨[.Errorln s], .error ⟨s, none⟩⟩ := rfl

theorem check_none (s : Site) : check s none = pure () := rfl

theorem check_some (s : Site) (e : Err) :
    check s (some e) = ⟨[.Errorln s], .error ⟨s, none⟩⟩ := rfl

theorem retrieve_eq_create (env : Env) (k : ResourceKind) :
    retrieve env k = match env.Retrieve k with
      | .error _ => ⟨[.Retrieve k, .Errorln (.retrieve k)], .error ⟨.retrieve k, none⟩⟩
      | .ok r => ⟨[.Retrieve k], .ok r⟩ := by
  unfold retrieve
  cases h : env.Retrieve k <;> rfl

theorem getAWSNetwork_eq (env : Env) :
    getAWSNetwork env = match env.getAWSNetwork with
      | some _ => ⟨[.getAWSNetwork, .Errorln .network], .error ⟨.network, none⟩⟩
      | none => ⟨[.getAWSNetwork], .ok ()⟩ := by
  unfold getAWSNetwork
  cases h : env.getAWSNetwork <;> rfl

theorem retrieve_stopsAt_create (env : Env) (k : ResourceKind) :
    (retrieve env k).StopsAt (readExit env) := by
  intro x hx
  rw [retrieve_eq_create] at hx ⊢
  cases h : env.Retrieve k with
  | ok r => simp [h] at hx
  | error e =>
    simp only [h] at hx
    refine ⟨.Retrieve k, rfl, Or.inl ⟨k, e, rfl, ?_, h⟩⟩
    simpa using hx.symm

theorem getAWSNetwork_stopsAt (env : Env) : (getAWSNetwork env).StopsAt (readExit env) := by
  intro x hx
  rw [getAWSNetwork_eq] at hx ⊢
  cases h : env.getAWSNetwork with
  | none => simp [h] at hx
  | some e =>
    simp only [h] at hx
    refine ⟨.getAWSNetwork, rfl, Or.inr ⟨e, rfl, ?_, h⟩⟩
    simpa using hx.symm

theorem retrieve_strict_create (env : Env) (k : ResourceKind) :
    (retrieve env k).Strict (failedRead env) := by
  intro e s he hb
  rw [retrieve_eq_create] at he ⊢
  rcases hb with ⟨k', err, h1, h2, h3⟩ | ⟨k', err, h1, _, _⟩ | ⟨err, h1, _, _⟩
  · subst h1 h2
    cases h : env.Retrieve k with
    | ok r =>
      simp [h] at he
      subst he
      rw [h] at h3
      cases h3
    | error e' =>
      simp [h] at he
      subst he
      exact ⟨none, rfl⟩
  · subst h1
    cases h : env.Retrieve k <;> simp [h] at he
  · subst h1
    cases h : env.Retrieve k <;> simp [h] at he

theorem getAWSNetwork_strict (env : Env) : (getAWSNetwork env).Strict (failedRead env) := by
  intro e s he hb
  rw [getAWSNetwork_eq] at he ⊢
  rcases hb with ⟨k', err, h1, _, _⟩ | ⟨k', err, h1, _, _⟩ | ⟨err, h1, h2, h3⟩
  · subst h1
    cases h : env.getAWSNetwork <;> simp [h] at he
  · subst h1
    cases h : env.getAWSNetwork <;> simp [h] at he
  · subst h1 h2
    rw [h3]
    exact ⟨none, rfl⟩

theorem pure_stopsAt_create {α : Type} (Q : Exit → Event → Prop) (a : α) :
    (pure a : Prog α).StopsAt Q := Prog.stopsAt_of_ok rfl

theorem pure_strict_create {α : Type} (bad : Event → Site → Prop) (a : α) :
    (pure a : Prog α).Strict bad := Prog.strict_of_forall (by simp)

theorem identify_stopsAt_create (env : Env) (flags : Flags) :
    (identify env flags).StopsAt (readExit env) := by
  unfold identify findECSCluster findAbsent findAutoScalingGroup findInstanceProfile findAbsent
  repeat' first
    | exact retrieve_stopsAt_create env _
    | exact pure_stopsAt_create _ _
    | apply Prog.stopsAt_bind
    | split
    | intro _

theorem identify_strict_create (env : Env) (flags : Flags) :
    (identify env flags).Strict (failedRead env) := by
  unfold identify findECSCluster findAbsent findAutoScalingGroup findInstanceProfile findAbsent
  repeat' first
    | exact retrieve_strict_create env _
    | exact pure_strict_create _ _
    | apply Prog.strict_bind
    | split
    | intro _

theorem findECSCluster_ok_create {env : Env} {b : Bool} (h : (findECSCluster env).res = .ok b) :
    ∃ c, env.Retrieve .ComputeCluster = .ok c ∧
      b = match c with
        | none => true
        | some c => c.Status == "INACTIVE" := by
  unfold findECSCluster at h
  rw [retrieve_eq_create] at h
  cases hr : env.Retrieve .ComputeCluster with
  | error e => simp [hr, Prog.bind_def, Prog.andThen] at h
  | ok c =>
    refine ⟨c, rfl, ?_⟩
    cases c <;> simp [hr, Prog.bind_def, Prog.andThen] at h <;> simp [h]

theorem findAbsent_ok {env : Env} {k : ResourceKind} {b : Bool}
    (h : (findAbsent env k).res = .ok b) : ∃ r, env.Retrieve k = .ok r ∧ b = r.isNone := by
  unfold findAbsent at h
  rw [retrieve_eq_create] at h
  cases hr : env.Retrieve k with
  | error e => simp [hr, Prog.bind_def, Prog.andThen] at h
  | ok c =>
    refine ⟨c, rfl, ?_⟩
    simp [hr, Prog.bind_def, Prog.andThen] at h
    exact h.symm

theorem findAutoScalingGroup_ok_create {env : Env} {b : Bool × Option Resource}
    (h : (findAutoScalingGroup env).res = .ok b) :
    env.Retrieve .ScalingGroup = .ok b.2 ∧
      b.1 = match b.2 with
        | none => true
        | some g => !utils.IsBlank g.Status := by
  unfold findAutoScalingGroup at h
  rw [retrieve_eq_create] at h
  cases hr : env.Retrieve .ScalingGroup with
  | error e => simp [hr, Prog.bind_def, Prog.andThen] at h
  | ok c =>
    cases c <;> simp [hr, Prog.bind_def, Prog.andThen] at h <;> subst h <;> simp

theorem findInstanceProfile_ok {env : Env} {flags : Flags} {b : Bool}
    (h : (findInstanceProfile env flags).res = .ok b) :
    (utils.IsBlank flags.InstanceProfile = false ∧ b = false) ∨
      (utils.IsBlank flags.InstanceProfile = true ∧
        ∃ r, env.Retrieve .InstanceProfile = .ok r ∧ b = r.isNone) := by
  unfold findInstanceProfile at h
  cases hb : utils.IsBlank flags.InstanceProfile with
  | false =>
    simp [hb] at h
    exact Or.inl ⟨rfl, h⟩
  | true =>
    simp only [hb, Bool.not_true, Bool.false_eq_true, if_false] at h
    exact Or.inr ⟨rfl, findAbsent_ok h⟩

/-- What the six booleans of cluster-create say, when every read went through. -/
theorem identify_ok_create {env : Env} {flags : Flags} {st : Identified}
    (h : (identify env flags).res = .ok st) :
    (∃ c, env.Retrieve .ComputeCluster = .ok c ∧
      st.sel.ECSCluster = match c with
        | none => true
        | some c => c.Status == "INACTIVE") ∧
    (∃ r, env.Retrieve .ServiceRole = .ok r ∧ st.sel.ECSServiceRole = r.isNone) ∧
    (∃ r, env.Retrieve .LaunchTemplate = .ok r ∧ st.sel.LaunchConfiguration = r.isNone) ∧
    (env.Retrieve .ScalingGroup = .ok st.autoScalingGroup ∧
      st.sel.AutoScalingGroup = match st.autoScalingGroup with
        | none => true
        | some g => !utils.IsBlank g.Status) ∧
    ((utils.IsBlank flags.InstanceProfile = false ∧ st.sel.InstanceProfile = false) ∨
      (utils.IsBlank flags.InstanceProfile = true ∧
        ∃ r, env.Retrieve .InstanceProfile = .ok r ∧ st.sel.InstanceProfile = r.isNone)) ∧
    (∃ r, env.Retrieve .InstanceSecurityGroup = .ok r ∧
      st.sel.InstanceSecurityGroup = r.isNone) := by
  unfold identify at h
  obtain ⟨a, ha, h, -⟩ := Prog.bind_ok_inv h
  obtain ⟨b, hb, h, -⟩ := Prog.bind_ok_inv h
  obtain ⟨c, hc, h, -⟩ := Prog.bind_ok_inv h
  obtain ⟨d, hd, h, -⟩ := Prog.bind_ok_inv h
  obtain ⟨e, he, h, -⟩ := Prog.bind_ok_inv h
  obtain ⟨f, hf, h, -⟩ := Prog.bind_ok_inv h
  have hst : st = ⟨⟨a, b, c, d.1, e, f⟩, d.2⟩ := by
    simp at h
    exact h.symm
  subst hst
  exact ⟨findECSCluster_ok_create ha, findAbsent_ok hb, findAbsent_ok hc, findAutoScalingGroup_ok_create hd,
    findInstanceProfile_ok he, findAbsent_ok hf⟩

theorem retrieve_sub (env : Env) (k : ResourceKind) :
    List.Sublist (retrieve env k).trace [.Retrieve k, .Errorln (.retrieve k)] := by
  rw [retrieve_eq_create]
  cases env.Retrieve k <;> simp

theorem identify_sub_create (env : Env) (flags : Flags) :
    List.Sublist (identify env flags).trace reads := by
  unfold identify
  have h1 : List.Sublist (findECSCluster env).trace
      [.Retrieve .ComputeCluster, .Errorln (.retrieve .ComputeCluster)] := by
    unfold findECSCluster
    have := Prog.sub_bind (retrieve_sub env .ComputeCluster)
      (f := fun ecsCluster => match ecsCluster with
        | none => (pure true : Prog Bool)
        | some c => pure (c.Status == "INACTIVE")) (B := [])
      (by intro a; cases a <;> exact List.nil_sublist _)
    simpa using this
  have h2 : ∀ k, List.Sublist (findAbsent env k).trace [.Retrieve k, .Errorln (.retrieve k)] := by
    intro k
    unfold findAbsent
    have := Prog.sub_bind (retrieve_sub env k) (f := fun r => (pure r.isNone : Prog Bool))
      (B := []) (fun _ => List.nil_sublist _)
    simpa using this
  have h3 : List.Sublist (findAutoScalingGroup env).trace
      [.Retrieve .ScalingGroup, .Errorln (.retrieve .ScalingGroup)] := by
    unfold findAutoScalingGroup
    have := Prog.sub_bind (retrieve_sub env .ScalingGroup)
      (f := fun autoScalingGroup => match autoScalingGroup with
        | none => (pure (true, autoScalingGroup) : Prog (Bool × Option Resource))
        | some g => pure (!utils.IsBlank g.Status, autoScalingGroup)) (B := [])
      (by intro a; cases a <;> exact List.nil_sublist _)
    simpa using this
  have h4 : List.Sublist (findInstanceProfile env flags).trace
      [.Retrieve .InstanceProfile, .Errorln (.retrieve .InstanceProfile)] := by
    unfold findInstanceProfile
    split
    · exact List.nil_sublist _
    · exact h2 _
  exact Prog.sub_bind h1 fun _ => Prog.sub_bind (h2 _) fun _ => Prog.sub_bind (h2 _) fun _ =>
    Prog.sub_bind h3 fun _ => Prog.sub_bind h4 fun _ => Prog.sub_bind (h2 _) fun _ =>
      List.nil_sublist []

end clustercreate

namespace clustercreate

/-- The loop never leaves `Run`; it issues calls `i`, ..., `i + m - 1` for
some `m` up to the bound, all failed but perhaps the last, yields the answer of
the last, and an error only after the bound is reached. -/
theorem retryLoop_spec (env : Env) (n i : Nat) (last : Option Err) :
    ∃ m r, m ≤ n ∧ (0 < n → 0 < m) ∧
      (retryLoop env n i last).trace = (List.range' i m).map (Event.Create .LaunchTemplate) ∧
      (retryLoop env n i last).res = .ok r ∧
      r = (if m = 0 then last else env.Create .LaunchTemplate (i + m - 1)) ∧
      (∀ j, j + 1 < m → env.Create .LaunchTemplate (i + j) ≠ none) ∧
      (r ≠ none → m = n) := by
  induction n generalizing i last with
  | zero => exact ⟨0, last, le_refl _, by simp, rfl, rfl, rfl, by simp, by simp⟩
  | succ n ih =>
    unfold retryLoop
    cases hf : env.Create .LaunchTemplate i with
    | none =>
      exact ⟨1, none, by omega, by simp, by simp, by simp, by simp [hf], by simp, by simp⟩
    | some e =>
      obtain ⟨m, r, hm, hpos, ht, hr, hre, hall, hex⟩ := ih (i + 1) (some e)
      refine ⟨m + 1, r, by omega, by simp, ?_, ?_, ?_, ?_, ?_⟩
      · simp [ht, List.range'_succ]
      · simp [hr]
      · by_cases hm0 : m = 0
        · subst hm0
          simp at hre
          simp [hre, hf]
        · have h1 : i + 1 + m - 1 = i + (m + 1) - 1 := by omega
          simp [hre, hm0, h1]
      · intro j hj
        cases j with
        | zero => simp [hf]
        | succ j =>
          have := hall j (by omega)
          have h3 : i + 1 + j = i + (j + 1) := by omega
          rwa [h3] at this
      · intro hne
        by_cases hm0 : m = 0
        · subst hm0
          have := hpos
          omega
        · have := hex hne
          omega

theorem createOnce_facts (env : Env) (k : ResourceKind) (c : Bool)
    (h1 : k ≠ .InstanceSecurityGroup) (h2 : k ≠ .LaunchTemplate) (h3 : k ≠ .ScalingGroup) :
    StepFacts env ⟨k, c, createOnce env k⟩ := by
  have hsk : skeleton k = [.Printf (.creating k), .Create k 0, .Errorln (.action k)] := by
    cases k <;> simp_all [skeleton]
  cases hd : env.Create k 0 <;>
    constructor <;> simp [createOnce, check, fail_eq, hd, hsk, Event.owner, h2]

theorem createInstanceSecurityGroup_facts (env : Env) (c : Bool) :
    StepFacts env ⟨.InstanceSecurityGroup, c, createInstanceSecurityGroup env⟩ := by
  cases hd : env.Create .InstanceSecurityGroup 0 <;> cases ha : env.AddInboundToSecurityGroup <;>
    constructor <;>
    simp [createInstanceSecurityGroup, check, fail_eq, hd, ha, skeleton, Event.owner]

theorem createAutoScalingGroup_facts (env : Env) (g : Option Resource) (c : Bool) :
    StepFacts env ⟨.ScalingGroup, c, createAutoScalingGroup env g⟩ := by
  cases hd : env.Create .ScalingGroup 0 <;> cases hw : env.waitAutoScalingGroupDeletion <;>
    cases g with
    | none =>
      constructor <;>
      simp [createAutoScalingGroup, waitDeletion, check, fail_eq, hd, hw, skeleton, Event.owner]
    | some r =>
      cases hb : utils.IsBlank r.Status <;> constructor <;>
      simp [createAutoScalingGroup, waitDeletion, check, fail_eq, hd, hw, hb, skeleton,
        Event.owner]

end clustercreate

namespace clustercreate

theorem mem_range_map_create {k : ResourceKind} {m i : Nat} :
    Event.Create k i ∈ (List.range' 0 m).map (Event.Create k) ↔ i < m := by
  simp [List.mem_range'_1]

theorem keyPair_eq (env : Env) :
    keyPair env = match env.RetrieveKeyPair with
      | .ok true => ⟨[.RetrieveKeyPair], .ok ()⟩
      | _ => ⟨[.RetrieveKeyPair, .Errorln (.action .LaunchTemplate)],
          .error ⟨.action .LaunchTemplate, none⟩⟩ := by
  unfold keyPair
  rcases h : env.RetrieveKeyPair with e | (_ | _) <;> rfl

theorem createLaunchConfiguration_eq (env : Env) (flags : Flags) :
    (createLaunchConfiguration env flags =
        ⟨[.Printf (.creating .LaunchTemplate), .RetrieveKeyPair,
          .Errorln (.action .LaunchTemplate)], .error ⟨.action .LaunchTemplate, none⟩⟩) ∨
    (createLaunchConfiguration env flags =
        ⟨[.Printf (.creating .LaunchTemplate), .RetrieveKeyPair] ++
          ((if blank flags.InstanceType then [.AskQuestion] else []) ++
          [.Errorln (.action .LaunchTemplate)]), .error ⟨.action .LaunchTemplate, none⟩⟩) ∨
    ∃ m r, 0 < m ∧ m ≤ 10 ∧ r = env.Create .LaunchTemplate (m - 1) ∧
      (∀ j, j + 1 < m → env.Create .LaunchTemplate j ≠ none) ∧ (r ≠ none → m = 10) ∧
      createLaunchConfiguration env flags =
        ⟨[.Printf (.creating .LaunchTemplate), .RetrieveKeyPair] ++
          ((if blank flags.InstanceType then [.AskQuestion] else []) ++
          ((List.range' 0 m).map (Event.Create .LaunchTemplate) ++
            (check (.action .LaunchTemplate) r).trace)),
          (check (.action .LaunchTemplate) r).res⟩ := by
  obtain ⟨m, r, hm, hpos, ht, hr, hre, hall, hex⟩ := retryLoop_spec env 10 0 none
  have hm0 : 0 < m := hpos (by omega)
  have hne : m ≠ 0 := by omega
  simp only [hne, if_false, Nat.zero_add] at hre
  unfold createLaunchConfiguration
  rw [keyPair_eq]
  rcases hk : env.RetrieveKeyPair with e | (_ | _)
  · left
    rfl
  · left
    rfl
  · right
    cases hi : (env.getClusterImageID == "")
    · right
      refine ⟨m, r, hm0, hm, hre, ?_, hex, ?_⟩
      · intro j hj
        simpa using hall j hj
      · cases hb : blank flags.InstanceType <;>
          simp [imageID, hi, hb, Prog.bind_of_ok _ hr, ht]
    · left
      cases hb : blank flags.InstanceType <;> simp [imageID, hi, hb, fail_eq]

theorem createLaunchConfiguration_facts (env : Env) (flags : Flags) (c : Bool) :
    StepFacts env ⟨.LaunchTemplate, c, createLaunchConfiguration env flags⟩ := by
  have hsub10 : ∀ m, m ≤ 10 → List.Sublist (List.range' 0 m) (List.range' 0 10) :=
    fun m hm => List.range'_sublist_right.2 hm
  rcases createLaunchConfiguration_eq env flags with h | h | ⟨m, r, hm0, hm, hr, hall, hex, h⟩
  · constructor <;> simp [h, skeleton, Event.owner]
  · cases hb : blank flags.InstanceType <;> constructor <;>
      simp [h, hb, skeleton, Event.owner]
  · have hmem : ∀ i, Event.Create .LaunchTemplate i ∈ (createLaunchConfiguration env flags).trace ↔
        i < m := by
      intro i
      cases r <;> cases hb : blank flags.InstanceType <;>
        simp [h, hb, check, fail_eq, List.mem_range'_1]
    have hsubm := (hsub10 m hm).map (Event.Create .LaunchTemplate)
    constructor
    · cases r <;> cases hb : blank flags.InstanceType <;>
        simp [h, hb, check, fail_eq, Event.owner] <;>
        (first | rfl | (rintro a (⟨i, -, rfl⟩ | rfl) <;> rfl))
    · cases r <;> cases hb : blank flags.InstanceType <;>
        simp [h, hb, check, fail_eq, eq_comm]
    · intro _
      exact (hmem 0).2 hm0
    · cases r <;> cases hb : blank flags.InstanceType <;>
        simp [h, hb, check, fail_eq, skeleton] <;>
        first
          | exact hsubm.trans (List.sublist_append_left _ _)
          | exact List.Sublist.append hsubm (List.Sublist.refl _)
          | exact (hsubm.trans (List.sublist_append_left _ _)).trans (List.sublist_cons_self _ _)
          | exact (List.Sublist.append hsubm (List.Sublist.refl _)).trans
              (List.sublist_cons_self _ _)
    · simp
    · simp
    · intro i hi hne hlt _
      rw [hmem] at hi ⊢
      by_contra hnot
      have him : i = m - 1 := by omega
      subst him
      have := hex (hr ▸ hne)
      omega

end clustercreate

namespace clustercreate

theorem execute_eq_create (env : Env) (flags : Flags) (st : Identified) :
    execute env flags st = runSteps (steps env flags st) := rfl

theorem steps_facts_create (env : Env) (flags : Flags) (st : Identified) :
    ∀ s ∈ steps env flags st, StepFacts env s := by
  intro s hs
  simp only [steps, List.mem_cons, List.mem_singleton, List.not_mem_nil, or_false] at hs
  rcases hs with rfl | rfl | rfl | rfl | rfl | rfl
  · exact createOnce_facts env _ _ (by decide) (by decide) (by decide)
  · exact createInstanceSecurityGroup_facts env _
  · exact createLaunchConfiguration_facts env flags _
  · exact createAutoScalingGroup_facts env _ _
  · exact createOnce_facts env _ _ (by decide) (by decide) (by decide)
  · exact createOnce_facts env _ _ (by decide) (by decide) (by decide)

theorem steps_kinds_create (env : Env) (flags : Flags) (st : Identified) :
    (steps env flags st).map (fun s => s.kind) = order := rfl

theorem steps_plan_create (env : Env) (flags : Flags) (st : Identified) :
    ((steps env flags st).filter fun s => s.selected).map (fun s => s.kind) =
      plan order st.sel := by
  rcases st with ⟨⟨a, b, c, d, e, f⟩, g⟩
  cases a <;> cases b <;> cases c <;> cases d <;> cases e <;> cases f <;> rfl

theorem steps_selected_create (env : Env) (flags : Flags) (st : Identified) :
    ∀ s ∈ steps env flags st, s.selected = st.sel.has s.kind := by
  intro s hs
  simp only [steps, List.mem_cons, List.mem_singleton, List.not_mem_nil, or_false] at hs
  rcases hs with rfl | rfl | rfl | rfl | rfl | rfl <;> rfl

theorem Run_eq (env : Env) (flags : Flags) :
    Run env flags = inspect env flags >>= fun st =>
      nothingToDo st.sel >>= fun _ => confirmation env flags >>= fun _ => execute env flags st := by
  unfold Run inspect
  rw [Prog.bind_assoc]

theorem inspect_stopsAt (env : Env) (flags : Flags) :
    (inspect env flags).StopsAt (readExit env) :=
  Prog.stopsAt_bind (getAWSNetwork_stopsAt env) fun _ => identify_stopsAt_create env flags

theorem inspect_strict (env : Env) (flags : Flags) :
    (inspect env flags).Strict (failedRead env) :=
  Prog.strict_bind (getAWSNetwork_strict env) fun _ => identify_strict_create env flags

theorem inspect_sub (env : Env) (flags : Flags) :
    List.Sublist (inspect env flags).trace ([.getAWSNetwork, .Errorln .network] ++ reads) := by
  refine Prog.sub_bind ?_ fun _ => identify_sub_create env flags
  rw [getAWSNetwork_eq]
  cases env.getAWSNetwork <;> simp

theorem inspect_ok {env : Env} {flags : Flags} {st : Identified}
    (h : (inspect env flags).res = .ok st) :
    env.getAWSNetwork = none ∧ (identify env flags).res = .ok st := by
  obtain ⟨a, ha, h, -⟩ := Prog.bind_ok_inv h
  refine ⟨?_, h⟩
  rw [getAWSNetwork_eq] at ha
  cases hn : env.getAWSNetwork with
  | none => rfl
  | some e => simp [hn] at ha

/-- The four ways through `Run`: the network or a read fails; nothing to
create; the user declines; the create steps run. -/
theorem Run_cases_create (env : Env) (flags : Flags) :
    (∃ x, (inspect env flags).res = .error x ∧
      Run env flags = ⟨(inspect env flags).trace, .error x⟩) ∨
    (∃ st, (inspect env flags).res = .ok st ∧ st.sel.isEmpty = true ∧
      Run env flags = ⟨(inspect env flags).trace, .error ⟨.nothingToDo, none⟩⟩) ∨
    (∃ st, (inspect env flags).res = .ok st ∧ st.sel.isEmpty = false ∧
      flags.ForceCreate = false ∧ env.AskConfirm = false ∧
      Run env flags =
        ⟨(inspect env flags).trace ++ [.AskConfirm], .error ⟨.declined, none⟩⟩) ∨
    (∃ st, (inspect env flags).res = .ok st ∧ st.sel.isEmpty = false ∧
      (flags.ForceCreate = true ∨ env.AskConfirm = true) ∧
      Run env flags = ⟨(inspect env flags).trace ++
        ((if flags.ForceCreate then [] else [.AskConfirm]) ++
          (runSteps (steps env flags st)).trace), (runSteps (steps env flags st)).res⟩) := by
  rw [Run_eq]
  cases hi : (inspect env flags).res with
  | error x =>
    left
    exact ⟨x, rfl, Prog.bind_of_error _ hi⟩
  | ok st =>
    right
    rw [Prog.bind_of_ok _ hi]
    cases he : st.sel.isEmpty with
    | true =>
      left
      refine ⟨st, rfl, he, ?_⟩
      simp [nothingToDo, he]
    | false =>
      right
      cases hf : flags.ForceCreate with
      | true =>
        right
        refine ⟨st, rfl, he, Or.inl rfl, ?_⟩
        simp [nothingToDo, he, confirmation, hf, execute_eq_create]
      | false =>
        cases hc : env.AskConfirm with
        | true =>
          right
          refine ⟨st, rfl, he, Or.inr rfl, ?_⟩
          simp [nothingToDo, he, confirmation, hf, hc, execute_eq_create]
        | false =>
          left
          refine ⟨st, rfl, he, rfl, rfl, ?_⟩
          simp [nothingToDo, he, confirmation, hf, hc]

end clustercreate

namespace clustercreate

theorem runSkeleton_sorted_create :
    runSkeleton.Pairwise fun x y => rank order x ≤ rank order y := by decide

theorem Run_sub_create (env : Env) (flags : Flags) :
    List.Sublist (Run env flags).trace runSkeleton := by
  rw [Run_eq]
  refine Prog.sub_bind (inspect_sub env flags) fun st => ?_
  have hgate : List.Sublist
      (nothingToDo st.sel >>= fun _ => confirmation env flags >>= fun _ =>
        execute env flags st).trace ([] ++ ([.AskConfirm] ++
          (order.map skeleton).flatten)) := by
    refine Prog.sub_bind ?_ fun _ => Prog.sub_bind ?_ fun _ => ?_
    · unfold nothingToDo
      split <;> simp
    · unfold confirmation
      cases flags.ForceCreate <;> cases env.AskConfirm <;> simp
    · rw [execute_eq_create, ← steps_kinds_create env flags st, List.map_map]
      exact runSteps_sub skeleton fun s hs => (steps_facts_create env flags st s hs).sub
  simpa using hgate

/-- The calls of a run of cluster-create come in the order of the source. -/
theorem Run_sorted_create (env : Env) (flags : Flags) :
    (Run env flags).trace.Pairwise fun x y => rank order x ≤ rank order y :=
  List.Pairwise.sublist (Run_sub_create env flags) runSkeleton_sorted_create

end clustercreate


namespace clustercreate

theorem reads_owner_create :
    ∀ e ∈ ([Event.getAWSNetwork, .Errorln .network] ++ reads) ++ [Event.AskConfirm],
      e.owner = none := by decide

theorem inspect_owner (env : Env) (flags : Flags) :
    ∀ e ∈ (inspect env flags).trace, e.owner = none :=
  fun e he => reads_owner_create e (List.mem_append_left _ ((inspect_sub env flags).subset he))

/-- A call of a create step is issued only by a run that selected the kind
of the step and went past the confirmation. -/
theorem Run_owned_create {env : Env} {flags : Flags} {e : Event} {K : ResourceKind}
    (he : e ∈ (Run env flags).trace) (ho : e.owner = some K) :
    ∃ st, (inspect env flags).res = .ok st ∧ st.sel.has K = true ∧
      (runSteps (steps env flags st)).res = (Run env flags).res ∧
      (∀ e', e' ∈ (runSteps (steps env flags st)).trace → e' ∈ (Run env flags).trace) ∧
      ∃ s ∈ steps env flags st, s.kind = K ∧ s.selected = true ∧ e ∈ s.body.trace ∧
        (∀ e' ∈ s.body.trace, e' ∈ (Run env flags).trace) ∧
        ∀ x, s.body.res = .error x → (Run env flags).res = .error x := by
  have hno : ∀ e' ∈ (inspect env flags).trace ++ [Event.AskConfirm], e'.owner = none := by
    intro e' he'
    rcases List.mem_append.1 he' with h | h
    · exact inspect_owner env flags e' h
    · simp only [List.mem_singleton] at h
      subst h
      rfl
  rcases Run_cases_create env flags with ⟨x, _, h⟩ | ⟨st, _, _, h⟩ | ⟨st, _, _, _, _, h⟩ |
      ⟨st, hi, _, _, h⟩
  · rw [h] at he
    have := inspect_owner env flags e he
    rw [ho] at this
    cases this
  · rw [h] at he
    have := inspect_owner env flags e he
    rw [ho] at this
    cases this
  · rw [h] at he
    have := hno e he
    rw [ho] at this
    cases this
  · rw [h] at he ⊢
    have he' : e ∈ (runSteps (steps env flags st)).trace := by
      simp only [List.mem_append] at he
      rcases he with he | he | he
      · have := inspect_owner env flags e he
        rw [ho] at this
        cases this
      · have : e = .AskConfirm := by
          split at he
          · simp at he
          · simpa using he
        subst this
        cases ho
      · exact he
    obtain ⟨s, hs, hsel, hes, hall, hexit⟩ := runSteps_reached he'
    have hk : s.kind = K := by
      have := (steps_facts_create env flags st s hs).own e hes
      rw [ho] at this
      exact (Option.some.inj this).symm
    refine ⟨st, hi, ?_, rfl, ?_, s, hs, hk, hsel, hes, ?_, hexit⟩
    · rw [← hk, ← steps_selected_create env flags st s hs]
      exact hsel
    · intro e' h'
      exact List.mem_append_right _ (List.mem_append_right _ h')
    · intro e' h'
      exact List.mem_append_right _ (List.mem_append_right _ (hall e' h'))

end clustercreate

namespace clustercreate

/-- Which kinds cluster-create selects, by lifecycle. -/
theorem selected_iff (env : Env) (flags : Flags)
    (st : Identified) (k : ResourceKind) (r : Option Resource)
    (h : (inspect env flags).res = .ok st) (hr : env.Retrieve k = .ok r) :
    (st.sel.has k = true ↔
      (lifecycle k r = .Absent ∧
          (k = .InstanceProfile → utils.IsBlank flags.InstanceProfile = true)) ∨
        (k = .ScalingGroup ∧ lifecycle k r = .Terminating)) ∧
    ((lifecycle k r).usable = true → st.sel.has k = false) := by
  obtain ⟨-, hi⟩ := inspect_ok h
  obtain ⟨⟨c, hc, hsc⟩, ⟨r1, hr1, hs1⟩, ⟨r2, hr2, hs2⟩, ⟨hr3, hs3⟩, hip, ⟨r5, hr5, hs5⟩⟩ :=
    identify_ok_create hi
  cases k with
  | ComputeCluster =>
    have hvr : c = r := by
      rw [hc] at hr
      exact Except.ok.inj hr
    subst hvr
    cases c with
    | none => simp [Selection.has, hsc, lifecycle, Lifecycle.usable]
    | some c =>
      cases hst : (c.Status == "INACTIVE") <;>
        simp [Selection.has, hsc, lifecycle, Lifecycle.usable, hst]
  | ServiceRole =>
    have hvr : r1 = r := by
      rw [hr1] at hr
      exact Except.ok.inj hr
    subst hvr
    cases r1 <;> simp [Selection.has, hs1, lifecycle, Lifecycle.usable]
  | LaunchTemplate =>
    have hvr : r2 = r := by
      rw [hr2] at hr
      exact Except.ok.inj hr
    subst hvr
    cases r2 <;> simp [Selection.has, hs2, lifecycle, Lifecycle.usable]
  | ScalingGroup =>
    have hvr : st.autoScalingGroup = r := by
      rw [hr3] at hr
      exact Except.ok.inj hr
    subst hvr
    cases hg : st.autoScalingGroup with
    | none => simp [Selection.has, hs3, hg, lifecycle, Lifecycle.usable]
    | some g =>
      cases hb : utils.IsBlank g.Status <;>
        simp [Selection.has, hs3, hg, lifecycle, Lifecycle.usable, hb]
  | InstanceProfile =>
    rcases hip with ⟨hb, hs⟩ | ⟨hb, r4, hr4, hs⟩
    · cases r <;> simp [Selection.has, hs, hb, lifecycle, Lifecycle.usable]
    · have hvr : r4 = r := by
        rw [hr4] at hr
        exact Except.ok.inj hr
      subst hvr
      cases r4 <;> simp [Selection.has, hs, hb, lifecycle, Lifecycle.usable]
  | InstanceSecurityGroup =>
    have hvr : r5 = r := by
      rw [hr5] at hr
      exact Except.ok.inj hr
    subst hvr
    cases r5 <;> simp [Selection.has, hs5, lifecycle, Lifecycle.usable]


end clustercreate

namespace clustercreate

theorem reads_quiet_create :
    ∀ e ∈ [Event.getAWSNetwork, .Errorln .network] ++ reads,
      e.isWrite = false ∧ e ≠ .AskConfirm := by decide

theorem inspect_quiet (env : Env) (flags : Flags) :
    ∀ e ∈ (inspect env flags).trace, e.isWrite = false ∧ e ≠ .AskConfirm :=
  fun e he => reads_quiet_create e ((inspect_sub env flags).subset he)

/-- When the network and every read answer, the reads go through. -/
theorem inspect_total {env : Env} (flags : Flags) (hn : env.getAWSNetwork = none)
    (hr : ∀ k, ∃ r, env.Retrieve k = .ok r) : ∃ st, (inspect env flags).res = .ok st := by
  cases h : (inspect env flags).res with
  | ok st => exact ⟨st, rfl⟩
  | error x =>
    obtain ⟨e, -, hq⟩ := inspect_stopsAt env flags x h
    rcases hq with ⟨k, err, -, -, hk⟩ | ⟨err, -, -, hk⟩
    · obtain ⟨r, hr'⟩ := hr k
      rw [hr'] at hk
      cases hk
    · rw [hn] at hk
      cases hk

end clustercreate


namespace clustercreate

theorem runSkeleton_confirm_create : runSkeleton.count .AskConfirm = 1 := by decide

end clustercreate


namespace clustercreate

theorem order_nodup_create : order.Nodup := by decide

/-- Fail-fast in cluster-create: when `Run` returns from the step of kind `K`,
the selected kinds before `K` have had their create call and no call is issued
for the selected kinds after `K`. -/
theorem failfast_create {env : Env} {flags : Flags} {st : Identified} {K : ResourceKind}
    {pre post : List ResourceKind} {r : Option Err}
    (hst : (inspect env flags).res = .ok st) (hplan : plan order st.sel = pre ++ K :: post)
    (hres : (Run env flags).res = .error ⟨.action K, r⟩) :
    (∀ J ∈ pre, Event.Create J 0 ∈ (Run env flags).trace) ∧
      ∀ J ∈ post, ∀ e ∈ (Run env flags).trace, e.owner ≠ some J := by
  rcases Run_cases_create env flags with ⟨x, hx, _⟩ | ⟨st', _, _, h⟩ | ⟨st', _, _, _, _, h⟩ |
      ⟨st', hi, _, _, h⟩
  · rw [hst] at hx
    cases hx
  · rw [h] at hres
    cases hres
  · rw [h] at hres
    cases hres
  · rw [hst] at hi
    cases hi
    rw [h] at hres ⊢
    have hf := steps_facts_create env flags st
    obtain ⟨h1, h2⟩ := runSteps_failfast (fun k => Event.Create k 0)
      (fun s hs => (hf s hs).own)
      (fun s hs x hx => by rw [((hf s hs).site x hx).1])
      (fun s hs => (hf s hs).first)
      (by rw [steps_kinds_create]; exact order_nodup_create)
      hres rfl (by rw [steps_plan_create]; exact hplan)
    constructor
    · intro J hJ
      exact List.mem_append_right _ (List.mem_append_right _ (h1 J hJ))
    · intro J hJ e he ho
      simp only [List.mem_append] at he
      rcases he with he | he | he
      · have := inspect_owner env flags e he
        rw [ho] at this
        cases this
      · have : e = .AskConfirm := by
          split at he
          · simp at he
          · simpa using he
        subst this
        cases ho
      · exact h2 J hJ e he ho

end clustercreate


namespace clustercreate

/-- A read that fails ends the run of cluster-create where the reads end. -/
theorem Run_failedRead_create {env : Env} {flags : Flags} {e : Event} {s : Site}
    (he : e ∈ (Run env flags).trace) (hbad : failedRead env e s) :
    ∃ r, (inspect env flags).res = .error ⟨s, r⟩ ∧
      Run env flags = ⟨(inspect env flags).trace, .error ⟨s, r⟩⟩ ∧
      e ∈ (inspect env flags).trace := by
  obtain ⟨hown, hne⟩ := failedRead_owner hbad
  have hin : e ∈ (inspect env flags).trace := by
    by_contra hnot
    rcases Run_cases_create env flags with ⟨x, _, h⟩ | ⟨st, _, _, h⟩ | ⟨st, _, _, _, _, h⟩ |
        ⟨st, hi, _, _, h⟩
    · rw [h] at he
      exact hnot he
    · rw [h] at he
      exact hnot he
    · rw [h] at he
      rcases List.mem_append.1 he with he | he
      · exact hnot he
      · exact hne (by simpa using he)
    · rw [h] at he
      simp only [List.mem_append] at he
      rcases he with he | he | he
      · exact hnot he
      · apply hne
        split at he
        · simp at he
        · simpa using he
      · obtain ⟨t, ht, -, het⟩ := runSteps_mem he
        have := (steps_facts_create env flags st t ht).own e het
        rw [hown] at this
        cases this
  obtain ⟨r, hr⟩ := inspect_strict env flags e s hin hbad
  refine ⟨r, hr, ?_, hin⟩
  rw [Run_eq, Prog.bind_of_error _ hr]

end clustercreate


namespace clustercreate

theorem inspect_count {env : Env} {e : Event} {s : Site} (flags : Flags)
    (hbad : failedRead env e s) : (inspect env flags).trace.count e ≤ 1 := by
  refine le_trans ((inspect_sub env flags).count_le e) ?_
  rcases hbad with ⟨k, err, rfl, -, -⟩ | ⟨k, err, rfl, -, -⟩ | ⟨err, rfl, -, -⟩
  · cases k <;> decide
  · cases k <;> decide
  · decide

/-- The read that made the run return is its last call. -/
theorem inspect_last {env : Env} {flags : Flags} {e : Event} {s : Site} {r : Option Err}
    (hbad : failedRead env e s) (hr : (inspect env flags).res = .error ⟨s, r⟩) :
    ((inspect env flags).trace.filter Event.isCall).getLast? = some e := by
  obtain ⟨e', he', hq⟩ := inspect_stopsAt env flags _ hr
  rw [he']
  rcases hq with ⟨k, err, rfl, hx, -⟩ | ⟨err, rfl, hx, -⟩ <;>
    rcases hbad with ⟨k', err', rfl, rfl, -⟩ | ⟨k', err', rfl, rfl, -⟩ | ⟨err', rfl, rfl, -⟩ <;>
    simp_all

end clustercreate


namespace clustercreate

theorem steps_unique_create (env : Env) (flags : Flags) (st : Identified) {s t : Step}
    (hs : s ∈ steps env flags st) (ht : t ∈ steps env flags st) (h : s.kind = t.kind) :
    s = t :=
  List.inj_on_of_nodup_map (f := fun s => s.kind)
    (by rw [steps_kinds_create]; exact order_nodup_create) hs ht h

/-- The create calls of cluster-create: a kind other than the launch
configuration has one call, and fails at once when that call fails; the launch
configuration is called again after any failed call but the tenth. -/
theorem create_calls (env : Env) (flags : Flags) (k : ResourceKind) (i : Nat) :
    (k ≠ .LaunchTemplate →
      Event.Create k (i + 1) ∉ (Run env flags).trace ∧
      (Event.Create k 0 ∈ (Run env flags).trace → env.Create k 0 ≠ none →
        (Run env flags).res = .error ⟨.action k, none⟩)) ∧
    (Event.Create .LaunchTemplate i ∈ (Run env flags).trace →
      env.Create .LaunchTemplate i ≠ none → i + 1 < 10 →
      Event.Create .LaunchTemplate (i + 1) ∈ (Run env flags).trace) := by
  constructor
  · intro hk
    constructor
    · intro hin
      obtain ⟨st, -, -, -, -, s, hs, hks, -, hes, -⟩ := Run_owned_create hin rfl
      subst hks
      exact (steps_facts_create env flags st s hs).once hk i hes
    · intro hin hne
      obtain ⟨st, -, -, -, -, s, hs, hks, -, hes, -, hexit⟩ := Run_owned_create hin rfl
      subst hks
      exact hexit _ ((steps_facts_create env flags st s hs).abrupt hk hes hne)
  · intro hin hne hlt
    obtain ⟨st, -, -, -, -, s, hs, hks, -, hes, hall, -⟩ := Run_owned_create hin rfl
    have := (steps_facts_create env flags st s hs).again i (hks ▸ hes) (hks ▸ hne) hlt hks
    rw [hks] at this
    exact hall _ this

end clustercreate


/-! ## A failed action ends the run -/

namespace clusterdelete

/-- Without `--continue`, a delete step whose action fails returns from its
error branch, with an error. -/
theorem steps_fail_delete (env : Env) (flags : Flags) (sel : Selection)
    (hc : flags.ContinueOnError = false) :
    ∀ s ∈ steps env flags sel, failed env s.body.trace s.kind →
      ∃ err, s.body.res = .error ⟨.action s.kind, some err⟩ := by
  intro s hs hfail
  have hf := steps_facts_delete env flags sel s hs
  cases hres : s.body.res with
  | ok u =>
    obtain ⟨hq1, hq2⟩ := hf.quiet hc hres
    rcases hfail with ⟨-, hin, hne⟩ | ⟨i, hin, hne, hnext⟩
    · exact absurd (hq1 hin) hne
    · exact absurd (hq2 i hin hne) hnext
  | error x =>
    obtain ⟨-, hsite, e, hret⟩ := hf.site x hres
    refine ⟨e, ?_⟩
    rcases x with ⟨site, ret⟩
    simp only at hsite hret
    rw [hsite, hret]

/-- Without `--continue`, a run in which the action of kind `K` fails returns
from the step of `K`, with an error. -/
theorem Run_fail_delete {env : Env} {flags : Flags} {K : ResourceKind}
    (hc : flags.ContinueOnError = false) (h : failed env (Run env flags).trace K) :
    ∃ err, (Run env flags).res = .error ⟨.action K, some err⟩ := by
  have key : ∀ e, e ∈ (Run env flags).trace → e.owner = some K →
      (∀ s sel, s ∈ steps env flags sel → s.kind = K →
        (∀ e' ∈ s.body.trace, e' ∈ (Run env flags).trace) → e ∈ s.body.trace →
        failed env s.body.trace s.kind) →
      ∃ err, (Run env flags).res = .error ⟨.action K, some err⟩ := by
    intro e he ho hstep
    obtain ⟨sel, -, -, -, -, s, hs, hks, -, hes, hall, hexit⟩ := Run_owned_delete he ho
    obtain ⟨err, herr⟩ := steps_fail_delete env flags sel hc s hs (hstep s sel hs hks hall hes)
    rw [hks] at herr
    exact ⟨err, hexit _ herr⟩
  rcases h with ⟨hK, hin, hne⟩ | ⟨i, hin, hne, hnext⟩
  · subst hK
    exact key _ hin rfl fun s sel hs hks hall hes => Or.inl ⟨hks, hes, hne⟩
  · exact key _ hin rfl fun s sel hs hks hall hes =>
      Or.inr ⟨i, hks ▸ hes, hks ▸ hne, fun hn => hnext (hall _ (hks ▸ hn))⟩

end clusterdelete

namespace clustercreate

theorem createOnce_fail (env : Env) (k : ResourceKind)
    (h1 : k ≠ .InstanceSecurityGroup) (h2 : k ≠ .LaunchTemplate) (h3 : k ≠ .ScalingGroup)
    (h : failed env (createOnce env k).trace k) :
    (createOnce env k).res = .error ⟨.action k, none⟩ := by
  cases hd : env.Create k 0 with
  | some e => simp [createOnce, check, fail_eq, hd]
  | none =>
    rcases h with ⟨i, hin, hne, -⟩ | ⟨hk, -⟩ | ⟨hk, -⟩ | ⟨hk, -⟩
    · simp [createOnce, check, hd] at hin
      subst hin
      exact absurd hd hne
    · exact absurd hk h1
    · exact absurd hk h3
    · exact absurd hk h2

theorem createInstanceSecurityGroup_fail (env : Env)
    (h : failed env (createInstanceSecurityGroup env).trace .InstanceSecurityGroup) :
    (createInstanceSecurityGroup env).res = .error ⟨.action .InstanceSecurityGroup, none⟩ := by
  cases hd : env.Create .InstanceSecurityGroup 0 with
  | some e => simp [createInstanceSecurityGroup, check, fail_eq, hd]
  | none =>
    cases ha : env.AddInboundToSecurityGroup with
    | some e => simp [createInstanceSecurityGroup, check, fail_eq, hd, ha]
    | none =>
      rcases h with ⟨i, hin, hne, -⟩ | ⟨-, -, hne⟩ | ⟨hk, -⟩ | ⟨hk, -⟩
      · simp [createInstanceSecurityGroup, check, hd, ha] at hin
        subst hin
        exact absurd hd hne
      · exact absurd ha hne
      · cases hk
      · cases hk

/-- The auto scaling group step: the wait is issued exactly for a group found
with a status that is not blank; a failed wait ends the step before the create
call, and a wait that went through is followed by it. -/
theorem createAutoScalingGroup_wait (env : Env) (g : Option Resource) :
    (Event.waitAutoScalingGroupDeletion ∈ (createAutoScalingGroup env g).trace ↔
      lifecycle .ScalingGroup g = .Terminating) ∧
    (Event.waitAutoScalingGroupDeletion ∈ (createAutoScalingGroup env g).trace →
      env.waitAutoScalingGroupDeletion ≠ none →
      (∀ i, Event.Create .ScalingGroup i ∉ (createAutoScalingGroup env g).trace) ∧
      Event.Errorln (.action .ScalingGroup) ∈ (createAutoScalingGroup env g).trace ∧
      (createAutoScalingGroup env g).res = .error ⟨.action .ScalingGroup, none⟩) ∧
    (Event.waitAutoScalingGroupDeletion ∈ (createAutoScalingGroup env g).trace →
      env.waitAutoScalingGroupDeletion = none →
      Event.Create .ScalingGroup 0 ∈ (createAutoScalingGroup env g).trace) := by
  cases hd : env.Create .ScalingGroup 0 <;> cases hw : env.waitAutoScalingGroupDeletion <;>
    cases g with
    | none =>
      simp [createAutoScalingGroup, waitDeletion, check, fail_eq, hd, hw, lifecycle]
    | some r =>
      cases hb : utils.IsBlank r.Status <;>
      simp [createAutoScalingGroup, waitDeletion, check, fail_eq, hd, hw, hb, lifecycle]

theorem createAutoScalingGroup_fail (env : Env) (g : Option Resource)
    (h : failed env (createAutoScalingGroup env g).trace .ScalingGroup) :
    (createAutoScalingGroup env g).res = .error ⟨.action .ScalingGroup, none⟩ := by
  rcases h with ⟨i, hin, hne, -⟩ | ⟨hk, -⟩ | ⟨-, hin, hne⟩ | ⟨hk, -⟩
  · cases hd : env.Create .ScalingGroup 0 <;> cases hw : env.waitAutoScalingGroupDeletion <;>
      cases g with
      | none =>
        simp [createAutoScalingGroup, waitDeletion, check, fail_eq, hd, hw] at hin ⊢ <;>
        (subst hin; exact absurd hd hne)
      | some r =>
        cases hb : utils.IsBlank r.Status <;>
        simp [createAutoScalingGroup, waitDeletion, check, fail_eq, hd, hw, hb] at hin ⊢ <;>
        (subst hin; exact absurd hd hne)
  · cases hk
  · obtain ⟨-, hfail, -⟩ := createAutoScalingGroup_wait env g
    exact (hfail hin hne).2.2
  · cases hk

theorem createLaunchConfiguration_fail (env : Env) (flags : Flags)
    (h : failed env (createLaunchConfiguration env flags).trace .LaunchTemplate) :
    (createLaunchConfiguration env flags).res = .error ⟨.action .LaunchTemplate, none⟩ := by
  obtain ⟨m, r, hm, hpos, ht, hr, hre, hall, hex⟩ := retryLoop_spec env 10 0 none
  have hm0 : 0 < m := hpos (by omega)
  have hne : m ≠ 0 := by omega
  simp only [hne, if_false, Nat.zero_add] at hre
  unfold createLaunchConfiguration at h ⊢
  rw [keyPair_eq] at h ⊢
  rcases hk : env.RetrieveKeyPair with e | (_ | _)
  · rfl
  · rfl
  · cases hi : (env.getClusterImageID == "")
    · have hid : env.getClusterImageID ≠ "" := by simpa using hi
      cases hrr : r with
      | some e =>
        cases hb : blank flags.InstanceType <;>
          simp [hk, imageID, hi, hb, Prog.bind_of_ok _ hr, ht, hrr, check, fail_eq]
      | none =>
        exfalso
        rcases h with ⟨i, hin, hne', hnext⟩ | ⟨hk', -⟩ | ⟨hk', -⟩ | ⟨-, -, hkp | himg⟩
        · have hin' : i < m := by
            cases hb : blank flags.InstanceType <;>
              simp [hk, imageID, hi, hb, Prog.bind_of_ok _ hr, ht, hrr, check,
                List.mem_range'_1] at hin <;> exact hin
          have hnext' : ¬ i + 1 < m := by
            intro hlt
            apply hnext
            cases hb : blank flags.InstanceType <;>
              simp [hk, imageID, hi, hb, Prog.bind_of_ok _ hr, ht, hrr, check,
                List.mem_range'_1] <;> exact hlt
          have him : i = m - 1 := by omega
          subst him
          rw [← hre, hrr] at hne'
          exact hne' rfl
        · cases hk'
        · cases hk'
        · exact hkp hk
        · exact hid himg
    · cases hb : blank flags.InstanceType <;> simp [hk, imageID, hi, hb, fail_eq]

/-- A create step whose action fails returns from its error branch. -/
theorem steps_fail_create (env : Env) (flags : Flags) (st : Identified) :
    ∀ s ∈ steps env flags st, failed env s.body.trace s.kind →
      s.body.res = .error ⟨.action s.kind, none⟩ := by
  intro s hs
  simp only [steps, List.mem_cons, List.mem_singleton, List.not_mem_nil, or_false] at hs
  rcases hs with rfl | rfl | rfl | rfl | rfl | rfl
  · exact createOnce_fail env _ (by decide) (by decide) (by decide)
  · exact createInstanceSecurityGroup_fail env
  · exact createLaunchConfiguration_fail env flags
  · exact createAutoScalingGroup_fail env _
  · exact createOnce_fail env _ (by decide) (by decide) (by decide)
  · exact createOnce_fail env _ (by decide) (by decide) (by decide)

/-- A run in which the action of kind `K` fails returns from the step of
`K`. -/
theorem Run_fail_create {env : Env} {flags : Flags} {K : ResourceKind}
    (h : failed env (Run env flags).trace K) :
    (Run env flags).res = .error ⟨.action K, none⟩ := by
  have key : ∀ e, e ∈ (Run env flags).trace → e.owner = some K →
      (∀ s st, s ∈ steps env flags st → s.kind = K →
        (∀ e' ∈ s.body.trace, e' ∈ (Run env flags).trace) → e ∈ s.body.trace →
        failed env s.body.trace s.kind) →
      (Run env flags).res = .error ⟨.action K, none⟩ := by
    intro e he ho hstep
    obtain ⟨st, -, -, -, -, s, hs, hks, -, hes, hall, hexit⟩ := Run_owned_create he ho
    have herr := steps_fail_create env flags st s hs (hstep s st hs hks hall hes)
    rw [hks] at herr
    exact hexit _ herr
  rcases h with ⟨i, hin, hne, hnext⟩ | ⟨hK, hin, hne⟩ | ⟨hK, hin, hne⟩ | ⟨hK, hin, hne⟩
  · exact key _ hin rfl fun s st hs hks hall hes =>
      Or.inl ⟨i, hks ▸ hes, hks ▸ hne, fun hn => hnext (hall _ (hks ▸ hn))⟩
  · subst hK
    exact key _ hin rfl fun s st hs hks hall hes => Or.inr (Or.inl ⟨hks, hes, hne⟩)
  · subst hK
    exact key _ hin rfl fun s st hs hks hall hes => Or.inr (Or.inr (Or.inl ⟨hks, hes, hne⟩))
  · subst hK
    exact key _ hin rfl fun s st hs hks hall hes =>
      Or.inr (Or.inr (Or.inr ⟨hks, hes, hne⟩))

end clustercreate

/-- A kind before `K` in a plan is not `K`. -/
theorem plan_before_ne {order : List ResourceKind} {sel : Selection} (hnd : order.Nodup)
    {pre post : List ResourceKind} {K J : ResourceKind}
    (hplan : plan order sel = pre ++ K :: post) (hJ : J ∈ pre) : J ≠ K := by
  have h : (pre ++ K :: post).Nodup := by
    rw [← hplan]
    exact hnd.sublist (List.filter_sublist _)
  rintro rfl
  exact (List.nodup_append.1 h).2.2 hJ (List.mem_cons_self _ _)

/-! ## The claims -/

/-- C1, as stated, fails for the service role: a role that is found is selected
and deleted although it carries no provenance tag. -/
theorem provenance_guard_counterexample :
    untaggedRole.Retrieve .ServiceRole = .ok (some ⟨""⟩) ∧
    untaggedRole.RetrieveTags .ServiceRole = .ok [] ∧
    hasMarker [] = false ∧
    (clusterdelete.identify untaggedRole).res = .ok ⟨false, true, false, false, false, false⟩ ∧
    Event.Delete .ServiceRole 0 ∈ (clusterdelete.Run untaggedRole ⟨true, false⟩).trace :=
  ⟨rfl, rfl, rfl, rfl, by decide⟩

/-- C1, amended: for the security group and the auto scaling group, a resource
that is present with tags that lack the provenance marker is not selected by
cluster-delete, and no call of its delete step (no scale-down, no delete) is
issued, whatever its status. -/
theorem provenance_guard (env : Env) (flags : clusterdelete.Flags) (K : ResourceKind)
    (r : Resource) (t : Tags) (hK : K = .InstanceSecurityGroup ∨ K = .ScalingGroup)
    (hr : env.Retrieve K = .ok (some r)) (ht : env.RetrieveTags K = .ok t)
    (hm : hasMarker t = false) :
    (∀ sel, (clusterdelete.identify env).res = .ok sel → sel.has K = false) ∧
    (∀ e ∈ (clusterdelete.Run env flags).trace, e.owner ≠ some K) ∧
    ∀ i, Event.Delete K i ∉ (clusterdelete.Run env flags).trace := by
  have hsel : ∀ sel, (clusterdelete.identify env).res = .ok sel → sel.has K = false := by
    intro sel hi
    obtain ⟨-, -, -, ⟨g, hg, hasg⟩, -, ⟨g', hg', hsg⟩⟩ := clusterdelete.identify_ok_delete hi
    rcases hK with rfl | rfl
    · cases hs : sel.InstanceSecurityGroup with
      | false => exact hs
      | true =>
        obtain ⟨r', t', -, ht', hm'⟩ := hsg.1 hs
        rw [ht] at ht'
        cases ht'
        rw [hm] at hm'
        cases hm'
    · cases hs : sel.AutoScalingGroup with
      | false => exact hs
      | true =>
        obtain ⟨r', t', -, -, ht', hm'⟩ := hasg.1 hs
        rw [ht] at ht'
        cases ht'
        rw [hm] at hm'
        cases hm'
  have hown : ∀ e ∈ (clusterdelete.Run env flags).trace, e.owner ≠ some K := by
    intro e he ho
    obtain ⟨sel, hi, hhas, -⟩ := clusterdelete.Run_owned_delete he ho
    rw [hsel sel hi] at hhas
    cases hhas
  exact ⟨hsel, hown, fun i hi => hown _ hi rfl⟩

/-- C1, amended, on an account whose security group carries no tag. -/
theorem provenance_guard_witness :
    (∀ sel, (clusterdelete.identify untaggedAccount).res = .ok sel →
      sel.has .InstanceSecurityGroup = false) ∧
    (∀ e ∈ (clusterdelete.Run untaggedAccount ⟨true, false⟩).trace,
      e.owner ≠ some .InstanceSecurityGroup) ∧
    ∀ i, Event.Delete .InstanceSecurityGroup i ∉
      (clusterdelete.Run untaggedAccount ⟨true, false⟩).trace :=
  provenance_guard untaggedAccount ⟨true, false⟩ .InstanceSecurityGroup ⟨""⟩ []
    (Or.inl rfl) rfl rfl (by decide)

/-- C2, as stated, fails for the instance profile: with `--instance-profile`
the profile is not selected although it is absent. -/
theorem create_membership_counterexample :
    (clustercreate.inspect emptyAccount clustercreate.profileFlags).res =
      .ok ⟨⟨true, true, true, true, false, true⟩, none⟩ ∧
    emptyAccount.Retrieve .InstanceProfile = .ok none ∧
    lifecycle .InstanceProfile none = .Absent ∧
    (⟨true, true, true, true, false, true⟩ : Selection).has .InstanceProfile = false :=
  ⟨rfl, rfl, rfl, rfl⟩

/-- C2, amended: when every read went through, cluster-create selects kind `k`
if and only if `k` is Absent (for the instance profile: and no
`--instance-profile` is given), or `k` is the auto scaling group and
Terminating; a kind that is present and usable is not selected. -/
theorem create_membership (env : Env) (flags : clustercreate.Flags)
    (st : clustercreate.Identified) (k : ResourceKind) (r : Option Resource)
    (h : (clustercreate.inspect env flags).res = .ok st) (hr : env.Retrieve k = .ok r) :
    (st.sel.has k = true ↔
      (lifecycle k r = .Absent ∧
          (k = .InstanceProfile → utils.IsBlank flags.InstanceProfile = true)) ∨
        (k = .ScalingGroup ∧ lifecycle k r = .Terminating)) ∧
    ((lifecycle k r).usable = true → st.sel.has k = false) :=
  clustercreate.selected_iff env flags st k r h hr

/-- C2, amended, on an empty account: the launch configuration is Absent and
selected. -/
theorem create_membership_witness :
    ((⟨true, true, true, true, true, true⟩ : Selection).has .LaunchTemplate = true ↔
      (lifecycle .LaunchTemplate none = .Absent ∧
          (ResourceKind.LaunchTemplate = .InstanceProfile →
            utils.IsBlank clustercreate.plainFlags.InstanceProfile = true)) ∨
        (ResourceKind.LaunchTemplate = .ScalingGroup ∧
          lifecycle .LaunchTemplate none = .Terminating)) ∧
    ((lifecycle .LaunchTemplate none).usable = true →
      (⟨true, true, true, true, true, true⟩ : Selection).has .LaunchTemplate = false) :=
  create_membership emptyAccount clustercreate.plainFlags
    ⟨⟨true, true, true, true, true, true⟩, none⟩ .LaunchTemplate none rfl rfl

/-- C3. Topological correctness: in every run of cluster-create every create
call for the instance profile and for the security group comes strictly before
every create call for the launch configuration, and every create call for the
launch configuration strictly before the create call for the auto scaling
group; in every run of cluster-delete the delete call for the auto scaling
group comes strictly before the delete call for the launch configuration. -/
theorem topological_order (env : Env) (cf : clustercreate.Flags) (df : clusterdelete.Flags)
    (i j : Nat) :
    Before (.Create .InstanceProfile i) (.Create .LaunchTemplate j)
      (clustercreate.Run env cf).trace ∧
    Before (.Create .InstanceSecurityGroup i) (.Create .LaunchTemplate j)
      (clustercreate.Run env cf).trace ∧
    Before (.Create .LaunchTemplate i) (.Create .ScalingGroup j)
      (clustercreate.Run env cf).trace ∧
    Before (.Delete .ScalingGroup i) (.Delete .LaunchTemplate j)
      (clusterdelete.Run env df).trace :=
  ⟨before_of_sorted (clustercreate.Run_sorted_create env cf) (show 0 + 1 < 2 + 1 by omega),
   before_of_sorted (clustercreate.Run_sorted_create env cf) (show 1 + 1 < 2 + 1 by omega),
   before_of_sorted (clustercreate.Run_sorted_create env cf) (show 2 + 1 < 3 + 1 by omega),
   before_of_sorted (clusterdelete.Run_sorted_delete env df) (show 0 + 1 < 1 + 1 by omega)⟩

/-- C3 on an empty account: the instance profile is created at place 9 of the
run and the launch configuration at place 15. -/
theorem topological_order_witness :
    (clustercreate.Run emptyAccount clustercreate.plainFlags).trace[9]? =
      some (.Create .InstanceProfile 0) ∧
    (clustercreate.Run emptyAccount clustercreate.plainFlags).trace[15]? =
      some (.Create .LaunchTemplate 0) ∧
    9 < 15 :=
  ⟨rfl, rfl, (topological_order emptyAccount clustercreate.plainFlags ⟨true, false⟩ 0 0).1
    9 15 rfl rfl⟩

/-- C4. Nothing to do: when the six resources are present and usable,
cluster-create selects no kind (and does compute that selection when the
network answers), asks for no confirmation and issues no provider write;
cluster-delete with nothing selected asks for no confirmation and issues no
provider write. -/
theorem nothing_to_do (env : Env) (cf : clustercreate.Flags) (df : clusterdelete.Flags) :
    ((∀ k, ∃ r, env.Retrieve k = .ok (some r) ∧ (lifecycle k (some r)).usable = true) →
      (env.getAWSNetwork = none →
        ∃ st, (clustercreate.inspect env cf).res = .ok st ∧ st.sel.isEmpty = true) ∧
      Event.AskConfirm ∉ (clustercreate.Run env cf).trace ∧
      ∀ e ∈ (clustercreate.Run env cf).trace, e.isWrite = false) ∧
    (∀ sel, (clusterdelete.identify env).res = .ok sel → sel.isEmpty = true →
      Event.AskConfirm ∉ (clusterdelete.Run env df).trace ∧
      ∀ e ∈ (clusterdelete.Run env df).trace, e.isWrite = false) := by
  constructor
  · intro hall
    have hempty : ∀ st, (clustercreate.inspect env cf).res = .ok st → st.sel.isEmpty = true := by
      intro st hst
      apply Selection.isEmpty_of_forall
      intro k
      obtain ⟨r, hr, hu⟩ := hall k
      exact (clustercreate.selected_iff env cf st k (some r) hst hr).2 hu
    refine ⟨?_, ?_⟩
    · intro hn
      obtain ⟨st, hst⟩ := clustercreate.inspect_total cf hn
        (fun k => (hall k).elim fun r hr => ⟨some r, hr.1⟩)
      exact ⟨st, hst, hempty st hst⟩
    · have hq := clustercreate.inspect_quiet env cf
      rcases clustercreate.Run_cases_create env cf with ⟨x, _, h⟩ | ⟨st, _, _, h⟩ |
          ⟨st, hi, he, _, _, _⟩ | ⟨st, hi, he, _, _⟩
      · rw [h]
        exact ⟨fun hc => (hq _ hc).2 rfl, fun e he => (hq e he).1⟩
      · rw [h]
        exact ⟨fun hc => (hq _ hc).2 rfl, fun e he => (hq e he).1⟩
      · rw [hempty st hi] at he
        cases he
      · rw [hempty st hi] at he
        cases he
  · intro sel hi hempty
    have hq := clusterdelete.identify_quiet env
    rcases clusterdelete.Run_cases_delete env df with ⟨x, hx, _⟩ | ⟨sel', _, _, h⟩ |
        ⟨sel', hi', he, _, _, _⟩ | ⟨sel', hi', he, _, _⟩
    · rw [hi] at hx
      cases hx
    · rw [h]
      exact ⟨fun hc => (hq _ hc).2 rfl, fun e he => (hq e he).1⟩
    · rw [hi] at hi'
      cases hi'
      rw [hempty] at he
      cases he
    · rw [hi] at hi'
      cases hi'
      rw [hempty] at he
      cases he

/-- C4 on the account a successful create leaves behind. -/
theorem nothing_to_do_witness :
    ((∃ st, (clustercreate.inspect fullAccount clustercreate.plainFlags).res = .ok st ∧
        st.sel.isEmpty = true) ∧
      Event.AskConfirm ∉ (clustercreate.Run fullAccount clustercreate.plainFlags).trace ∧
      ∀ e ∈ (clustercreate.Run fullAccount clustercreate.plainFlags).trace, e.isWrite = false) ∧
    (Event.AskConfirm ∉ (clusterdelete.Run emptyAccount ⟨false, false⟩).trace ∧
      ∀ e ∈ (clusterdelete.Run emptyAccount ⟨false, false⟩).trace, e.isWrite = false) :=
  have h := nothing_to_do fullAccount clustercreate.plainFlags ⟨false, false⟩
  have hfull : ∀ k, ∃ r, fullAccount.Retrieve k = .ok (some r) ∧
      (lifecycle k (some r)).usable = true := by
    intro k
    cases k <;> exact ⟨_, rfl, by decide⟩
  ⟨⟨(h.1 hfull).1 rfl, (h.1 hfull).2⟩,
    (nothing_to_do emptyAccount clustercreate.plainFlags ⟨false, false⟩).2
      ⟨false, false, false, false, false, false⟩ rfl rfl⟩

/-- C5. Confirmation gate: in a run without the force flag whose prompt
returns false, no provider write is issued; the prompt is asked at most once
in any run, is asked when something is selected and the force flag is off,
and is not asked when the force flag is set. -/
theorem confirmation_gate (env : Env) (cf : clustercreate.Flags) (df : clusterdelete.Flags) :
    ((cf.ForceCreate = false → env.AskConfirm = false →
        ∀ e ∈ (clustercreate.Run env cf).trace, e.isWrite = false) ∧
      (clustercreate.Run env cf).trace.count .AskConfirm ≤ 1 ∧
      (∀ st, (clustercreate.inspect env cf).res = .ok st → st.sel.isEmpty = false →
        cf.ForceCreate = false → Event.AskConfirm ∈ (clustercreate.Run env cf).trace) ∧
      (cf.ForceCreate = true → Event.AskConfirm ∉ (clustercreate.Run env cf).trace)) ∧
    ((df.ForceDelete = false → env.AskConfirm = false →
        ∀ e ∈ (clusterdelete.Run env df).trace, e.isWrite = false) ∧
      (clusterdelete.Run env df).trace.count .AskConfirm ≤ 1 ∧
      (∀ sel, (clusterdelete.identify env).res = .ok sel → sel.isEmpty = false →
        df.ForceDelete = false → Event.AskConfirm ∈ (clusterdelete.Run env df).trace) ∧
      (df.ForceDelete = true → Event.AskConfirm ∉ (clusterdelete.Run env df).trace)) := by
  refine ⟨⟨?_, ?_, ?_, ?_⟩, ⟨?_, ?_, ?_, ?_⟩⟩
  · intro hf hc
    have hq := clustercreate.inspect_quiet env cf
    rcases clustercreate.Run_cases_create env cf with ⟨x, _, h⟩ | ⟨st, _, _, h⟩ |
        ⟨st, _, _, _, _, h⟩ | ⟨st, _, _, hor, _⟩
    · rw [h]
      exact fun e he => (hq e he).1
    · rw [h]
      exact fun e he => (hq e he).1
    · rw [h]
      intro e he
      rcases List.mem_append.1 he with he | he
      · exact (hq e he).1
      · simp only [List.mem_singleton] at he
        subst he
        rfl
    · rcases hor with h | h
      · rw [hf] at h
        cases h
      · rw [hc] at h
        cases h
  · calc (clustercreate.Run env cf).trace.count .AskConfirm
        ≤ clustercreate.runSkeleton.count .AskConfirm := (clustercreate.Run_sub_create env cf).count_le _
      _ = 1 := clustercreate.runSkeleton_confirm_create
  · intro st hst hne hf
    rcases clustercreate.Run_cases_create env cf with ⟨x, hx, _⟩ | ⟨st', hi, he, _⟩ |
        ⟨st', _, _, _, _, h⟩ | ⟨st', _, _, _, h⟩
    · rw [hst] at hx
      cases hx
    · rw [hst] at hi
      cases hi
      rw [hne] at he
      cases he
    · rw [h]
      simp
    · rw [h]
      simp [hf]
  · intro hf hc
    have hq := clustercreate.inspect_quiet env cf
    rcases clustercreate.Run_cases_create env cf with ⟨x, _, h⟩ | ⟨st, _, _, h⟩ |
        ⟨st, _, _, hf', _, _⟩ | ⟨st, _, _, _, h⟩
    · rw [h] at hc
      exact (hq _ hc).2 rfl
    · rw [h] at hc
      exact (hq _ hc).2 rfl
    · rw [hf] at hf'
      cases hf'
    · rw [h] at hc
      simp only [hf, if_true, List.nil_append, List.mem_append] at hc
      rcases hc with hc | hc
      · exact (hq _ hc).2 rfl
      · obtain ⟨s, hs, -, hes⟩ := runSteps_mem hc
        have := (clustercreate.steps_facts_create env cf st s hs).own _ hes
        cases this
  · intro hf hc
    have hq := clusterdelete.identify_quiet env
    rcases clusterdelete.Run_cases_delete env df with ⟨x, _, h⟩ | ⟨sel, _, _, h⟩ |
        ⟨sel, _, _, _, _, h⟩ | ⟨sel, _, _, hor, _⟩
    · rw [h]
      exact fun e he => (hq e he).1
    · rw [h]
      exact fun e he => (hq e he).1
    · rw [h]
      intro e he
      rcases List.mem_append.1 he with he | he
      · exact (hq e he).1
      · simp only [List.mem_singleton] at he
        subst he
        rfl
    · rcases hor with h | h
      · rw [hf] at h
        cases h
      · rw [hc] at h
        cases h
  · calc (clusterdelete.Run env df).trace.count .AskConfirm
        ≤ clusterdelete.runSkeleton.count .AskConfirm := (clusterdelete.Run_sub_delete env df).count_le _
      _ = 1 := clusterdelete.runSkeleton_confirm_delete
  · intro sel hst hne hf
    rcases clusterdelete.Run_cases_delete env df with ⟨x, hx, _⟩ | ⟨sel', hi, he, _⟩ |
        ⟨sel', _, _, _, _, h⟩ | ⟨sel', _, _, _, h⟩
    · rw [hst] at hx
      cases hx
    · rw [hst] at hi
      cases hi
      rw [hne] at he
      cases he
    · rw [h]
      simp
    · rw [h]
      simp [hf]
  · intro hf hc
    have hq := clusterdelete.identify_quiet env
    rcases clusterdelete.Run_cases_delete env df with ⟨x, _, h⟩ | ⟨sel, _, _, h⟩ |
        ⟨sel, _, _, hf', _, _⟩ | ⟨sel, _, _, _, h⟩
    · rw [h] at hc
      exact (hq _ hc).2 rfl
    · rw [h] at hc
      exact (hq _ hc).2 rfl
    · rw [hf] at hf'
      cases hf'
    · rw [h] at hc
      simp only [hf, if_true, List.nil_append, List.mem_append] at hc
      rcases hc with hc | hc
      · exact (hq _ hc).2 rfl
      · obtain ⟨s, hs, -, hes⟩ := runSteps_mem hc
        have := (clusterdelete.steps_facts_delete env df sel s hs).own _ hes
        cases this


/-- C5 with a user who declines: the prompt is asked and no write follows. -/
theorem confirmation_gate_witness :
    ((∀ e ∈ (clustercreate.Run decliningEmpty clustercreate.plainFlags).trace,
        e.isWrite = false) ∧
      Event.AskConfirm ∈ (clustercreate.Run decliningEmpty clustercreate.plainFlags).trace) ∧
    ((∀ e ∈ (clusterdelete.Run decliningFull ⟨false, false⟩).trace, e.isWrite = false) ∧
      Event.AskConfirm ∈ (clusterdelete.Run decliningFull ⟨false, false⟩).trace) :=
  have h := confirmation_gate decliningEmpty clustercreate.plainFlags ⟨false, false⟩
  have h' := confirmation_gate decliningFull clustercreate.plainFlags ⟨false, false⟩
  ⟨⟨h.1.1 rfl rfl, h.1.2.2.1 ⟨⟨true, true, true, true, true, true⟩, none⟩ rfl rfl rfl⟩,
    ⟨h'.2.1 rfl rfl, h'.2.2.2.1 ⟨true, true, true, true, true, true⟩ rfl rfl rfl⟩⟩


/-- C6. Fail-fast: in cluster-create, and in cluster-delete without
`--continue`, when the action at some position of the plan fails (a call of
its step is answered with an error that no further try follows), the run
returns from the error branch of that action; every action before it has had
its create or delete call issued and has not failed; and no call at all, hence
no provider write, is issued for the actions after it. -/
theorem fail_fast (env : Env) (cf : clustercreate.Flags) (df : clusterdelete.Flags)
    (K : ResourceKind) (pre post : List ResourceKind) :
    (∀ st, (clustercreate.inspect env cf).res = .ok st →
      plan clustercreate.order st.sel = pre ++ K :: post →
      clustercreate.failed env (clustercreate.Run env cf).trace K →
      (clustercreate.Run env cf).res = .error ⟨.action K, none⟩ ∧
      (∀ J ∈ pre, Event.Create J 0 ∈ (clustercreate.Run env cf).trace ∧
        ¬ clustercreate.failed env (clustercreate.Run env cf).trace J) ∧
      ∀ J ∈ post, ∀ e ∈ (clustercreate.Run env cf).trace, e.owner ≠ some J) ∧
    (df.ContinueOnError = false → ∀ sel, (clusterdelete.identify env).res = .ok sel →
      plan clusterdelete.order sel = pre ++ K :: post →
      clusterdelete.failed env (clusterdelete.Run env df).trace K →
      (∃ err, (clusterdelete.Run env df).res = .error ⟨.action K, some err⟩) ∧
      (∀ J ∈ pre, Event.Delete J 0 ∈ (clusterdelete.Run env df).trace ∧
        ¬ clusterdelete.failed env (clusterdelete.Run env df).trace J) ∧
      ∀ J ∈ post, ∀ e ∈ (clusterdelete.Run env df).trace, e.owner ≠ some J) := by
  constructor
  · intro st hst hplan hfail
    have hres := clustercreate.Run_fail_create hfail
    obtain ⟨h1, h2⟩ := clustercreate.failfast_create hst hplan hres
    refine ⟨hres, fun J hJ => ⟨h1 J hJ, fun hJf => ?_⟩, h2⟩
    have hres' := clustercreate.Run_fail_create hJf
    rw [hres] at hres'
    injection hres' with hx
    injection hx with hsite
    injection hsite with hKJ
    exact plan_before_ne clustercreate.order_nodup_create hplan hJ hKJ.symm
  · intro hc sel hst hplan hfail
    obtain ⟨err, hres⟩ := clusterdelete.Run_fail_delete hc hfail
    obtain ⟨h1, h2⟩ := clusterdelete.failfast_delete hc hst hplan hres
    refine ⟨⟨err, hres⟩, fun J hJ => ⟨h1 J hJ, fun hJf => ?_⟩, h2⟩
    obtain ⟨err', hres'⟩ := clusterdelete.Run_fail_delete hc hJf
    rw [hres] at hres'
    injection hres' with hx
    injection hx with hsite
    injection hsite with hKJ
    exact plan_before_ne clusterdelete.order_nodup_delete hplan hJ hKJ.symm

/-- C6 on two runs in which the launch configuration fails: the tenth create
call in cluster-create, the delete call in cluster-delete. -/
theorem fail_fast_witness :
    ((clustercreate.Run launchCreateFails clustercreate.plainFlags).res =
        .error ⟨.action .LaunchTemplate, none⟩ ∧
      (∀ J ∈ [ResourceKind.InstanceProfile, .InstanceSecurityGroup],
        Event.Create J 0 ∈ (clustercreate.Run launchCreateFails clustercreate.plainFlags).trace ∧
        ¬ clustercreate.failed launchCreateFails
          (clustercreate.Run launchCreateFails clustercreate.plainFlags).trace J) ∧
      ∀ J ∈ [ResourceKind.ScalingGroup, .ComputeCluster, .ServiceRole],
        ∀ e ∈ (clustercreate.Run launchCreateFails clustercreate.plainFlags).trace,
          e.owner ≠ some J) ∧
    ((∃ err, (clusterdelete.Run launchDeleteFails ⟨true, false⟩).res =
        .error ⟨.action .LaunchTemplate, some err⟩) ∧
      (∀ J ∈ [ResourceKind.ScalingGroup],
        Event.Delete J 0 ∈ (clusterdelete.Run launchDeleteFails ⟨true, false⟩).trace ∧
        ¬ clusterdelete.failed launchDeleteFails
          (clusterdelete.Run launchDeleteFails ⟨true, false⟩).trace J) ∧
      ∀ J ∈ [ResourceKind.InstanceProfile, .InstanceSecurityGroup, .ComputeCluster, .ServiceRole],
        ∀ e ∈ (clusterdelete.Run launchDeleteFails ⟨true, false⟩).trace, e.owner ≠ some J) :=
  ⟨(fail_fast launchCreateFails clustercreate.plainFlags ⟨true, false⟩ .LaunchTemplate
      [.InstanceProfile, .InstanceSecurityGroup] [.ScalingGroup, .ComputeCluster, .ServiceRole]).1
      ⟨⟨true, true, true, true, true, true⟩, none⟩ rfl rfl
      (Or.inl ⟨9, by decide, by decide, by decide⟩),
    (fail_fast launchDeleteFails clustercreate.plainFlags ⟨true, false⟩ .LaunchTemplate
      [.ScalingGroup] [.InstanceProfile, .InstanceSecurityGroup, .ComputeCluster, .ServiceRole]).2
      rfl ⟨true, true, true, true, true, true⟩ rfl rfl
      (Or.inr ⟨0, by decide, by decide, by decide⟩)⟩


/-- C9. Inspection failure is a hard failure: when a read issued by
cluster-create or cluster-delete (the network lookup, a resource retrieval, a
tag retrieval) is answered with an error, the run returns from the check of
that read; the failed read is the last call of the run and is issued once, no
confirmation is requested and no provider write is issued. -/
theorem inspection_failure (env : Env) (cf : clustercreate.Flags) (df : clusterdelete.Flags)
    (e : Event) (s : Site) (hbad : failedRead env e s) :
    (e ∈ (clustercreate.Run env cf).trace →
      (∃ r, (clustercreate.Run env cf).res = .error ⟨s, r⟩) ∧
      ((clustercreate.Run env cf).trace.filter Event.isCall).getLast? = some e ∧
      (clustercreate.Run env cf).trace.count e = 1 ∧
      Event.AskConfirm ∉ (clustercreate.Run env cf).trace ∧
      ∀ e' ∈ (clustercreate.Run env cf).trace, e'.isWrite = false) ∧
    (e ∈ (clusterdelete.Run env df).trace →
      (∃ r, (clusterdelete.Run env df).res = .error ⟨s, r⟩) ∧
      ((clusterdelete.Run env df).trace.filter Event.isCall).getLast? = some e ∧
      (clusterdelete.Run env df).trace.count e = 1 ∧
      Event.AskConfirm ∉ (clusterdelete.Run env df).trace ∧
      ∀ e' ∈ (clusterdelete.Run env df).trace, e'.isWrite = false) := by
  constructor
  · intro he
    obtain ⟨r, hr, hrun, hin⟩ := clustercreate.Run_failedRead_create he hbad
    have hq := clustercreate.inspect_quiet env cf
    rw [hrun]
    exact ⟨⟨r, rfl⟩, clustercreate.inspect_last hbad hr,
      le_antisymm (clustercreate.inspect_count cf hbad) (List.count_pos_iff.2 hin),
      fun hc => (hq _ hc).2 rfl, fun e' he' => (hq e' he').1⟩
  · intro he
    obtain ⟨r, hr, hrun, hin⟩ := clusterdelete.Run_failedRead_delete he hbad
    have hq := clusterdelete.identify_quiet env
    rw [hrun]
    exact ⟨⟨r, rfl⟩, clusterdelete.identify_last hbad hr,
      le_antisymm (clusterdelete.identify_count hbad) (List.count_pos_iff.2 hin),
      fun hc => (hq _ hc).2 rfl, fun e' he' => (hq e' he').1⟩

/-- C9 on an account whose reads fail: the run of both commands stops at the
read of the ECS cluster. -/
theorem inspection_failure_witness :
    ((∃ r, (clustercreate.Run readsFail clustercreate.plainFlags).res =
        .error ⟨.retrieve .ComputeCluster, r⟩) ∧
      ((clustercreate.Run readsFail clustercreate.plainFlags).trace.filter
        Event.isCall).getLast? = some (.Retrieve .ComputeCluster) ∧
      (clustercreate.Run readsFail clustercreate.plainFlags).trace.count
        (.Retrieve .ComputeCluster) = 1 ∧
      Event.AskConfirm ∉ (clustercreate.Run readsFail clustercreate.plainFlags).trace ∧
      ∀ e' ∈ (clustercreate.Run readsFail clustercreate.plainFlags).trace, e'.isWrite = false) ∧
    ((∃ r, (clusterdelete.Run readsFail ⟨true, true⟩).res =
        .error ⟨.retrieve .ComputeCluster, r⟩) ∧
      ((clusterdelete.Run readsFail ⟨true, true⟩).trace.filter Event.isCall).getLast? =
        some (.Retrieve .ComputeCluster) ∧
      (clusterdelete.Run readsFail ⟨true, true⟩).trace.count (.Retrieve .ComputeCluster) = 1 ∧
      Event.AskConfirm ∉ (clusterdelete.Run readsFail ⟨true, true⟩).trace ∧
      ∀ e' ∈ (clusterdelete.Run readsFail ⟨true, true⟩).trace, e'.isWrite = false) :=
  have h := inspection_failure readsFail clustercreate.plainFlags ⟨true, true⟩
    (.Retrieve .ComputeCluster) (.retrieve .ComputeCluster)
    (Or.inl ⟨.ComputeCluster, .PermanentError "AccessDenied", rfl, rfl, rfl⟩)
  ⟨h.1 (by decide), h.2 (by decide)⟩

/-- C10, as stated, fails for the launch configuration: when its create call is
answered with a permanent error every time, the call is issued ten times. -/
theorem permanent_errors_counterexample :
    launchCreateFails.Create .LaunchTemplate 0 = some (.PermanentError "InvalidParameterValue") ∧
    (Err.PermanentError "InvalidParameterValue").permanent = true ∧
    Event.Create .LaunchTemplate 1 ∈
      (clustercreate.Run launchCreateFails clustercreate.plainFlags).trace ∧
    ((clustercreate.Run launchCreateFails clustercreate.plainFlags).trace.countP
      fun e => e.isWrite && decide (e.owner = some .LaunchTemplate)) = 10 :=
  ⟨rfl, rfl, by decide, by decide⟩

/-- C10, amended: errors are not classified. In cluster-create a kind other
than the launch configuration has a single create call, and `Run` returns from
its action at once when that call fails; the launch configuration create is
issued again after every failed call, permanent or not, up to the tenth. In
cluster-delete a kind other than the security group has a single delete call;
a failed delete call (for the security group: one whose code is neither
DependencyViolation nor ResourceInUse) is the last of its kind, and the action
fails there: its error is printed or `Run` returns from it. -/
theorem permanent_errors (env : Env) (cf : clustercreate.Flags) (df : clusterdelete.Flags)
    (k : ResourceKind) (i : Nat) :
    ((k ≠ .LaunchTemplate →
        Event.Create k (i + 1) ∉ (clustercreate.Run env cf).trace ∧
        (Event.Create k 0 ∈ (clustercreate.Run env cf).trace → env.Create k 0 ≠ none →
          (clustercreate.Run env cf).res = .error ⟨.action k, none⟩)) ∧
      (Event.Create .LaunchTemplate i ∈ (clustercreate.Run env cf).trace →
        env.Create .LaunchTemplate i ≠ none → i + 1 < 10 →
        Event.Create .LaunchTemplate (i + 1) ∈ (clustercreate.Run env cf).trace)) ∧
    ((k ≠ .InstanceSecurityGroup → Event.Delete k (i + 1) ∉ (clusterdelete.Run env df).trace) ∧
      ∀ e, Event.Delete k i ∈ (clusterdelete.Run env df).trace → env.Delete k i = some e →
        (k = .InstanceSecurityGroup →
          ¬ ∃ c ∈ ["DependencyViolation", "ResourceInUse"], e.code = some c) →
        Event.Delete k (i + 1) ∉ (clusterdelete.Run env df).trace ∧
        (Event.Errorln (.action k) ∈ (clusterdelete.Run env df).trace ∨
          ∃ r, (clusterdelete.Run env df).res = .error ⟨.action k, r⟩)) :=
  ⟨clustercreate.create_calls env cf k i, clusterdelete.delete_calls env df k i⟩

/-- C10, amended, on two runs: the launch configuration create is issued again
after a permanent error; the launch configuration delete is not. -/
theorem permanent_errors_witness :
    Event.Create .LaunchTemplate 1 ∈
      (clustercreate.Run launchCreateFails clustercreate.plainFlags).trace ∧
    (Event.Delete .LaunchTemplate 1 ∉ (clusterdelete.Run launchDeleteFails ⟨true, true⟩).trace ∧
      (Event.Errorln (.action .LaunchTemplate) ∈
          (clusterdelete.Run launchDeleteFails ⟨true, true⟩).trace ∨
        ∃ r, (clusterdelete.Run launchDeleteFails ⟨true, true⟩).res =
          .error ⟨.action .LaunchTemplate, r⟩)) :=
  ⟨(permanent_errors launchCreateFails clustercreate.plainFlags ⟨true, true⟩
      .LaunchTemplate 0).1.2 (by decide) (by decide) (by decide),
    (permanent_errors launchDeleteFails clustercreate.plainFlags ⟨true, true⟩
      .LaunchTemplate 0).2.2 (.PermanentError "ValidationError") (by decide) rfl (by decide)⟩

/-! ## Retry, pre-wait, selections, order of the calls, validation -/

namespace clustercreate

theorem filter_creates (k : ResourceKind) (m : Nat) :
    ((List.range' 0 m).map (Event.Create k)).filter (Event.isCreateOf k) =
      (List.range m).map (Event.Create k) := by
  rw [List.range_eq_range']
  apply List.filter_eq_self.2
  intro e he
  obtain ⟨i, -, rfl⟩ := List.mem_map.1 he
  simp [Event.isCreateOf]

/-- The launch configuration step: the create calls it issues and how it
ends. -/
theorem createLaunchConfiguration_calls (env : Env) (flags : Flags) :
    ∃ m, m ≤ 10 ∧
      (createLaunchConfiguration env flags).trace.filter (Event.isCreateOf .LaunchTemplate) =
        (List.range m).map (Event.Create .LaunchTemplate) ∧
      (∀ j, j + 1 < m → env.Create .LaunchTemplate j ≠ none) ∧
      ((createLaunchConfiguration env flags).res = .ok () ↔
        ∃ j, j < m ∧ env.Create .LaunchTemplate j = none) := by
  rcases createLaunchConfiguration_eq env flags with h | h | ⟨m, r, hm0, hm, hr, hall, hex, h⟩
  · exact ⟨0, by omega, by simp [h, Event.isCreateOf], by simp, by simp [h]⟩
  · refine ⟨0, by omega, ?_, by simp, by simp [h]⟩
    cases hb : blank flags.InstanceType <;> simp [h, hb, Event.isCreateOf]
  · refine ⟨m, hm, ?_, hall, ?_⟩
    · have hc : (check (.action .LaunchTemplate) r).trace.filter
          (Event.isCreateOf .LaunchTemplate) = [] := by
        cases r <;> simp [check, fail_eq, Event.isCreateOf]
      rw [h]
      cases hb : blank flags.InstanceType <;>
        simp [hb, List.filter_append, hc, filter_creates, Event.isCreateOf]
    · rw [h]
      constructor
      · intro hok
        refine ⟨m - 1, by omega, ?_⟩
        rw [← hr]
        cases r with
        | none => rfl
        | some e => simp [check, fail_eq] at hok
      · rintro ⟨j, hj, hnone⟩
        have hjm : j = m - 1 := by
          by_contra hne
          exact hall j (by omega) hnone
        subst hjm
        rw [← hr] at hnone
        subst hnone
        rfl

/-- A create call for the launch configuration in a run is one of its
step. -/
theorem Run_launch {env : Env} {flags : Flags} {e : Event}
    (he : e ∈ (Run env flags).trace) (ho : e.owner = some .LaunchTemplate) :
    e ∈ (createLaunchConfiguration env flags).trace := by
  obtain ⟨st, -, -, -, -, s, hs, hks, -, hes, -⟩ := Run_owned_create he ho
  simp only [steps, List.mem_cons, List.mem_singleton, List.not_mem_nil, or_false] at hs
  rcases hs with rfl | rfl | rfl | rfl | rfl | rfl <;> first | exact hes | cases hks

/-- The loop after ten failed calls: `lastErr` is the answer of the tenth. -/
theorem retryLoop_exhausted (env : Env)
    (h : ∀ j, j < 10 → env.Create .LaunchTemplate j ≠ none) :
    (retryLoop env 10 0 none).res = .ok (env.Create .LaunchTemplate 9) ∧
    (retryLoop env 10 0 none).trace = (List.range 10).map (Event.Create .LaunchTemplate) := by
  obtain ⟨m, r, hm, hpos, ht, hr, hre, -, hex⟩ := retryLoop_spec env 10 0 none
  have hm0 : 0 < m := hpos (by omega)
  have hne : m ≠ 0 := by omega
  simp only [hne, if_false, Nat.zero_add] at hre
  have hm10 : m = 10 := hex (hre ▸ h (m - 1) (by omega))
  subst hm10
  rw [hr, ht, hre, List.range_eq_range']
  exact ⟨rfl, rfl⟩

set_option maxRecDepth 100000 in
theorem runSkeleton_launch :
    (runSkeleton.filter (Event.isCreateOf .LaunchTemplate)).length = 10 := by decide

/-- A run issues at most ten create calls for the launch configuration. -/
theorem launch_count (env : Env) (flags : Flags) :
    ((Run env flags).trace.filter (Event.isCreateOf .LaunchTemplate)).length ≤ 10 := by
  have h := ((Run_sub_create env flags).filter (Event.isCreateOf .LaunchTemplate)).length_le
  rwa [runSkeleton_launch] at h

end clustercreate

/-- A pair that never occurs in the wrong order occurs in the right one. -/
theorem before_of_pairwise {l : List Event} {a b : Event}
    (h : l.Pairwise fun x y => ¬ (x = b ∧ y = a)) (hab : a ≠ b) : Before a b l := by
  intro i j hi hj
  obtain ⟨hi', hia⟩ := List.getElem?_eq_some.1 hi
  obtain ⟨hj', hjb⟩ := List.getElem?_eq_some.1 hj
  by_contra hlt
  have hne : i ≠ j := by
    intro hij
    subst hij
    rw [hia] at hjb
    exact hab hjb
  have hji : j < i := by omega
  exact List.pairwise_iff_getElem.1 h j i hj' hi' hji ⟨hjb, hia⟩

namespace clustercreate

/-- A call of the auto scaling group step in a run is one of the step run on
the group that was found. -/
theorem Run_scaling {env : Env} {flags : Flags} {e : Event}
    (he : e ∈ (Run env flags).trace) (ho : e.owner = some .ScalingGroup) :
    ∃ g, env.Retrieve .ScalingGroup = .ok g ∧ e ∈ (createAutoScalingGroup env g).trace ∧
      (∀ e' ∈ (createAutoScalingGroup env g).trace, e' ∈ (Run env flags).trace) ∧
      ∀ x, (createAutoScalingGroup env g).res = .error x → (Run env flags).res = .error x := by
  obtain ⟨st, hi, -, -, -, s, hs, hks, -, hes, hall, hexit⟩ := Run_owned_create he ho
  obtain ⟨-, hid⟩ := inspect_ok hi
  obtain ⟨-, -, -, ⟨hg, -⟩, -⟩ := identify_ok_create hid
  refine ⟨st.autoScalingGroup, hg, ?_⟩
  simp only [steps, List.mem_cons, List.mem_singleton, List.not_mem_nil, or_false] at hs
  rcases hs with rfl | rfl | rfl | rfl | rfl | rfl <;>
    first | exact ⟨hes, hall, hexit⟩ | cases hks

set_option maxRecDepth 100000 in
theorem runSkeleton_wait (i : Nat) :
    runSkeleton.Pairwise fun x y =>
      ¬ (x = Event.Create .ScalingGroup i ∧ y = Event.waitAutoScalingGroupDeletion) := by
  have h : runSkeleton.Pairwise fun x y =>
      ¬ (x.isCreateOf .ScalingGroup = true ∧ y = Event.waitAutoScalingGroupDeletion) := by
    decide
  exact h.imp fun hxy hc => hxy ⟨by simp [hc.1, Event.isCreateOf], hc.2⟩

end clustercreate

namespace clusterdelete

/-- Which of the two tag-checked kinds cluster-delete selects, by lifecycle
and tags. -/
theorem selected_iff_delete (env : Env) (sel : Selection) (K : ResourceKind)
    (r : Option Resource) (hK : K = .InstanceSecurityGroup ∨ K = .ScalingGroup)
    (h : (identify env).res = .ok sel) (hr : env.Retrieve K = .ok r) :
    (sel.has K = true ↔
      (lifecycle K r).usable = true ∧ ∃ t, env.RetrieveTags K = .ok t ∧ hasMarker t = true) ∧
    (lifecycle K r = .Terminating → sel.has K = false) := by
  obtain ⟨-, -, -, ⟨g, hg, hasg⟩, -, ⟨g', hg', hsg⟩⟩ := identify_ok_delete h
  rcases hK with rfl | rfl
  · have hvr : g' = r := by
      rw [hg'] at hr
      exact Except.ok.inj hr
    subst hvr
    cases g' with
    | none =>
      have hs : sel.InstanceSecurityGroup = false := by
        cases hs : sel.InstanceSecurityGroup with
        | false => rfl
        | true =>
          obtain ⟨r', t', hn, -⟩ := hsg.1 hs
          cases hn
      simp [Selection.has, hs, lifecycle, Lifecycle.usable]
    | some r' =>
      simp only [Selection.has, lifecycle, Lifecycle.usable, true_and]
      refine ⟨?_, by simp⟩
      rw [hsg]
      constructor
      · rintro ⟨r'', t, -, ht, hm⟩
        exact ⟨t, ht, hm⟩
      · rintro ⟨t, ht, hm⟩
        exact ⟨r', t, rfl, ht, hm⟩
  · have hvr : g = r := by
      rw [hg] at hr
      exact Except.ok.inj hr
    subst hvr
    cases g with
    | none =>
      have hs : sel.AutoScalingGroup = false := by
        cases hs : sel.AutoScalingGroup with
        | false => rfl
        | true =>
          obtain ⟨r', t', hn, -⟩ := hasg.1 hs
          cases hn
      simp [Selection.has, hs, lifecycle, Lifecycle.usable]
    | some r' =>
      cases hb : utils.IsBlank r'.Status with
      | false =>
        have hs : sel.AutoScalingGroup = false := by
          cases hs : sel.AutoScalingGroup with
          | false => rfl
          | true =>
            obtain ⟨r'', t', hn, hbl, -⟩ := hasg.1 hs
            cases hn
            rw [hb] at hbl
            cases hbl
        simp [Selection.has, hs, lifecycle, Lifecycle.usable, hb]
      | true =>
        simp only [Selection.has, lifecycle, Lifecycle.usable, hb, if_true, true_and]
        refine ⟨?_, by simp⟩
        rw [hasg]
        constructor
        · rintro ⟨r'', t, -, -, ht, hm⟩
          exact ⟨t, ht, hm⟩
        · rintro ⟨t, ht, hm⟩
          exact ⟨r', t, rfl, hb, ht, hm⟩

end clusterdelete

/-- A sublist of a list without duplicates that holds every element of it is
the list. -/
theorem sublist_eq_of_subset {l order : List ResourceKind} (hsub : List.Sublist l order)
    (hnd : order.Nodup) (hall : ∀ k ∈ order, k ∈ l) : l = order :=
  hsub.eq_of_length_le (List.subperm_of_subset hnd hall).length_le

namespace clustercreate

set_option maxRecDepth 100000 in
theorem runSkeleton_created : createdKinds runSkeleton = order := by decide

/-- The kinds a run creates come in the order of the create steps. -/
theorem created_sub (env : Env) (flags : Flags) :
    List.Sublist (createdKinds (Run env flags).trace) order := by
  rw [← runSkeleton_created]
  exact (Run_sub_create env flags).filterMap _

/-- A run that selected a kind and reached the last line has issued the create
call of that kind. -/
theorem created_of_ok {env : Env} {flags : Flags} {st : Identified}
    (hi : (inspect env flags).res = .ok st) (hr : (Run env flags).res = .ok ())
    {k : ResourceKind} (hk : st.sel.has k = true) :
    Event.Create k 0 ∈ (Run env flags).trace := by
  rcases Run_cases_create env flags with ⟨x, _, h⟩ | ⟨st', _, _, h⟩ | ⟨st', _, _, _, _, h⟩ |
      ⟨st', hi', _, _, h⟩
  · rw [h] at hr
    cases hr
  · rw [h] at hr
    cases hr
  · rw [h] at hr
    cases hr
  · rw [hi] at hi'
    cases hi'
    rw [h] at hr ⊢
    have hf := steps_facts_create env flags st
    have hok := runSteps_ok_inv hr
    have hall := (runSteps_all hok).2
    obtain ⟨s, hs, hks⟩ : ∃ s ∈ steps env flags st, s.kind = k := by
      have hko : k ∈ order := by cases k <;> decide
      rw [← steps_kinds_create env flags st] at hko
      obtain ⟨s, hs, hk⟩ := List.mem_map.1 hko
      exact ⟨s, hs, hk⟩
    have hsel : s.selected = true := by
      rw [steps_selected_create env flags st s hs, hks]
      exact hk
    have := (hf s hs).first (hok s hs hsel)
    rw [hks] at this
    exact List.mem_append_right _ (List.mem_append_right _ (hall s hs hsel _ this))

/-- A run that selected the six kinds and reached the last line has created
them in the order of the create steps. -/
theorem created_all {env : Env} {flags : Flags} {st : Identified}
    (hi : (inspect env flags).res = .ok st) (hr : (Run env flags).res = .ok ())
    (hall : ∀ k, st.sel.has k = true) :
    createdKinds (Run env flags).trace = order :=
  sublist_eq_of_subset (created_sub env flags) order_nodup_create fun k _ =>
    List.mem_filterMap.2 ⟨_, created_of_ok hi hr (hall k), rfl⟩

end clustercreate

namespace clusterdelete

set_option maxRecDepth 100000 in
theorem runSkeleton_deleted : deletedKinds runSkeleton = order := by decide

/-- The kinds a run deletes come in the order of the delete steps. -/
theorem deleted_sub (env : Env) (flags : Flags) :
    List.Sublist (deletedKinds (Run env flags).trace) order := by
  rw [← runSkeleton_deleted]
  exact (Run_sub_delete env flags).filterMap _

theorem deleteAutoScalingGroup_issued (env : Env) (flags : Flags)
    (h : env.scaleDownAutoScalingGroup = none) :
    Event.Delete .ScalingGroup 0 ∈ (deleteAutoScalingGroup env flags).trace := by
  simp [deleteAutoScalingGroup, h, Prog.bind_def, Prog.andThen, Prog.emit]

/-- A run that selected a kind and reached the last line has issued the delete
call of that kind, when the scale-down went through. -/
theorem deleted_of_ok {env : Env} {flags : Flags} {sel : Selection}
    (hi : (identify env).res = .ok sel) (hr : (Run env flags).res = .ok ())
    (hsd : env.scaleDownAutoScalingGroup = none)
    {k : ResourceKind} (hk : sel.has k = true) :
    Event.Delete k 0 ∈ (Run env flags).trace := by
  rcases Run_cases_delete env flags with ⟨x, _, h⟩ | ⟨sel', _, _, h⟩ | ⟨sel', _, _, _, _, h⟩ |
      ⟨sel', hi', _, _, h⟩
  · rw [h] at hr
    cases hr
  · rw [h] at hr
    cases hr
  · rw [h] at hr
    cases hr
  · rw [hi] at hi'
    cases hi'
    rw [h] at hr ⊢
    have hf := steps_facts_delete env flags sel
    have hok := runSteps_ok_inv hr
    have hall := (runSteps_all hok).2
    obtain ⟨s, hs, hks⟩ : ∃ s ∈ steps env flags sel, s.kind = k := by
      have hko : k ∈ order := by cases k <;> decide
      rw [← steps_kinds_delete env flags sel] at hko
      obtain ⟨s, hs, hk⟩ := List.mem_map.1 hko
      exact ⟨s, hs, hk⟩
    have hsel : s.selected = true := by
      rw [steps_selected_delete env flags sel s hs, hks]
      exact hk
    have hin : Event.Delete k 0 ∈ s.body.trace := by
      by_cases hsg : k = .ScalingGroup
      · subst hsg
        simp only [steps, List.mem_cons, List.mem_singleton, List.not_mem_nil, or_false] at hs
        rcases hs with rfl | rfl | rfl | rfl | rfl | rfl <;>
          first | exact deleteAutoScalingGroup_issued env flags hsd | cases hks
      · have := (hf s hs).issued (hks ▸ hsg)
        rw [hks] at this
        exact this
    exact List.mem_append_right _ (List.mem_append_right _ (hall s hs hsel _ hin))

/-- A run that selected the six kinds and reached the last line has deleted
them in the order of the delete steps, when the scale-down went through. -/
theorem deleted_all {env : Env} {flags : Flags} {sel : Selection}
    (hi : (identify env).res = .ok sel) (hr : (Run env flags).res = .ok ())
    (hsd : env.scaleDownAutoScalingGroup = none) (hall : ∀ k, sel.has k = true) :
    deletedKinds (Run env flags).trace = order :=
  sublist_eq_of_subset (deleted_sub env flags) order_nodup_delete fun k _ =>
    List.mem_filterMap.2 ⟨_, deleted_of_ok hi hr hsd (hall k), rfl⟩

end clusterdelete

namespace clusterdelete

/-- When every read went through and the auto scaling group was found with a
blank status, or the security group was found, its tags were read. -/
theorem identify_tags {env : Env} {sel : Selection} (h : (identify env).res = .ok sel) :
    (∀ r, env.Retrieve .ScalingGroup = .ok (some r) → utils.IsBlank r.Status = true →
      ∃ t, env.RetrieveTags .ScalingGroup = .ok t ∧ sel.AutoScalingGroup = hasMarker t) ∧
    (∀ r, env.Retrieve .InstanceSecurityGroup = .ok (some r) →
      ∃ t, env.RetrieveTags .InstanceSecurityGroup = .ok t ∧
        sel.InstanceSecurityGroup = hasMarker t) := by
  unfold identify at h
  obtain ⟨a, -, h, -⟩ := Prog.bind_ok_inv h
  obtain ⟨b, -, h, -⟩ := Prog.bind_ok_inv h
  obtain ⟨c, -, h, -⟩ := Prog.bind_ok_inv h
  obtain ⟨d, hd, h, -⟩ := Prog.bind_ok_inv h
  obtain ⟨e, -, h, -⟩ := Prog.bind_ok_inv h
  obtain ⟨f, hf, h, -⟩ := Prog.bind_ok_inv h
  have hsel : sel = ⟨a, b, c, d, e, f⟩ := by
    simp at h
    exact h.symm
  subst hsel
  constructor
  · intro r hr hb
    unfold findAutoScalingGroup at hd
    rw [retrieve_eq_delete] at hd
    cases ht : env.RetrieveTags .ScalingGroup with
    | error e => simp [hr, hb, ht, retrieveTags_eq, Prog.bind_def, Prog.andThen] at hd
    | ok t =>
      refine ⟨t, rfl, ?_⟩
      simp [hr, hb, ht, retrieveTags_eq, Prog.bind_def, Prog.andThen] at hd
      exact hd.symm
  · intro r hr
    unfold findInstanceSecurityGroup at hf
    rw [retrieve_eq_delete] at hf
    cases ht : env.RetrieveTags .InstanceSecurityGroup with
    | error e => simp [hr, ht, retrieveTags_eq, Prog.bind_def, Prog.andThen] at hf
    | ok t =>
      refine ⟨t, rfl, ?_⟩
      simp [hr, ht, retrieveTags_eq, Prog.bind_def, Prog.andThen] at hf
      exact hf.symm

end clusterdelete

namespace config

/-- What a memory expression that passes lines 33-50 looks like. -/
theorem validateMemory_none {core : Core} {c : Config} (h : validateMemory core c = none) :
    (core.SizeExpressionRE.FindAllStringSubmatch c.Memory).length = 1 ∧
    ∃ m, strconv.ParseUint (numericPart core c) = some m ∧ 1 ≤ m ∧ m ≤ core.MaxAppMemory := by
  unfold validateMemory at h
  split at h
  · cases h
  · simp only at h
    split at h
    · cases h
    · rename_i hlen
      split at h
      · cases h
      · rename_i parsed hp
        split at h
        · cases h
        · rename_i hz
          split at h
          · cases h
          · rename_i hmax
            simp only [Bool.or_eq_true, bne_iff_ne, ne_eq, decide_eq_true_eq, not_or,
              not_not] at hlen
            refine ⟨hlen.1, parsed, hp, ?_, by omega⟩
            have : parsed ≠ 0 := by simpa using hz
            omega

/-- The function `Validate` returns the error of the first check, in the fixed
order, that the configuration fails. -/
theorem Validate_first (core : Core) (c : Config) :
    c.Validate core = Check.order.findSome? (Check.run core c) := by
  unfold Config.Validate
  simp only [Check.order, List.findSome?, Check.run]
  cases h1 : core.AppNameRE.MatchString c.Name <;> simp only [Bool.not_false, Bool.not_true,
    if_true, if_false, Bool.false_eq_true]
  cases h2 : core.ClusterNameRE.MatchString c.ClusterName <;> simp only [Bool.not_false,
    Bool.not_true, if_true, if_false, Bool.false_eq_true]
  by_cases h3 : c.Units ≤ core.MaxAppUnits
  · have h3' : ¬ c.Units > core.MaxAppUnits := by omega
    simp only [h3, h3', if_true, if_false]
    cases h4 : c.CPU.isZero <;> simp only [if_true, if_false, Bool.false_eq_true]
    cases h5 : c.CPU.gt core.MaxAppCPU <;> simp only [if_true, if_false, Bool.false_eq_true]
    cases h6 : validateMemory core c <;> simp only []
    cases core.TimeExpressionRE.MatchString c.LoadBalancer.HealthCheck.Interval <;>
      simp only [Bool.not_false, Bool.not_true, if_true, if_false, Bool.false_eq_true]
    cases core.HealthCheckPathRE.MatchString c.LoadBalancer.HealthCheck.Path <;>
      simp only [Bool.not_false, Bool.not_true, if_true, if_false, Bool.false_eq_true]
    cases core.HealthCheckStatusRE.MatchString c.LoadBalancer.HealthCheck.Status <;>
      simp only [Bool.not_false, Bool.not_true, if_true, if_false, Bool.false_eq_true]
    cases core.TimeExpressionRE.MatchString c.LoadBalancer.HealthCheck.Timeout <;>
      simp only [Bool.not_false, Bool.not_true, if_true, if_false, Bool.false_eq_true]
    by_cases h11 : c.LoadBalancer.HealthCheck.HealthyLimit = 0
    · simp [h11]
    · by_cases h12 : c.LoadBalancer.HealthCheck.UnhealthyLimit = 0
      · simp [h11, h12]
      · simp only [beq_iff_eq, h11, h12, if_false]
        cases core.ECRRepoNameRE.MatchString c.AWS.ECRRepositoryName <;>
          simp only [Bool.not_false, Bool.not_true, if_true, if_false, Bool.false_eq_true]
        cases core.ELBNameRE.MatchString c.AWS.ELBLoadBalancerName <;>
          simp only [Bool.not_false, Bool.not_true, if_true, if_false, Bool.false_eq_true]
        cases core.ELBTargetNameRE.MatchString c.AWS.ELBTargetGroupName <;>
          simp only [Bool.not_false, Bool.not_true, if_true, if_false, Bool.false_eq_true]
        cases utils.IsBlank c.Docker.Bin <;> simp
  · have h3' : c.Units > core.MaxAppUnits := by omega
    simp only [h3, h3', if_true, if_false]

/-- What a configuration that passes every check satisfies. -/
theorem run_none {core : Core} {c : Config} (h : ∀ k ∈ Check.order, Check.run core c k = none) :
    c.Units ≤ core.MaxAppUnits ∧ validateMemory core c = none ∧
    c.LoadBalancer.HealthCheck.HealthyLimit ≠ 0 ∧
    c.LoadBalancer.HealthCheck.UnhealthyLimit ≠ 0 ∧ utils.IsBlank c.Docker.Bin = false := by
  have hu := h .units (by decide)
  have hm := h .memory (by decide)
  have hh := h .healthCheck (by decide)
  have hd := h .dockerPath (by decide)
  simp only [Check.run] at hu hm hh hd
  refine ⟨?_, hm, ?_, ?_, ?_⟩
  · by_contra hc
    simp [hc] at hu
  · intro hc
    rw [hc] at hh
    split at hh
    · cases hh
    · split at hh
      · cases hh
      · split at hh
        · cases hh
        · split at hh
          · cases hh
          · simp at hh
  · intro hc
    rw [hc] at hh
    split at hh
    · cases hh
    · split at hh
      · cases hh
      · split at hh
        · cases hh
        · split at hh
          · cases hh
          · split at hh
            · cases hh
            · simp at hh
  · cases hb : utils.IsBlank c.Docker.Bin
    · rfl
    · simp [hb] at hd

end config

/-! ## The claims on retry, pre-wait, selections, order and validation -/

/-- C11. Bounded retry of the launch configuration: a run issues at most ten
create calls for it; the step issues the calls number 0 to `m - 1`, in this
order, for some `m` of at most 10, and a run issues no other; every call but
the last one issued was answered with an error,
so no call follows a successful one; the step goes through if and only if one
of these calls succeeded; and after ten failed calls `lastErr`, the cause that
line 213 reports, is the error of the tenth. -/
theorem bounded_retry (env : Env) (flags : clustercreate.Flags) :
    ((clustercreate.Run env flags).trace.filter (Event.isCreateOf .LaunchTemplate)).length ≤ 10 ∧
    ∃ m, m ≤ 10 ∧
      (clustercreate.createLaunchConfiguration env flags).trace.filter
          (Event.isCreateOf .LaunchTemplate) =
        (List.range m).map (Event.Create .LaunchTemplate) ∧
      (∀ i, Event.Create .LaunchTemplate i ∈ (clustercreate.Run env flags).trace → i < m) ∧
      (∀ j, j + 1 < m → env.Create .LaunchTemplate j ≠ none) ∧
      ((clustercreate.createLaunchConfiguration env flags).res = .ok () ↔
        ∃ j, j < m ∧ env.Create .LaunchTemplate j = none) ∧
      ((∀ j, j < 10 → env.Create .LaunchTemplate j ≠ none) →
        (clustercreate.retryLoop env 10 0 none).res = .ok (env.Create .LaunchTemplate 9) ∧
        (clustercreate.retryLoop env 10 0 none).trace =
          (List.range 10).map (Event.Create .LaunchTemplate)) := by
  obtain ⟨m, hm, hf, hall, hiff⟩ := clustercreate.createLaunchConfiguration_calls env flags
  refine ⟨clustercreate.launch_count env flags, m, hm, hf, ?_, hall, hiff,
    clustercreate.retryLoop_exhausted env⟩
  intro i hi
  have h1 := clustercreate.Run_launch hi rfl
  have h2 : Event.Create .LaunchTemplate i ∈
      (clustercreate.createLaunchConfiguration env flags).trace.filter
        (Event.isCreateOf .LaunchTemplate) :=
    List.mem_filter.2 ⟨h1, by simp [Event.isCreateOf]⟩
  rw [hf] at h2
  simpa using h2

/-- C11 on an account where every create call for the launch configuration
fails: after ten calls the loop yields the error of the tenth. -/
theorem bounded_retry_witness :
    (∀ j, j < 10 → launchCreateFails.Create .LaunchTemplate j ≠ none) ∧
    (clustercreate.retryLoop launchCreateFails 10 0 none).res =
      .ok (some (.PermanentError "InvalidParameterValue")) := by
  obtain ⟨-, m, -, -, -, -, -, h⟩ := bounded_retry launchCreateFails clustercreate.plainFlags
  have hall : ∀ j, j < 10 → launchCreateFails.Create .LaunchTemplate j ≠ none := by
    intro j _
    simp [launchCreateFails]
  exact ⟨hall, (h hall).1⟩

/-- C12. Pre-wait for a terminating scaling group: in a run of cluster-create
the wait for deletion is issued only when the auto scaling group was found with
a status that is not blank, and then every run that starts the step of the
group issues it, before the create call; when the wait fails no create call
for the group is issued, the error is printed and `Run` returns from the step;
when it goes through the create call is issued. -/
theorem prewait (env : Env) (flags : clustercreate.Flags) (g : Option Resource)
    (hg : env.Retrieve .ScalingGroup = .ok g) :
    (Event.waitAutoScalingGroupDeletion ∈ (clustercreate.Run env flags).trace →
      lifecycle .ScalingGroup g = .Terminating) ∧
    (∀ e ∈ (clustercreate.Run env flags).trace, e.owner = some .ScalingGroup →
      lifecycle .ScalingGroup g = .Terminating →
      Event.waitAutoScalingGroupDeletion ∈ (clustercreate.Run env flags).trace) ∧
    (∀ i, Before .waitAutoScalingGroupDeletion (.Create .ScalingGroup i)
      (clustercreate.Run env flags).trace) ∧
    (Event.waitAutoScalingGroupDeletion ∈ (clustercreate.Run env flags).trace →
      env.waitAutoScalingGroupDeletion ≠ none →
      (∀ i, Event.Create .ScalingGroup i ∉ (clustercreate.Run env flags).trace) ∧
      Event.Errorln (.action .ScalingGroup) ∈ (clustercreate.Run env flags).trace ∧
      (clustercreate.Run env flags).res = .error ⟨.action .ScalingGroup, none⟩) ∧
    (Event.waitAutoScalingGroupDeletion ∈ (clustercreate.Run env flags).trace →
      env.waitAutoScalingGroupDeletion = none →
      Event.Create .ScalingGroup 0 ∈ (clustercreate.Run env flags).trace) := by
  have key : ∀ e ∈ (clustercreate.Run env flags).trace, e.owner = some .ScalingGroup →
      e ∈ (clustercreate.createAutoScalingGroup env g).trace ∧
      (∀ e' ∈ (clustercreate.createAutoScalingGroup env g).trace,
        e' ∈ (clustercreate.Run env flags).trace) ∧
      ∀ x, (clustercreate.createAutoScalingGroup env g).res = .error x →
        (clustercreate.Run env flags).res = .error x := by
    intro e he ho
    obtain ⟨g', hg', h⟩ := clustercreate.Run_scaling he ho
    rw [hg] at hg'
    cases hg'
    exact h
  obtain ⟨hiff, hfail, hgo⟩ := clustercreate.createAutoScalingGroup_wait env g
  refine ⟨?_, ?_, ?_, ?_, ?_⟩
  · intro hw
    exact hiff.1 (key _ hw rfl).1
  · intro e he ho hl
    exact (key e he ho).2.1 _ (hiff.2 hl)
  · intro i
    exact before_of_pairwise
      (List.Pairwise.sublist (clustercreate.Run_sub_create env flags)
        (clustercreate.runSkeleton_wait i)) (by simp)
  · intro hw hne
    obtain ⟨hin, hall, hexit⟩ := key _ hw rfl
    obtain ⟨hno, herr, hres⟩ := hfail hin hne
    exact ⟨fun i hi => hno i (key _ hi rfl).1, hall _ herr, hexit _ hres⟩
  · intro hw hnone
    obtain ⟨hin, hall, -⟩ := key _ hw rfl
    exact hall _ (hgo hin hnone)

/-- C12 on an account whose auto scaling group is being deleted: the wait is
issued and, as it goes through, so is the create call. -/
theorem prewait_witness :
    lifecycle .ScalingGroup (some ⟨"Delete in progress"⟩) = .Terminating ∧
    Event.waitAutoScalingGroupDeletion ∈
      (clustercreate.Run terminatingGroup clustercreate.plainFlags).trace ∧
    Event.Create .ScalingGroup 0 ∈
      (clustercreate.Run terminatingGroup clustercreate.plainFlags).trace :=
  ⟨by decide, by decide,
    (prewait terminatingGroup clustercreate.plainFlags (some ⟨"Delete in progress"⟩) rfl).2.2.2.2
      (by decide) rfl⟩

/-- C13, as stated, fails for an auto scaling group that is being deleted: it
is not Absent and carries the provenance marker, and cluster-delete does not
select it. -/
theorem delete_membership_counterexample :
    terminatingGroup.Retrieve .ScalingGroup = .ok (some ⟨"Delete in progress"⟩) ∧
    lifecycle .ScalingGroup (some ⟨"Delete in progress"⟩) = .Terminating ∧
    lifecycle .ScalingGroup (some ⟨"Delete in progress"⟩) ≠ .Absent ∧
    terminatingGroup.RetrieveTags .ScalingGroup =
      .ok [(core.AWSTagNameCreatedTimestamp, "1478000000")] ∧
    hasMarker [(core.AWSTagNameCreatedTimestamp, "1478000000")] = true ∧
    (clusterdelete.identify terminatingGroup).res = .ok ⟨true, true, true, false, true, true⟩ ∧
    (⟨true, true, true, false, true, true⟩ : Selection).has .ScalingGroup = false :=
  ⟨rfl, by decide, by decide, rfl, by decide, rfl, rfl⟩

/-- C13, amended: when every read went through, cluster-delete selects the
security group, and likewise the auto scaling group, if and only if it is
present and usable (neither Absent nor Terminating) and its tags carry the
provenance marker; an auto scaling group that is Terminating is not
selected. -/
theorem delete_membership (env : Env) (sel : Selection) (K : ResourceKind)
    (r : Option Resource) (hK : K = .InstanceSecurityGroup ∨ K = .ScalingGroup)
    (h : (clusterdelete.identify env).res = .ok sel) (hr : env.Retrieve K = .ok r) :
    (sel.has K = true ↔
      (lifecycle K r).usable = true ∧ ∃ t, env.RetrieveTags K = .ok t ∧ hasMarker t = true) ∧
    (lifecycle K r = .Terminating → sel.has K = false) :=
  clusterdelete.selected_iff_delete env sel K r hK h hr

/-- C13, amended, on the full account: the auto scaling group is Active and
tagged, and selected. -/
theorem delete_membership_witness :
    ((⟨true, true, true, true, true, true⟩ : Selection).has .ScalingGroup = true ↔
      (lifecycle .ScalingGroup (some ⟨""⟩)).usable = true ∧
        ∃ t, fullAccount.RetrieveTags .ScalingGroup = .ok t ∧ hasMarker t = true) ∧
    (lifecycle .ScalingGroup (some ⟨""⟩) = .Terminating →
      (⟨true, true, true, true, true, true⟩ : Selection).has .ScalingGroup = false) :=
  delete_membership fullAccount ⟨true, true, true, true, true, true⟩ .ScalingGroup
    (some ⟨""⟩) (Or.inr rfl) rfl rfl

/-- C14, as stated, fails: on an empty account cluster-create creates the six
kinds in the order instance profile, security group, launch configuration,
auto scaling group, ECS cluster, service role; on the full account
cluster-delete deletes them in the order auto scaling group, launch
configuration, instance profile, security group, ECS cluster, service role,
which is not the reverse. -/
theorem deletion_order_counterexample :
    (clustercreate.inspect emptyAccount clustercreate.plainFlags).res =
      .ok ⟨Selection.all, none⟩ ∧
    (clusterdelete.identify fullAccount).res = .ok Selection.all ∧
    createdKinds (clustercreate.Run emptyAccount clustercreate.plainFlags).trace =
      [.InstanceProfile, .InstanceSecurityGroup, .LaunchTemplate, .ScalingGroup,
        .ComputeCluster, .ServiceRole] ∧
    deletedKinds (clusterdelete.Run fullAccount ⟨true, false⟩).trace =
      [.ScalingGroup, .LaunchTemplate, .InstanceProfile, .InstanceSecurityGroup,
        .ComputeCluster, .ServiceRole] ∧
    deletedKinds (clusterdelete.Run fullAccount ⟨true, false⟩).trace ≠
      (createdKinds (clustercreate.Run emptyAccount clustercreate.plainFlags).trace).reverse :=
  ⟨rfl, rfl, by decide, by decide, by decide⟩

/-- C14, amended: when all six kinds are selected and the run reaches its last
line (in cluster-delete: with the scale-down gone through), cluster-create
issues its create calls in the order instance profile, security group, launch
configuration, auto scaling group, ECS cluster, service role, and
cluster-delete its delete calls in the order auto scaling group, launch
configuration, instance profile, security group, ECS cluster, service role: a
kind is deleted before the kinds it depends on and created after them, and the
order of the other kinds is not reversed. -/
theorem deletion_order (ec : Env) (cf : clustercreate.Flags) (st : clustercreate.Identified)
    (ed : Env) (df : clusterdelete.Flags)
    (hc : (clustercreate.inspect ec cf).res = .ok st) (hcs : st.sel = Selection.all)
    (hcr : (clustercreate.Run ec cf).res = .ok ())
    (hd : (clusterdelete.identify ed).res = .ok Selection.all)
    (hdr : (clusterdelete.Run ed df).res = .ok ())
    (hsd : ed.scaleDownAutoScalingGroup = none) :
    createdKinds (clustercreate.Run ec cf).trace =
      [.InstanceProfile, .InstanceSecurityGroup, .LaunchTemplate, .ScalingGroup,
        .ComputeCluster, .ServiceRole] ∧
    deletedKinds (clusterdelete.Run ed df).trace =
      [.ScalingGroup, .LaunchTemplate, .InstanceProfile, .InstanceSecurityGroup,
        .ComputeCluster, .ServiceRole] ∧
    ∀ a b, dependsOn a b = true →
      (createdKinds (clustercreate.Run ec cf).trace).indexOf b <
        (createdKinds (clustercreate.Run ec cf).trace).indexOf a ∧
      (deletedKinds (clusterdelete.Run ed df).trace).indexOf a <
        (deletedKinds (clusterdelete.Run ed df).trace).indexOf b := by
  have h1 := clustercreate.created_all hc hcr (fun k => by rw [hcs]; cases k <;> rfl)
  have h2 := clusterdelete.deleted_all hd hdr hsd (fun k => by cases k <;> rfl)
  refine ⟨h1, h2, ?_⟩
  rw [h1, h2]
  intro a b hab
  cases a <;> cases b <;> first | decide | cases hab

/-- C14, amended, on a create run over the empty account and a delete run over
the full account. -/
theorem deletion_order_witness :
    createdKinds (clustercreate.Run emptyAccount clustercreate.plainFlags).trace =
      [.InstanceProfile, .InstanceSecurityGroup, .LaunchTemplate, .ScalingGroup,
        .ComputeCluster, .ServiceRole] ∧
    deletedKinds (clusterdelete.Run fullAccount ⟨true, false⟩).trace =
      [.ScalingGroup, .LaunchTemplate, .InstanceProfile, .InstanceSecurityGroup,
        .ComputeCluster, .ServiceRole] :=
  have h := deletion_order emptyAccount clustercreate.plainFlags ⟨Selection.all, none⟩
    fullAccount ⟨true, false⟩ rfl rfl rfl rfl rfl rfl
  ⟨h.1, h.2.1⟩

/-- C15. Create and delete selections are mutually exclusive: on the same
account, when the reads of both commands went through, no kind is selected by
both cluster-create and cluster-delete; the ECS cluster, the service role and
the launch configuration are each selected by exactly one of the two; and the
auto scaling group, and likewise the security group, is selected by neither
exactly when it is present and usable and its tags lack the provenance
marker. -/
theorem selections_exclusive (env : Env) (flags : clustercreate.Flags)
    (c : clustercreate.Identified) (d : Selection)
    (hc : (clustercreate.inspect env flags).res = .ok c)
    (hd : (clusterdelete.identify env).res = .ok d) :
    (∀ k, ¬ (c.sel.has k = true ∧ d.has k = true)) ∧
    (∀ k, k = .ComputeCluster ∨ k = .ServiceRole ∨ k = .LaunchTemplate →
      (c.sel.has k = true ↔ d.has k = false)) ∧
    (∀ k, k = .ScalingGroup ∨ k = .InstanceSecurityGroup →
      ((c.sel.has k = false ∧ d.has k = false) ↔
        ∃ r t, env.Retrieve k = .ok (some r) ∧ (lifecycle k (some r)).usable = true ∧
          env.RetrieveTags k = .ok t ∧ hasMarker t = false)) := by
  obtain ⟨-, hci⟩ := clustercreate.inspect_ok hc
  obtain ⟨⟨c0, hc0, hs0⟩, ⟨c1, hc1, hs1⟩, ⟨c2, hc2, hs2⟩, ⟨hc3, hs3⟩, hip, ⟨c5, hc5, hs5⟩⟩ :=
    clustercreate.identify_ok_create hci
  obtain ⟨⟨d0, hd0, ht0⟩, ⟨d1, hd1, ht1⟩, ⟨d2, hd2, ht2⟩, ⟨d3, hd3, ht3⟩, ⟨d4, hd4, ht4⟩,
    ⟨d5, hd5, ht5⟩⟩ := clusterdelete.identify_ok_delete hd
  obtain ⟨hg3, hg5⟩ := clusterdelete.identify_tags hd
  have e0 : d0 = c0 := Except.ok.inj (hd0.symm.trans hc0)
  have e1 : d1 = c1 := Except.ok.inj (hd1.symm.trans hc1)
  have e2 : d2 = c2 := Except.ok.inj (hd2.symm.trans hc2)
  have e3 : d3 = c.autoScalingGroup := Except.ok.inj (hd3.symm.trans hc3)
  have e5 : d5 = c5 := Except.ok.inj (hd5.symm.trans hc5)
  subst e0 e1 e2 e5
  have x0 : c.sel.ECSCluster = true ↔ d.ECSCluster = false := by
    rw [hs0, ht0]
    cases d0 with
    | none => simp
    | some r => cases (r.Status == "INACTIVE") <;> simp [bne]
  have x1 : c.sel.ECSServiceRole = true ↔ d.ECSServiceRole = false := by
    rw [hs1, ht1]
    cases d1 <;> simp
  have x2 : c.sel.LaunchConfiguration = true ↔ d.LaunchConfiguration = false := by
    rw [hs2, ht2]
    cases d2 <;> simp
  have x3 : (c.sel.AutoScalingGroup = false ∧ d.AutoScalingGroup = false) ↔
      ∃ r t, env.Retrieve .ScalingGroup = .ok (some r) ∧
        (lifecycle .ScalingGroup (some r)).usable = true ∧
        env.RetrieveTags .ScalingGroup = .ok t ∧ hasMarker t = false := by
    rw [hs3]
    cases hg : c.autoScalingGroup with
    | none =>
      rw [hg] at hc3
      simp [hc3]
    | some g =>
      rw [hg] at hc3
      cases hb : utils.IsBlank g.Status with
      | false => simp [hc3, hb, lifecycle, Lifecycle.usable]
      | true =>
        obtain ⟨t, ht, hdt⟩ := hg3 g hc3 hb
        simp [hc3, hb, lifecycle, Lifecycle.usable, ht, hdt]
  have x5 : (c.sel.InstanceSecurityGroup = false ∧ d.InstanceSecurityGroup = false) ↔
      ∃ r t, env.Retrieve .InstanceSecurityGroup = .ok (some r) ∧
        (lifecycle .InstanceSecurityGroup (some r)).usable = true ∧
        env.RetrieveTags .InstanceSecurityGroup = .ok t ∧ hasMarker t = false := by
    rw [hs5]
    cases d5 with
    | none => simp [hd5]
    | some g =>
      obtain ⟨t, ht, hdt⟩ := hg5 g hd5
      simp [hd5, lifecycle, Lifecycle.usable, ht, hdt]
  have y3 : ¬ (c.sel.AutoScalingGroup = true ∧ d.AutoScalingGroup = true) := by
    rintro ⟨h1, h2⟩
    obtain ⟨r, t, hr, hb, -⟩ := ht3.1 h2
    rw [e3] at hr
    rw [hs3, hr] at h1
    simp [hb] at h1
  have y4 : ¬ (c.sel.InstanceProfile = true ∧ d.InstanceProfile = true) := by
    rintro ⟨h1, h2⟩
    rcases hip with ⟨-, hf⟩ | ⟨-, r, hr, hs⟩
    · rw [hf] at h1
      cases h1
    · have e4 : d4 = r := Except.ok.inj (hd4.symm.trans hr)
      subst e4
      rw [hs] at h1
      rw [ht4] at h2
      cases d4 <;> simp at h1 h2
  have y5 : ¬ (c.sel.InstanceSecurityGroup = true ∧ d.InstanceSecurityGroup = true) := by
    rintro ⟨h1, h2⟩
    obtain ⟨r, t, hr, -⟩ := ht5.1 h2
    rw [hs5, hr] at h1
    simp at h1
  refine ⟨?_, ?_, ?_⟩
  · intro k
    cases k with
    | ComputeCluster =>
      rintro ⟨h1, h2⟩
      have := x0.1 h1
      simp only [Selection.has] at h2
      rw [this] at h2
      cases h2
    | ServiceRole =>
      rintro ⟨h1, h2⟩
      have := x1.1 h1
      simp only [Selection.has] at h2
      rw [this] at h2
      cases h2
    | LaunchTemplate =>
      rintro ⟨h1, h2⟩
      have := x2.1 h1
      simp only [Selection.has] at h2
      rw [this] at h2
      cases h2
    | ScalingGroup => exact y3
    | InstanceProfile => exact y4
    | InstanceSecurityGroup => exact y5
  · rintro k (rfl | rfl | rfl)
    · exact x0
    · exact x1
    · exact x2
  · rintro k (rfl | rfl)
    · exact x3
    · exact x5

/-- C15 on the full account: the auto scaling group is selected by
cluster-delete and not by cluster-create. -/
theorem selections_exclusive_witness :
    (clustercreate.inspect fullAccount clustercreate.plainFlags).res =
      .ok ⟨⟨false, false, false, false, false, false⟩, some ⟨""⟩⟩ ∧
    (clusterdelete.identify fullAccount).res = .ok ⟨true, true, true, true, true, true⟩ ∧
    ¬ ((⟨false, false, false, false, false, false⟩ : Selection).has .ScalingGroup = true ∧
      (⟨true, true, true, true, true, true⟩ : Selection).has .ScalingGroup = true) :=
  ⟨rfl, rfl,
    (selections_exclusive fullAccount clustercreate.plainFlags
      ⟨⟨false, false, false, false, false, false⟩, some ⟨""⟩⟩
      ⟨true, true, true, true, true, true⟩ rfl rfl).1 .ScalingGroup⟩

/-- C16. `Config.Validate` accepts only in-range configurations: when it
returns nil, `Units` is at most `MaxAppUnits`, the memory expression has one
match whose numeric part parses to a number from 1 to `MaxAppMemory`, the
healthy and the unhealthy limit are not 0 and the Docker path is not blank; and
the error it returns is that of the first check the configuration fails, in the
order app name, cluster name, units, CPU, memory, health check, AWS names,
docker path. -/
theorem validate_accepts (core : config.Core) (c : config.Config) :
    (c.Validate core = none →
      c.Units ≤ core.MaxAppUnits ∧
      (core.SizeExpressionRE.FindAllStringSubmatch c.Memory).length = 1 ∧
      (∃ m, strconv.ParseUint (config.numericPart core c) = some m ∧ 1 ≤ m ∧
        m ≤ core.MaxAppMemory) ∧
      c.LoadBalancer.HealthCheck.HealthyLimit ≠ 0 ∧
      c.LoadBalancer.HealthCheck.UnhealthyLimit ≠ 0 ∧
      utils.IsBlank c.Docker.Bin = false) ∧
    c.Validate core = config.Check.order.findSome? (config.Check.run core c) ∧
    ∀ err, c.Validate core = some err →
      ∃ pre k post, config.Check.order = pre ++ k :: post ∧
        (∀ j ∈ pre, config.Check.run core c j = none) ∧ config.Check.run core c k = some err := by
  have hfirst := config.Validate_first core c
  refine ⟨?_, hfirst, ?_⟩
  · intro hnone
    rw [hfirst] at hnone
    have hall : ∀ k ∈ config.Check.order, config.Check.run core c k = none := by
      intro k hk
      exact List.findSome?_eq_none_iff.1 hnone k hk
    obtain ⟨hu, hm, hh, hl, hd⟩ := config.run_none hall
    obtain ⟨hlen, hp⟩ := config.validateMemory_none hm
    exact ⟨hu, hlen, hp, hh, hl, hd⟩
  · intro err herr
    rw [hfirst] at herr
    obtain ⟨pre, k, post, hsplit, hk, hpre⟩ := List.findSome?_eq_some_iff.1 herr
    exact ⟨pre, k, post, hsplit, fun j hj => hpre j hj, hk⟩

/-- C16 on a configuration that `Validate` accepts: 2 units of at most 1000,
memory 512 of at most 16384. -/
theorem validate_accepts_witness :
    config.sampleConfig.Validate config.sampleCore = none ∧
    config.sampleConfig.Units ≤ config.sampleCore.MaxAppUnits ∧
    ∃ m, strconv.ParseUint (config.numericPart config.sampleCore config.sampleConfig) = some m ∧
      1 ≤ m ∧ m ≤ config.sampleCore.MaxAppMemory :=
  have h := (validate_accepts config.sampleCore config.sampleConfig).1 (by decide)
  ⟨by decide, h.1, h.2.2.1⟩
